import Mathlib

/-!
# RPC correlation and dispatch engine (src/src/rpc-service.js)

A shallow embedding of the `RPCService` class, of the wiring found in
`main.js` / `worker.js`, and of the example host of `data-service.js`.

Conventions of the embedding:

* JavaScript values that cross the transport are the data values `Val`.
* A method body writes to a `Map`, calls the console, the transport or a host
  method, or calls a stored promise continuation.  Every such effect is appended,
  in program order, to a list of `Event`s returned next to the new state.
* A promise is represented by its settlement (`Option Settled`).  For the
  promises created by `sendRequest` the service keeps a table `promises`
  (index = identity of the promise); for a promise returned by a host method the
  value is its eventual settlement, `none` meaning that it never settles.
* `handleRequest` attaches its `.then` / `.catch` callbacks to that promise; the
  events they produce once the promise settles are part of the events of
  `handleRequest`.
* The constructor hands `handleResponse` to the transport
  (`attachResponseHandler`), so a call of the transport's `sendRequest` primitive
  may run it before returning.  What such a call does is a `Reentry`; `sendRequest`
  handles the messages it names in the state reached when the primitive is called.
-/

namespace RpcWebWorker

/-! ## Values -/

/-- Data values: what host methods receive, return and throw, and what the
transport carries.  `num` holds an integer-valued number, `nan` is `NaN`, `error`
an `Error` object with its `name` and `message`. -/
inductive Val where
  | undefined
  | null
  | bool (b : Bool)
  | num (n : Int)
  | nan
  | str (s : String)
  | arr (xs : List Val)
  | error (name message : String)
  deriving Repr

mutual
/-- Decision procedure for equality of values. -/
def Val.decEq : (a b : Val) → Decidable (a = b)
  | .undefined, b => by
      cases b
      case undefined => exact isTrue rfl
      all_goals exact isFalse (by intro h; cases h)
  | .null, b => by
      cases b
      case null => exact isTrue rfl
      all_goals exact isFalse (by intro h; cases h)
  | .bool x, b => by
      cases b
      case bool y => exact decidable_of_iff (x = y) (by simp)
      all_goals exact isFalse (by intro h; cases h)
  | .num x, b => by
      cases b
      case num y => exact decidable_of_iff (x = y) (by simp)
      all_goals exact isFalse (by intro h; cases h)
  | .nan, b => by
      cases b
      case nan => exact isTrue rfl
      all_goals exact isFalse (by intro h; cases h)
  | .str x, b => by
      cases b
      case str y => exact decidable_of_iff (x = y) (by simp)
      all_goals exact isFalse (by intro h; cases h)
  | .error n m, b => by
      cases b
      case error n' m' => exact decidable_of_iff (n = n' ∧ m = m') (by simp)
      all_goals exact isFalse (by intro h; cases h)
  | .arr xs, .arr ys => @decidable_of_iff _ (xs = ys) (by simp) (Val.decEqList xs ys)
  | .arr _, .undefined => isFalse (by intro h; cases h)
  | .arr _, .null => isFalse (by intro h; cases h)
  | .arr _, .bool _ => isFalse (by intro h; cases h)
  | .arr _, .num _ => isFalse (by intro h; cases h)
  | .arr _, .nan => isFalse (by intro h; cases h)
  | .arr _, .str _ => isFalse (by intro h; cases h)
  | .arr _, .error _ _ => isFalse (by intro h; cases h)
/-- Decision procedure for equality of lists of values. -/
def Val.decEqList : (xs ys : List Val) → Decidable (xs = ys)
  | [], [] => isTrue rfl
  | [], _ :: _ => isFalse (by intro h; cases h)
  | _ :: _, [] => isFalse (by intro h; cases h)
  | x :: xs, y :: ys =>
      @decidable_of_iff _ (x = y ∧ xs = ys) (by simp) (@instDecidableAnd _ _ (Val.decEq x y) (Val.decEqList xs ys))
end

instance : DecidableEq Val := Val.decEq

/-- Truthiness, as tested by `if (x)` and `!x`. -/
def Val.truthy : Val → Bool
  | .undefined => false
  | .null => false
  | .bool b => b
  | .num n => n != 0
  | .nan => false
  | .str s => s != ""
  | .arr _ => true
  | .error _ _ => true

mutual
/-- Result of `x.toString()`; `none` when the call itself throws a `TypeError`
because `x` is `null` or `undefined`. -/
def Val.toStr : Val → Option String
  | .undefined => none
  | .null => none
  | .bool b => some (if b then "true" else "false")
  | .num n => some (toString n)
  | .nan => some "NaN"
  | .str s => some s
  | .arr xs => some (Val.join xs)
  | .error name message =>
      some (if name = "" then message else if message = "" then name
            else name ++ ": " ++ message)
/-- Array `join(",")`: `null` and `undefined` elements contribute the empty string. -/
def Val.join : List Val → String
  | [] => ""
  | [x] => (Val.toStr x).getD ""
  | x :: y :: rest => (Val.toStr x).getD "" ++ "," ++ Val.join (y :: rest)
end

/-- The `TypeError` raised by calling something that is not a function (message as
worded by V8). -/
def notAFunction (what : String) : Val :=
  .error "TypeError" (what ++ " is not a function")

/-- The `TypeError` raised by reading property `prop` of `null` or `undefined`
(message as worded by V8; the service never inspects it). -/
def cannotRead (of prop : String) : Val :=
  .error "TypeError" ("Cannot read properties of " ++ of ++ " (reading \x27" ++ prop ++ "\x27)")

/-! ## Envelopes -/

/-- The `request` payload of an envelope. -/
structure Request where
  hostName : String
  methodName : String
  args : List Val
  deriving DecidableEq, Repr

/-- The `response` payload of an envelope; `err = none` when the field is absent. -/
structure Response where
  returnValue : Val
  err : Option String
  deriving DecidableEq, Repr

/-- A message as seen by the handlers: `id`, `type` and the two payload fields,
either of which may be missing. -/
structure RPCMessage where
  id : Nat
  type : String
  request : Option Request
  response : Option Response
  deriving DecidableEq, Repr

/-! ## Promises -/

/-- A settled promise. -/
inductive Settled where
  | fulfilled (v : Val)
  | rejected (e : Val)
  deriving DecidableEq, Repr

/-- The effect of a promise's `resolve` / `reject` function on the promise table:
only a promise that is still pending changes. -/
def settle (promises : List (Option Settled)) (future : Nat) (o : Settled) :
    List (Option Settled) :=
  match promises[future]? with
  | some none => promises.set future (some o)
  | _ => promises

/-! ## Hosts -/

/-- What `method.apply(host, args)` does: return a value that is not future-like,
return a future-like value (given by its eventual settlement), or throw. -/
inductive Completion where
  | returns (v : Val)
  | returnsFuture (p : Option Settled)
  | throws (e : Val)

/-- The value of `host[methodName]`: a function, or anything else. -/
inductive Member where
  | value (v : Val)
  | function (f : List Val → Completion)

/-- A value passed to `registerHost`, seen through the two observations the
service makes of it: its truthiness (`!host`) and property lookup
(`host[methodName]`, prototype chain included). -/
structure Host where
  truthy : Bool
  get : String → Member

/-! ## Maps -/

/-- A `Map`: entries in insertion order, keys pairwise distinct. -/
abbrev JSMap (κ α : Type) := List (κ × α)

/-- The method `Map.prototype.get`. -/
def JSMap.get {κ α : Type} [DecidableEq κ] : JSMap κ α → κ → Option α
  | [], _ => none
  | (k', v) :: rest, k => if k' = k then some v else JSMap.get rest k

/-- The method `Map.prototype.set`: an existing key keeps its place. -/
def JSMap.set {κ α : Type} [DecidableEq κ] : JSMap κ α → κ → α → JSMap κ α
  | [], k, v => [(k, v)]
  | (k', v') :: rest, k, v =>
      if k' = k then (k, v) :: rest else (k', v') :: JSMap.set rest k v

/-- The method `Map.prototype.delete`. -/
def JSMap.delete {κ α : Type} [DecidableEq κ] (m : JSMap κ α) (k : κ) : JSMap κ α :=
  m.filter (fun e => decide (e.1 ≠ k))

/-! ## Service state -/

/-- A record of `pendingRequests`.  `future` identifies the promise whose
`resolve` and `reject` functions the record stores. -/
structure PendingRequest where
  future : Nat
  id : Nat
  methodName : String
  args : List Val
  deriving DecidableEq, Repr

/-- What a call of the transport's `sendRequest` primitive does besides returning:
before the call ends the transport passes the messages `delivered`, in order, to
the handler it received through `attachResponseHandler` (a synchronous
transport), and the call then throws `thrown`, or returns when that is `none`. -/
structure Reentry where
  delivered : List RPCMessage
  thrown : Option Val
  deriving DecidableEq, Repr

/-- The transport primitives of `config`.  A primitive that is not configured is
`none`.  A configured `sendResponse` maps the envelope to `some e` when it throws
`e` and to `none` when it returns.  A configured `sendRequest` maps the envelope
to `none` when the call returns and the transport has done nothing else by then
(as `postMessage` does), and to `some r` when it behaves as `r` describes. -/
structure ApiWrapper where
  sendResponse : Option (RPCMessage → Option Val)
  sendRequest : Option (RPCMessage → Option Reentry)

/-- Effects, in program order: writes to `pendingRequests` (`pendingSet`,
`pendingDelete`), `console.log` and `console.warn` (`log`, `warn`), calls of the
transport primitives (`sendRequest`, `sendResponse`), the call
`method.apply(host, args)` (`apply`), and calls of a record's stored `resolve` and
`reject` (`resolve`, `reject`, with the promise they belong to). -/
inductive Event where
  | pendingSet (id : Nat) (record : PendingRequest)
  | pendingDelete (id : Nat)
  | log (text : String) (message : RPCMessage)
  | warn (text : String)
  | sendRequest (message : RPCMessage)
  | sendResponse (message : RPCMessage)
  | apply (hostName methodName : String) (args : List Val)
  | resolve (future : Nat) (v : Val)
  | reject (future : Nat) (e : Val)
  deriving DecidableEq, Repr

/-- The fields of an `RPCService` instance, and the promises it has created. -/
structure RPCService where
  pendingRequests : JSMap Nat PendingRequest
  hosts : JSMap String Host
  nextMessageId : Nat
  apiWrapper : ApiWrapper
  promises : List (Option Settled)

/-- Outcome of a method call: the new state, the effects, and the returned value
or the exception thrown to the caller. -/
structure Step (α : Type) where
  service : RPCService
  events : List Event
  result : Except Val α

/-- The constructor: empty maps, counter at 0. -/
def RPCService.new (config : ApiWrapper) : RPCService :=
  { pendingRequests := [], hosts := [], nextMessageId := 0,
    apiWrapper := config, promises := [] }

/-- The value of `n + 1` in double precision, for an integer `0 ≤ n ≤ 2^53`:
exact below `2^53`, while `2^53 + 1` is not representable and rounds (ties to
even) back to `2^53`.  The counter starts at 0, so it never leaves this range. -/
def increment (n : Nat) : Nat :=
  if n < 2 ^ 53 then n + 1 else n

/-- Method `registerHost(hostName, host)`. -/
def RPCService.registerHost (s : RPCService) (hostName : String) (host : Host) :
    RPCService :=
  { s with hosts := JSMap.set s.hosts hostName host }

/-! ## Dynamic proxy -/

/-- The object wrapped by the proxy: its only own property is `hostName`. -/
structure ProxiedObject where
  hostName : String
  deriving DecidableEq, Repr

/-- Names of the members every plain object inherits from `Object.prototype`
(all of them functions, except `__proto__`, which reads as the prototype object). -/
def objectPrototypeMembers : List String :=
  ["constructor", "__defineGetter__", "__defineSetter__", "hasOwnProperty",
   "__lookupGetter__", "__lookupSetter__", "isPrototypeOf", "propertyIsEnumerable",
   "toString", "valueOf", "__proto__", "toLocaleString"]

/-- What a member access on the proxy evaluates to. -/
inductive ProxyMember where
  | undefined
  | own (v : Val)
  | inherited (name : String)
  | remote (methodName hostName : String)
  deriving DecidableEq, Repr

/-- The `get` trap built by `createHandler`. -/
def createHandler (obj : ProxiedObject) (methodName : String) : ProxyMember :=
  if methodName = "then" ∨ methodName = "catch" then ProxyMember.undefined
  else if methodName = "hostName" then
    if (Val.str obj.hostName).truthy then ProxyMember.own (Val.str obj.hostName)
    else ProxyMember.remote methodName obj.hostName
  else if methodName ∈ objectPrototypeMembers then ProxyMember.inherited methodName
  else ProxyMember.remote methodName obj.hostName

/-- Method `createProxy(hostName)`: a proxy over the object whose only own
property is `hostName`. -/
def createProxy (hostName : String) : ProxiedObject :=
  { hostName := hostName }

/-- Member access on a proxy goes through the `get` trap. -/
def ProxiedObject.get (proxy : ProxiedObject) (methodName : String) : ProxyMember :=
  createHandler proxy methodName

/-! ## Host registry and invocation -/

/-- The promise returned by `executeHostMethod`, with the host method invocation
it performed, if any. -/
structure Execution where
  promise : Option Settled
  events : List Event
  deriving DecidableEq, Repr

/-- Method `executeHostMethod(hostName, methodName, args)`. -/
def RPCService.executeHostMethod (s : RPCService) (hostName methodName : String)
    (args : List Val) : Execution :=
  let invalidHost : Execution :=
    { promise := some (Settled.rejected (Val.str ("Invalid host name \"" ++ hostName ++ "\"")))
      events := [] }
  match JSMap.get s.hosts hostName with
  | none => invalidHost
  | some host =>
      if !host.truthy then invalidHost
      else
        match host.get methodName with
        | Member.value _ =>
            { promise := some (Settled.rejected (Val.str
                ("Invalid method name \"" ++ methodName ++ "\" on host \"" ++ hostName ++ "\"")))
              events := [] }
        | Member.function method =>
            let applied := [Event.apply hostName methodName args]
            match method args with
            | Completion.throws err =>
                { promise := some (Settled.rejected err), events := applied }
            | Completion.returnsFuture p => { promise := p, events := applied }
            | Completion.returns Val.undefined =>
                { promise := some (Settled.fulfilled Val.undefined), events := applied }
            | Completion.returns Val.null =>
                { promise := some (Settled.rejected (cannotRead "null" "then"))
                  events := applied }
            | Completion.returns returnValue =>
                { promise := some (Settled.fulfilled returnValue), events := applied }

/-! ## Message router -/

/-- The call `this.apiWrapper.sendResponse(rpcMessage)`: its events and the
exception it raises, if any. -/
def RPCService.callSendResponse (s : RPCService) (rpcMessage : RPCMessage) :
    List Event × Option Val :=
  match s.apiWrapper.sendResponse with
  | none => ([], some (notAFunction "this.apiWrapper.sendResponse"))
  | some send => ([Event.sendResponse rpcMessage], send rpcMessage)

/-- The `.then` callback of `handleRequest`. -/
def RPCService.onFulfilled (s : RPCService) (id : Nat) (returnValue : Val) :
    List Event × Option Val :=
  let rpcMessage : RPCMessage :=
    { id := id, type := "response", request := none,
      response := some { returnValue := returnValue, err := none } }
  let sent := s.callSendResponse rpcMessage
  (Event.log "Sending response" rpcMessage :: sent.1, sent.2)

/-- The `.catch` callback of `handleRequest`.  When `err.toString()` throws, the
callback ends there; whatever it throws rejects a promise nobody holds. -/
def RPCService.onRejected (s : RPCService) (id : Nat) (err : Val) : List Event :=
  match err.toStr with
  | none => []
  | some text =>
      (s.callSendResponse
        { id := id, type := "response", request := none,
          response := some { returnValue := Val.null, err := some text } }).1

/-- Method `handleRequest(message)`. -/
def RPCService.handleRequest (s : RPCService) (message : RPCMessage) : Step Val :=
  if message.type = "request" then
    match message.request with
    | none =>
        { service := s
          events := [Event.log "Handling request" message]
          result := Except.error (cannotRead "undefined" "hostName") }
    | some request =>
        let execution := s.executeHostMethod request.hostName request.methodName request.args
        let callbacks : List Event :=
          match execution.promise with
          | none => []
          | some (Settled.fulfilled returnValue) =>
              match s.onFulfilled message.id returnValue with
              | (events, none) => events
              | (events, some err) => events ++ s.onRejected message.id err
          | some (Settled.rejected err) => s.onRejected message.id err
        { service := s
          events := Event.log "Handling request" message :: (execution.events ++ callbacks)
          result := Except.ok (Val.bool true) }
  else { service := s, events := [], result := Except.ok Val.undefined }

/-- Method `handleResponse(message)`. -/
def RPCService.handleResponse (s : RPCService) (message : RPCMessage) : Step Val :=
  if message.type = "response" then
    match JSMap.get s.pendingRequests message.id with
    | none =>
        { service := s
          events := [Event.log "Handling response" message,
                     Event.warn "RPCService received a response for a non pending request"]
          result := Except.ok Val.undefined }
    | some pendingRequest =>
        let s1 : RPCService :=
          { s with pendingRequests := JSMap.delete s.pendingRequests message.id }
        let before : List Event :=
          [Event.log "Handling response" message, Event.pendingDelete message.id]
        match message.response with
        | none =>
            { service := s1, events := before
              result := Except.error (cannotRead "undefined" "err") }
        | some response =>
            match response.err.filter (fun e => (Val.str e).truthy) with
            | some err =>
                { service :=
                    { s1 with
                      promises := settle s1.promises pendingRequest.future
                        (Settled.rejected (Val.str err)) }
                  events := before ++ [Event.reject pendingRequest.future (Val.str err)]
                  result := Except.ok Val.undefined }
            | none =>
                { service :=
                    { s1 with
                      promises := settle s1.promises pendingRequest.future
                        (Settled.fulfilled response.returnValue) }
                  events := before ++ [Event.resolve pendingRequest.future response.returnValue]
                  result := Except.ok Val.undefined }
  else { service := s, events := [], result := Except.ok Val.undefined }

/-! ## Caller role -/

/-- The attached response handler called on each message in turn. -/
def RPCService.handleResponses (s : RPCService) : List RPCMessage → RPCService × List Event
  | [] => (s, [])
  | m :: rest =>
      ((RPCService.handleResponses (s.handleResponse m).service rest).1,
       (s.handleResponse m).events ++
         (RPCService.handleResponses (s.handleResponse m).service rest).2)

/-- The service as it is when `sendRequest` calls the transport: the counter has
advanced, the record of the request is in `pendingRequests`, and the promise
being constructed is pending. -/
def RPCService.atSend (s : RPCService) (methodName : String) (args : List Val) :
    RPCService :=
  { s with
    nextMessageId := increment s.nextMessageId
    pendingRequests := JSMap.set s.pendingRequests s.nextMessageId
      { future := s.promises.length, id := s.nextMessageId,
        methodName := methodName, args := args }
    promises := s.promises ++ [none] }

/-- Method `sendRequest(methodName, args, hostName)`.  The body runs inside a
`new Promise` executor, so the call always returns the promise (`result` is its
index in `promises`); an exception raised inside the executor rejects that
promise, when it is still pending, instead of reaching the caller.  What the
transport passes to the response handler during the call is handled in the state
`s1` (which is `atSend`) reached before the transport is called. -/
def RPCService.sendRequest (s : RPCService) (methodName : String) (args : List Val)
    (hostName : String) : Step Nat :=
  let future := s.promises.length
  let message : RPCMessage :=
    { id := s.nextMessageId, type := "request",
      request := some { hostName := hostName, methodName := methodName, args := args },
      response := none }
  let record : PendingRequest :=
    { future := future, id := message.id, methodName := methodName, args := args }
  let s1 : RPCService :=
    { s with
      nextMessageId := increment s.nextMessageId
      pendingRequests := JSMap.set s.pendingRequests message.id record
      promises := s.promises ++ [none] }
  let before : List Event :=
    [Event.pendingSet message.id record, Event.log "Sending request" message]
  match s.apiWrapper.sendRequest with
  | none =>
      { service :=
          { s1 with
            promises := settle s1.promises future
              (Settled.rejected (notAFunction "this.apiWrapper.sendRequest")) }
        events := before
        result := Except.ok future }
  | some send =>
      match send message with
      | none =>
          { service := s1
            events := before ++ [Event.sendRequest message]
            result := Except.ok future }
      | some during =>
          let inside := s1.handleResponses during.delivered
          match during.thrown with
          | none =>
              { service := inside.1
                events := before ++ [Event.sendRequest message] ++ inside.2
                result := Except.ok future }
          | some e =>
              { service :=
                  { inside.1 with
                    promises := settle inside.1.promises future (Settled.rejected e) }
                events := before ++ [Event.sendRequest message] ++ inside.2
                result := Except.ok future }

/-- Calling the value of a member access with `args`.  The function made on the
fly calls `sendRequest` and returns its promise; `undefined`, a string and the
prototype object read through `__proto__` are not callable; an inherited built-in
function runs without touching the service (its return value is not represented,
`none`). -/
def RPCService.call (s : RPCService) (member : ProxyMember) (args : List Val) :
    Step (Option Nat) :=
  match member with
  | ProxyMember.remote methodName hostName =>
      let r := s.sendRequest methodName args hostName
      { service := r.service, events := r.events, result := r.result.map some }
  | ProxyMember.inherited name =>
      { service := s, events := []
        result :=
          if name = "__proto__" then Except.error (notAFunction "proxy member")
          else Except.ok none }
  | ProxyMember.own _ =>
      { service := s, events := [], result := Except.error (notAFunction "proxy member") }
  | ProxyMember.undefined =>
      { service := s, events := [], result := Except.error (notAFunction "proxy member") }

/-! ## Sequences of calls -/

/-- The calls that client code and the transport make on a service. -/
inductive Op where
  | registerHost (hostName : String) (host : Host)
  | sendRequest (methodName : String) (args : List Val) (hostName : String)
  | proxyCall (hostName member : String) (args : List Val)
  | handleRequest (message : RPCMessage)
  | handleResponse (message : RPCMessage)

/-- One call: the new state and its events.  `proxyCall h n args` is
`createProxy(h)[n](...args)`. -/
def RPCService.step (s : RPCService) : Op → RPCService × List Event
  | Op.registerHost hostName host => (s.registerHost hostName host, [])
  | Op.sendRequest methodName args hostName =>
      ((s.sendRequest methodName args hostName).service,
       (s.sendRequest methodName args hostName).events)
  | Op.proxyCall hostName member args =>
      ((s.call ((createProxy hostName).get member) args).service,
       (s.call ((createProxy hostName).get member) args).events)
  | Op.handleRequest message =>
      ((s.handleRequest message).service, (s.handleRequest message).events)
  | Op.handleResponse message =>
      ((s.handleResponse message).service, (s.handleResponse message).events)

/-- A sequence of calls, one after the other. -/
def RPCService.run : RPCService → List Op → RPCService × List Event
  | s, [] => (s, [])
  | s, op :: ops =>
      ((RPCService.run (s.step op).1 ops).1, (s.step op).2 ++ (RPCService.run (s.step op).1 ops).2)

/-- Whether a member access produced the function that forwards to `sendRequest`. -/
def ProxyMember.isRemote : ProxyMember → Bool
  | ProxyMember.remote _ _ => true
  | _ => false

/-- Whether a call is a call of `sendRequest`, direct or through a proxy. -/
def Op.isSend : Op → Bool
  | Op.sendRequest _ _ _ => true
  | Op.proxyCall hostName member _ => ((createProxy hostName).get member).isRemote
  | _ => false

/-- The request envelopes built by `sendRequest`, in order (each is reported by
its `console.log("Sending request", message)`). -/
def requestsBuilt (events : List Event) : List RPCMessage :=
  events.filterMap fun e =>
    match e with
    | Event.log text message => if text = "Sending request" then some message else none
    | _ => none

/-- The envelopes handed to the transport's `sendRequest`, in order. -/
def requestsSent (events : List Event) : List RPCMessage :=
  events.filterMap fun e =>
    match e with
    | Event.sendRequest message => some message
    | _ => none

/-- The envelopes handed to the transport's `sendResponse`, in order. -/
def responsesSent (events : List Event) : List RPCMessage :=
  events.filterMap fun e =>
    match e with
    | Event.sendResponse message => some message
    | _ => none

/-- The calls of stored `resolve` / `reject` functions, in order. -/
def completions (events : List Event) : List (Nat × Settled) :=
  events.filterMap fun e =>
    match e with
    | Event.resolve future v => some (future, Settled.fulfilled v)
    | Event.reject future err => some (future, Settled.rejected err)
    | _ => none

/-- The host method invocations, in order. -/
def applications (events : List Event) : List Event :=
  events.filter fun e =>
    match e with
    | Event.apply _ _ _ => true
    | _ => false

/-! ## Wiring of main.js and worker.js -/

/-- The primitive `postMessage` applied to an envelope of data values: it returns
normally, having called nothing of the service, and the other side receives the
envelope unchanged later on. -/
def postMessage {α : Type} : RPCMessage → Option α :=
  fun _ => none

/-- The configuration of worker.js (caller side): `sendRequest` and
`attachResponseHandler`. -/
def workerConfig : ApiWrapper :=
  { sendRequest := some postMessage, sendResponse := none }

/-- The configuration of main.js (host side): `sendResponse` and
`attachRequestHandler`. -/
def mainConfig : ApiWrapper :=
  { sendResponse := some postMessage, sendRequest := none }

/-- The handler attached by `attachRequestHandler`: each envelope posted by the
caller is passed to the host side's `handleRequest`. -/
def deliverRequests (host : RPCService) (messages : List RPCMessage) : List Event :=
  (messages.map fun m => (host.handleRequest m).events).flatten

/-- The handler attached by `attachResponseHandler`: each envelope posted by the
host side is passed to the caller's `handleResponse`. -/
def deliverResponses (caller : RPCService) (messages : List RPCMessage) : RPCService :=
  messages.foldl (fun c m => (c.handleResponse m).service) caller

/-- A loss-free exchange: what the caller handed to its transport (among
`events`) is delivered to the host side, and what the host side hands to its
transport in return is delivered to the caller, whose state is `caller` when the
responses arrive.  Returns the caller afterwards. -/
def relay (host caller : RPCService) (events : List Event) : RPCService :=
  deliverResponses caller (responsesSent (deliverRequests host (requestsSent events)))

/-- One remote call end to end: `sendRequest` on the caller, then the exchange.
Returns the caller afterwards and the promise `sendRequest` returned. -/
def remoteCall (caller host : RPCService) (methodName : String) (args : List Val)
    (hostName : String) : RPCService × Nat :=
  (relay host (caller.sendRequest methodName args hostName).service
      (caller.sendRequest methodName args hostName).events,
    caller.promises.length)

/-- State of promise `future` of a service: `none` while pending. -/
def RPCService.outcome (s : RPCService) (future : Nat) : Option Settled :=
  (s.promises[future]?).join

/-! ## Scenarios -/

/-- A host object given by its methods.  A name outside `methods` reads as
`undefined` (an object without prototype). -/
def Host.ofMethods (methods : JSMap String (List Val → Completion)) : Host :=
  { truthy := true
    get := fun name =>
      match JSMap.get methods name with
      | some f => Member.function f
      | none => Member.value Val.undefined }

/-- A falsy value (`null`, `undefined`, `false`, `0`, the empty string) passed as
host.  Its members are never looked up. -/
def Host.falsy : Host :=
  { truthy := false, get := fun _ => Member.value Val.undefined }

/-- The host `{ boom() { throw e }, fail() { return Promise.reject(e) },
give() { return e } }`. -/
def Host.sample (e : Val) : Host :=
  Host.ofMethods
    [("boom", fun _ => Completion.throws e),
     ("fail", fun _ => Completion.returnsFuture (some (Settled.rejected e))),
     ("give", fun _ => Completion.returns e)]

/-- The host side of main.js with `Host.sample e` registered as "Sample". -/
def sampleMain (e : Val) : RPCService :=
  (RPCService.new mainConfig).registerHost "Sample" (Host.sample e)

/-- The caller of worker.js before its first request. -/
def freshWorker : RPCService :=
  RPCService.new workerConfig

/-- The caller of worker.js after `proxy.processData([1, 4, 9])` has been issued:
request 0 is pending. -/
def waitingWorker : RPCService :=
  (freshWorker.call ((createProxy "DataService").get "processData")
    [Val.arr [Val.num 1, Val.num 4, Val.num 9]]).service

/-- A request envelope. -/
def requestFor (id : Nat) (hostName methodName : String) (args : List Val) : RPCMessage :=
  { id := id, type := "request",
    request := some { hostName := hostName, methodName := methodName, args := args },
    response := none }

/-- A response envelope. -/
def responseFor (id : Nat) (returnValue : Val) (err : Option String) : RPCMessage :=
  { id := id, type := "response", request := none,
    response := some { returnValue := returnValue, err := err } }

/-- A caller whose transport primitive `sendRequest` throws `e` on every call. -/
def failingConfig (e : Val) : ApiWrapper :=
  { sendRequest := some (fun _ => some { delivered := [], thrown := some e })
    sendResponse := none }

/-- A caller over a synchronous transport that answers at once: before the
primitive `sendRequest` returns, it passes the response with the envelope's id and
the return value `v` to the response handler. -/
def answeringConfig (v : Val) : ApiWrapper :=
  { sendRequest := some (fun m =>
      some { delivered := [responseFor m.id v none], thrown := none })
    sendResponse := none }

/-- The host side of main.js with a falsy value registered as "Zero". -/
def zeroMain : RPCService :=
  (RPCService.new mainConfig).registerHost "Zero" Host.falsy

/-! ## The example hosts -/

/-- The operation `ToPrimitive`: an array becomes its `join(",")`, an `Error`
object its `toString()`. -/
def Val.toPrimitive : Val → Val
  | .arr xs => .str (Val.join xs)
  | .error name message => .str ((Val.toStr (.error name message)).getD "")
  | v => v

/-- The operation `ToString` on a primitive. -/
def Val.primitiveToString : Val → String
  | .undefined => "undefined"
  | .null => "null"
  | v => (Val.toStr v).getD ""

/-- The operation `ToNumber` on a primitive that is not a string; `none` is `NaN`. -/
def Val.toNumber : Val → Option Int
  | .null => some 0
  | .bool b => some (if b then 1 else 0)
  | .num n => some n
  | _ => none

/-- The operator `a + b`: concatenation when either primitive is a string,
numeric addition otherwise. -/
def Val.plus (a b : Val) : Val :=
  match a.toPrimitive, b.toPrimitive with
  | .str s, q => .str (s ++ q.primitiveToString)
  | p, .str t => .str (p.primitiveToString ++ t)
  | p, q =>
      match p.toNumber, q.toNumber with
      | some x, some y => .num (x + y)
      | _, _ => .nan

/-- The method `processData(values)` of data-service.js:
`values.reduce((acc, val) => acc + val, 0)`, `values` being the first argument. -/
def DataService.processData (args : List Val) : Completion :=
  match args.getD 0 Val.undefined with
  | .undefined => Completion.throws (cannotRead "undefined" "reduce")
  | .null => Completion.throws (cannotRead "null" "reduce")
  | .arr xs => Completion.returns (xs.foldl Val.plus (Val.num 0))
  | _ => Completion.throws (notAFunction "values.reduce")

/-- The `DataService` instance of main.js, as far as its method `processData` is
concerned (the members it inherits from `Object.prototype` are not represented). -/
def dataService : Host :=
  Host.ofMethods [("processData", DataService.processData)]

/-- The host side of main.js: `dataService` registered as "DataService". -/
def dataMain : RPCService :=
  (RPCService.new mainConfig).registerHost "DataService" dataService

/-- The example host `{ add(a, b) { return a + b } }`. -/
def calculator : Host :=
  Host.ofMethods
    [("add", fun args =>
        Completion.returns (Val.plus (args.getD 0 Val.undefined) (args.getD 1 Val.undefined)))]

/-- A host side with `calculator` registered as "Calc". -/
def calcMain : RPCService :=
  (RPCService.new mainConfig).registerHost "Calc" calculator

/-- The host `{ direct() { return 42 }, deferred() { return Promise.resolve(42) },
toString() { return "data" } }`. -/
def Host.answers : Host :=
  Host.ofMethods
    [("direct", fun _ => Completion.returns (Val.num 42)),
     ("deferred", fun _ => Completion.returnsFuture (some (Settled.fulfilled (Val.num 42)))),
     ("toString", fun _ => Completion.returns (Val.str "data"))]

/-- A host side with `Host.answers` registered as "Answers". -/
def answersMain : RPCService :=
  (RPCService.new mainConfig).registerHost "Answers" Host.answers

/-- A host side with the host `{}` registered as "Empty", as far as names outside
`Object.prototype` are concerned. -/
def emptyMain : RPCService :=
  (RPCService.new mainConfig).registerHost "Empty" (Host.ofMethods [])

/-- The caller of worker.js after three requests (ids 0, 1 and 2), none answered. -/
def busyWorker : RPCService :=
  (freshWorker.run
    [Op.sendRequest "processData" [Val.arr [Val.num 1]] "DataService",
     Op.sendRequest "processData" [Val.arr [Val.num 2]] "DataService",
     Op.sendRequest "processData" [Val.arr [Val.num 3]] "DataService"]).1

/-! ## Histories -/

/-- The completion `handleResponse` applies for a response payload: `reject(err)`
when `err` is truthy, `resolve(returnValue)` otherwise. -/
def Response.completion (response : Response) : Settled :=
  match response.err.filter (fun e => (Val.str e).truthy) with
  | some err => Settled.rejected (Val.str err)
  | none => Settled.fulfilled response.returnValue

/-- The request envelopes handed to the transport and the response envelopes
handled, in order: `(true, id)` for a call of the transport's `sendRequest` with
an envelope carrying `id`, `(false, id)` for a run of `handleResponse` on a message
of type "response" carrying `id` (reported by its "Handling response"). -/
def lifecycle (events : List Event) : List (Bool × Nat) :=
  events.filterMap fun e =>
    match e with
    | Event.sendRequest message => some (true, message.id)
    | Event.log text message =>
        if text = "Handling response" then some (false, message.id) else none
    | _ => none

/-- Whether, at the end of a history, a request with id `k` was handed to the
transport and no response envelope with id `k` has been handled since. -/
def awaiting (k : Nat) (history : List (Bool × Nat)) : Bool :=
  history.foldl (fun waiting entry => if entry.2 = k then entry.1 else waiting) false

/-! ## Properties -/

section Maps

variable {κ α : Type} [DecidableEq κ]

theorem JSMap.get_set_self (m : JSMap κ α) (k : κ) (v : α) :
    JSMap.get (JSMap.set m k v) k = some v := by
  induction m with
  | nil => simp [JSMap.set, JSMap.get]
  | cons e rest ih =>
      obtain ⟨k', v'⟩ := e
      by_cases h : k' = k
      · simp [JSMap.set, JSMap.get, h]
      · simp [JSMap.set, JSMap.get, h, ih]

theorem JSMap.get_set_ne (m : JSMap κ α) (k k' : κ) (v : α) (hne : k' ≠ k) :
    JSMap.get (JSMap.set m k v) k' = JSMap.get m k' := by
  induction m with
  | nil => simp [JSMap.set, JSMap.get, Ne.symm hne]
  | cons e rest ih =>
      obtain ⟨k₀, v₀⟩ := e
      by_cases h : k₀ = k
      · subst h
        simp [JSMap.set, JSMap.get, Ne.symm hne]
      · by_cases h' : k₀ = k'
        · subst h'
          simp [JSMap.set, JSMap.get, h]
        · simp [JSMap.set, JSMap.get, h, h', ih]

theorem JSMap.get_delete_self (m : JSMap κ α) (k : κ) :
    JSMap.get (JSMap.delete m k) k = none := by
  induction m with
  | nil => simp [JSMap.delete, JSMap.get]
  | cons e rest ih =>
      obtain ⟨k', v'⟩ := e
      by_cases h : k' = k
      · simpa [JSMap.delete, List.filter_cons, h] using ih
      · simpa [JSMap.delete, List.filter_cons, h, JSMap.get] using ih

theorem JSMap.get_delete_ne (m : JSMap κ α) (k k' : κ) (hne : k' ≠ k) :
    JSMap.get (JSMap.delete m k) k' = JSMap.get m k' := by
  induction m with
  | nil => simp [JSMap.delete, JSMap.get]
  | cons e rest ih =>
      obtain ⟨k₀, v₀⟩ := e
      by_cases h : k₀ = k
      · subst h
        simpa [JSMap.delete, List.filter_cons, JSMap.get, Ne.symm hne] using ih
      · by_cases h' : k₀ = k'
        · subst h'
          simp [JSMap.delete, List.filter_cons, h, JSMap.get]
        · simpa [JSMap.delete, List.filter_cons, h, JSMap.get, h'] using ih

end Maps

theorem handleResponse_of_no_record (s : RPCService) (message : RPCMessage)
    (hget : JSMap.get s.pendingRequests message.id = none) :
    (s.handleResponse message).service = s ∧
      completions (s.handleResponse message).events = [] ∧
      (s.handleResponse message).result = Except.ok Val.undefined := by
  unfold RPCService.handleResponse
  by_cases htype : message.type = "response"
  · simp [htype, hget, completions]
  · simp [htype, completions]

theorem handleResponse_of_other_type (s : RPCService) (message : RPCMessage)
    (htype : message.type ≠ "response") :
    (s.handleResponse message).service = s ∧ (s.handleResponse message).events = [] := by
  unfold RPCService.handleResponse
  simp [htype]

theorem handleResponse_rejects (s : RPCService) (message : RPCMessage)
    (record : PendingRequest) (returnValue : Val) (err : String)
    (htype : message.type = "response")
    (hget : JSMap.get s.pendingRequests message.id = some record)
    (hresp : message.response = some { returnValue := returnValue, err := some err })
    (herr : err ≠ "") :
    (s.handleResponse message).service =
        { s with
          pendingRequests := JSMap.delete s.pendingRequests message.id
          promises := settle s.promises record.future (Settled.rejected (Val.str err)) } ∧
      (s.handleResponse message).events =
        [Event.log "Handling response" message, Event.pendingDelete message.id,
         Event.reject record.future (Val.str err)] := by
  unfold RPCService.handleResponse
  simp [htype, hget, hresp, Option.filter, Val.truthy, herr]

theorem handleResponse_resolves (s : RPCService) (message : RPCMessage)
    (record : PendingRequest) (returnValue : Val) (err : Option String)
    (htype : message.type = "response")
    (hget : JSMap.get s.pendingRequests message.id = some record)
    (hresp : message.response = some { returnValue := returnValue, err := err })
    (herr : err = none ∨ err = some "") :
    (s.handleResponse message).service =
        { s with
          pendingRequests := JSMap.delete s.pendingRequests message.id
          promises := settle s.promises record.future (Settled.fulfilled returnValue) } ∧
      (s.handleResponse message).events =
        [Event.log "Handling response" message, Event.pendingDelete message.id,
         Event.resolve record.future returnValue] := by
  unfold RPCService.handleResponse
  rcases herr with h | h <;> simp [htype, hget, hresp, Option.filter, Val.truthy, h]

theorem settle_pending (promises : List (Option Settled)) (future : Nat) (o : Settled)
    (h : promises[future]? = some none) :
    (settle promises future o)[future]? = some (some o) := by
  have hlt : future < promises.length := by
    by_contra hge
    have hnone := List.getElem?_eq_none (Nat.le_of_not_lt hge)
    rw [hnone] at h
    cases h
  unfold settle
  rw [h]
  simp [List.getElem?_set, hlt]

/-- C1, evaluated where it fails.  Request 0 of the worker is pending and the
response envelope for id 0 carries the error string "" (what the host side sends
when a host method throws ""): `handleResponse` removes the record, but it
resolves the future with `returnValue` (`null`) instead of rejecting it with the
envelope's error. -/
theorem handleResponse_empty_error_resolves :
    JSMap.get waitingWorker.pendingRequests 0 =
        some { future := 0, id := 0, methodName := "processData",
               args := [Val.arr [Val.num 1, Val.num 4, Val.num 9]] } ∧
      (responseFor 0 Val.null (some "")).response =
        some { returnValue := Val.null, err := some "" } ∧
      JSMap.get (waitingWorker.handleResponse
        (responseFor 0 Val.null (some ""))).service.pendingRequests 0 = none ∧
      completions (waitingWorker.handleResponse (responseFor 0 Val.null (some ""))).events =
        [(0, Settled.fulfilled Val.null)] ∧
      (waitingWorker.handleResponse (responseFor 0 Val.null (some ""))).service.outcome 0 =
        some (Settled.fulfilled Val.null) := by
  decide

/-- C2, evaluated where it fails.  The host method throws `undefined` (`boom`), or
returns a future that fails with `undefined` (`fail`): `handleRequest` invokes the
method, and the transport's `sendResponse` is never invoked, so request 7 stays
without a response. -/
theorem handleRequest_undefined_failure_unanswered :
    ((sampleMain Val.undefined).handleRequest (requestFor 7 "Sample" "boom" [])).events =
        [Event.log "Handling request" (requestFor 7 "Sample" "boom" []),
         Event.apply "Sample" "boom" []] ∧
      responsesSent
        ((sampleMain Val.undefined).handleRequest (requestFor 7 "Sample" "boom" [])).events = [] ∧
      responsesSent
        ((sampleMain Val.undefined).handleRequest (requestFor 7 "Sample" "fail" [])).events = [] := by
  decide

theorem requestsBuilt_append (xs ys : List Event) :
    requestsBuilt (xs ++ ys) = requestsBuilt xs ++ requestsBuilt ys := by
  simp [requestsBuilt]

theorem executeHostMethod_events (s : RPCService) (hostName methodName : String)
    (args : List Val) :
    (s.executeHostMethod hostName methodName args).events = [] ∨
      (s.executeHostMethod hostName methodName args).events =
        [Event.apply hostName methodName args] := by
  unfold RPCService.executeHostMethod
  split
  · simp
  · split
    · simp
    · split
      · simp
      · split <;> simp

theorem requestsBuilt_callSendResponse (s : RPCService) (m : RPCMessage) :
    requestsBuilt (s.callSendResponse m).1 = [] := by
  unfold RPCService.callSendResponse
  split <;> simp [requestsBuilt]

theorem requestsBuilt_onRejected (s : RPCService) (id : Nat) (err : Val) :
    requestsBuilt (s.onRejected id err) = [] := by
  unfold RPCService.onRejected
  split
  · simp [requestsBuilt]
  · exact requestsBuilt_callSendResponse s _

theorem requestsBuilt_onFulfilled (s : RPCService) (id : Nat) (v : Val) :
    requestsBuilt (s.onFulfilled id v).1 = [] := by
  unfold RPCService.onFulfilled
  have h := requestsBuilt_callSendResponse s
    { id := id, type := "response", request := none,
      response := some { returnValue := v, err := none } }
  simp only [requestsBuilt, List.filterMap_cons] at h ⊢
  simpa using h

theorem handleRequest_service (s : RPCService) (message : RPCMessage) :
    (s.handleRequest message).service = s := by
  unfold RPCService.handleRequest
  split
  · split <;> rfl
  · rfl

theorem requestsBuilt_handleRequest (s : RPCService) (message : RPCMessage) :
    requestsBuilt (s.handleRequest message).events = [] := by
  unfold RPCService.handleRequest
  split
  · split
    · simp [requestsBuilt]
    · rename_i request _
      have hexec : requestsBuilt
          (s.executeHostMethod request.hostName request.methodName request.args).events = [] := by
        rcases executeHostMethod_events s request.hostName request.methodName request.args
          with h | h <;> rw [h] <;> simp [requestsBuilt]
      have hcons : ∀ (m : RPCMessage) (rest : List Event),
          requestsBuilt (Event.log "Handling request" m :: rest) = requestsBuilt rest := by
        intro m rest
        simp [requestsBuilt]
      simp only [hcons, requestsBuilt_append, hexec, List.nil_append]
      split
      · simp [requestsBuilt]
      · split
        · rename_i h
          have := congrArg (fun p => requestsBuilt p.1) h
          simp only [requestsBuilt_onFulfilled] at this
          exact this.symm
        · rename_i h
          have := congrArg (fun p => requestsBuilt p.1) h
          simp only [requestsBuilt_onFulfilled] at this
          simp only [requestsBuilt_append, requestsBuilt_onRejected, List.append_nil]
          exact this.symm
      · exact requestsBuilt_onRejected s _ _
  · simp [requestsBuilt]

theorem handleResponse_nextMessageId (s : RPCService) (message : RPCMessage) :
    (s.handleResponse message).service.nextMessageId = s.nextMessageId := by
  unfold RPCService.handleResponse
  split
  · split
    · rfl
    · split
      · rfl
      · split <;> rfl
  · rfl

theorem requestsBuilt_handleResponse (s : RPCService) (message : RPCMessage) :
    requestsBuilt (s.handleResponse message).events = [] := by
  unfold RPCService.handleResponse
  split
  · split
    · simp [requestsBuilt]
    · split
      · simp [requestsBuilt]
      · split <;> simp [requestsBuilt]
  · simp [requestsBuilt]

theorem lifecycle_append (xs ys : List Event) :
    lifecycle (xs ++ ys) = lifecycle xs ++ lifecycle ys := by
  simp [lifecycle]

theorem responsesSent_append (xs ys : List Event) :
    responsesSent (xs ++ ys) = responsesSent xs ++ responsesSent ys := by
  simp [responsesSent]

theorem requestsSent_append (xs ys : List Event) :
    requestsSent (xs ++ ys) = requestsSent xs ++ requestsSent ys := by
  simp [requestsSent]

theorem completions_append (xs ys : List Event) :
    completions (xs ++ ys) = completions xs ++ completions ys := by
  simp [completions]

theorem settle_other (promises : List (Option Settled)) (future other : Nat) (o : Settled)
    (hne : future ≠ other) :
    (settle promises future o)[other]? = promises[other]? := by
  unfold settle
  split
  · simp [List.getElem?_set, hne]
  · rfl

theorem settle_length (promises : List (Option Settled)) (future : Nat) (o : Settled) :
    (settle promises future o).length = promises.length := by
  unfold settle
  split <;> simp

theorem getElem?_append_pending (promises : List (Option Settled)) :
    (promises ++ [none])[promises.length]? = some none := by
  simp

theorem handleResponse_frame (s : RPCService) (message : RPCMessage) :
    (s.handleResponse message).service.nextMessageId = s.nextMessageId ∧
      (s.handleResponse message).service.hosts = s.hosts ∧
      (s.handleResponse message).service.apiWrapper = s.apiWrapper ∧
      (s.handleResponse message).service.promises.length = s.promises.length := by
  unfold RPCService.handleResponse
  split
  · split
    · exact ⟨rfl, rfl, rfl, rfl⟩
    · split
      · exact ⟨rfl, rfl, rfl, rfl⟩
      · split <;> exact ⟨rfl, rfl, rfl, by simp [settle_length]⟩
  · exact ⟨rfl, rfl, rfl, rfl⟩

theorem handleResponse_promises_length (s : RPCService) (message : RPCMessage) :
    (s.handleResponse message).service.promises.length = s.promises.length :=
  (handleResponse_frame s message).2.2.2

theorem handleResponse_sends_nothing (s : RPCService) (message : RPCMessage) :
    requestsSent (s.handleResponse message).events = [] ∧
      responsesSent (s.handleResponse message).events = [] := by
  unfold RPCService.handleResponse
  split
  · split
    · simp [requestsSent, responsesSent]
    · split
      · simp [requestsSent, responsesSent]
      · split <;> simp [requestsSent, responsesSent]
  · simp [requestsSent, responsesSent]

theorem handleResponse_lifecycle (s : RPCService) (message : RPCMessage) :
    lifecycle (s.handleResponse message).events =
      (if message.type = "response" then [(false, message.id)] else []) := by
  unfold RPCService.handleResponse
  split
  · split
    · simp [lifecycle]
    · split
      · simp [lifecycle]
      · split <;> simp [lifecycle]
  · simp [lifecycle]

theorem handleResponse_pending (s : RPCService) (message : RPCMessage) (k : Nat) :
    JSMap.get (s.handleResponse message).service.pendingRequests k =
      (if message.type = "response" ∧ k = message.id then none
       else JSMap.get s.pendingRequests k) := by
  by_cases htype : message.type = "response"
  · cases hget : JSMap.get s.pendingRequests message.id with
    | none =>
        rw [(handleResponse_of_no_record s message hget).1]
        by_cases hk : k = message.id
        · simp [htype, hk, hget]
        · simp [hk]
    | some record =>
        have hpending : (s.handleResponse message).service.pendingRequests =
            JSMap.delete s.pendingRequests message.id := by
          unfold RPCService.handleResponse
          simp only [htype, hget, if_true]
          split
          · rfl
          · split <;> rfl
        rw [hpending]
        by_cases hk : k = message.id
        · simp [htype, hk, JSMap.get_delete_self]
        · simp [hk, JSMap.get_delete_ne _ _ _ hk]
  · rw [(handleResponse_of_other_type s message htype).1]
    simp [htype]

theorem handleResponse_completes (s : RPCService) (message : RPCMessage)
    (record : PendingRequest) (response : Response)
    (htype : message.type = "response")
    (hget : JSMap.get s.pendingRequests message.id = some record)
    (hresp : message.response = some response) :
    (s.handleResponse message).service =
        { s with
          pendingRequests := JSMap.delete s.pendingRequests message.id
          promises := settle s.promises record.future response.completion } ∧
      completions (s.handleResponse message).events =
        [(record.future, response.completion)] := by
  obtain ⟨returnValue, err⟩ := response
  by_cases herr : ∃ e, err = some e ∧ e ≠ ""
  · obtain ⟨e, he, hne⟩ := herr
    subst he
    have h := handleResponse_rejects s message record returnValue e htype hget hresp hne
    have hc : Response.completion { returnValue := returnValue, err := some e } =
        Settled.rejected (Val.str e) := by
      simp [Response.completion, Option.filter, Val.truthy, hne]
    rw [hc, h.1, h.2]
    exact ⟨rfl, by simp [completions]⟩
  · have herr' : err = none ∨ err = some "" := by
      cases err with
      | none => exact Or.inl rfl
      | some e =>
          right
          by_contra hne
          exact herr ⟨e, rfl, fun h => hne (by rw [h])⟩
    have h := handleResponse_resolves s message record returnValue err htype hget hresp herr'
    have hc : Response.completion { returnValue := returnValue, err := err } =
        Settled.fulfilled returnValue := by
      rcases herr' with h' | h' <;> simp [Response.completion, Option.filter, Val.truthy, h']
    rw [hc, h.1, h.2]
    exact ⟨rfl, by simp [completions]⟩

theorem handleResponse_promise (s : RPCService) (message : RPCMessage) (f : Nat)
    (hpending : s.promises[f]? = some none) :
    (s.handleResponse message).service.promises[f]? = some none ∨
      ∃ o, (f, o) ∈ completions (s.handleResponse message).events := by
  by_cases htype : message.type = "response"
  · cases hget : JSMap.get s.pendingRequests message.id with
    | none =>
        left
        rw [(handleResponse_of_no_record s message hget).1]
        exact hpending
    | some record =>
        cases hresp : message.response with
        | none =>
            left
            have hservice : (s.handleResponse message).service.promises = s.promises := by
              unfold RPCService.handleResponse
              simp only [htype, hget, hresp, if_true]
            rw [hservice]
            exact hpending
        | some response =>
            have h := handleResponse_completes s message record response htype hget hresp
            by_cases hf : record.future = f
            · right
              exact ⟨response.completion, by rw [h.2, hf]; simp⟩
            · left
              rw [h.1]
              simp only []
              rw [settle_other _ _ _ _ hf]
              exact hpending
  · left
    rw [(handleResponse_of_other_type s message htype).1]
    exact hpending

theorem handleResponse_awaiting (s : RPCService) (message : RPCMessage) (k : Nat) :
    (JSMap.get (s.handleResponse message).service.pendingRequests k).isSome =
      (lifecycle (s.handleResponse message).events).foldl
        (fun waiting entry => if entry.2 = k then entry.1 else waiting)
        (JSMap.get s.pendingRequests k).isSome := by
  rw [handleResponse_pending, handleResponse_lifecycle]
  by_cases htype : message.type = "response"
  · by_cases hk : k = message.id
    · simp [htype, hk]
    · have hk' : ¬ message.id = k := fun h => hk h.symm
      simp [htype, hk, hk']
  · simp [htype]

theorem handleResponses_frame (s : RPCService) (messages : List RPCMessage) :
    (s.handleResponses messages).1.nextMessageId = s.nextMessageId ∧
      (s.handleResponses messages).1.hosts = s.hosts ∧
      (s.handleResponses messages).1.apiWrapper = s.apiWrapper ∧
      (s.handleResponses messages).1.promises.length = s.promises.length := by
  induction messages generalizing s with
  | nil => exact ⟨rfl, rfl, rfl, rfl⟩
  | cons m rest ih =>
      have h := handleResponse_frame s m
      have h' := ih (s.handleResponse m).service
      simp only [RPCService.handleResponses]
      exact ⟨h'.1.trans h.1, h'.2.1.trans h.2.1, h'.2.2.1.trans h.2.2.1,
        h'.2.2.2.trans h.2.2.2⟩

theorem handleResponses_quiet (s : RPCService) (messages : List RPCMessage) :
    requestsBuilt (s.handleResponses messages).2 = [] ∧
      requestsSent (s.handleResponses messages).2 = [] ∧
      responsesSent (s.handleResponses messages).2 = [] := by
  induction messages generalizing s with
  | nil => simp [RPCService.handleResponses, requestsBuilt, requestsSent, responsesSent]
  | cons m rest ih =>
      have h := ih (s.handleResponse m).service
      simp only [RPCService.handleResponses, requestsBuilt_append, requestsSent_append,
        responsesSent_append, requestsBuilt_handleResponse,
        (handleResponse_sends_nothing s m).1, (handleResponse_sends_nothing s m).2, h.1, h.2.1,
        h.2.2, List.append_nil, and_self]

theorem handleResponses_awaiting (s : RPCService) (messages : List RPCMessage) (k : Nat) :
    (JSMap.get (s.handleResponses messages).1.pendingRequests k).isSome =
      (lifecycle (s.handleResponses messages).2).foldl
        (fun waiting entry => if entry.2 = k then entry.1 else waiting)
        (JSMap.get s.pendingRequests k).isSome := by
  induction messages generalizing s with
  | nil => simp [RPCService.handleResponses, lifecycle]
  | cons m rest ih =>
      simp only [RPCService.handleResponses, lifecycle_append, List.foldl_append]
      rw [ih (s.handleResponse m).service, handleResponse_awaiting s m k]

theorem handleResponses_pending (s : RPCService) (messages : List RPCMessage) (k : Nat)
    (r : PendingRequest) :
    (JSMap.get (s.handleResponses messages).1.pendingRequests k = some r →
        JSMap.get s.pendingRequests k = some r) ∧
      (JSMap.get s.pendingRequests k = some r →
        JSMap.get (s.handleResponses messages).1.pendingRequests k = some r ∨
          (false, k) ∈ lifecycle (s.handleResponses messages).2) := by
  induction messages generalizing s with
  | nil => exact ⟨fun h => h, fun h => Or.inl h⟩
  | cons m rest ih =>
      have h := ih (s.handleResponse m).service
      simp only [RPCService.handleResponses, lifecycle_append, List.mem_append]
      constructor
      · intro hget
        have hmid := h.1 hget
        rw [handleResponse_pending] at hmid
        split at hmid
        · cases hmid
        · exact hmid
      · intro hget
        by_cases hcase : m.type = "response" ∧ k = m.id
        · right; left
          rw [handleResponse_lifecycle]
          simp [hcase.1, hcase.2]
        · have hmid : JSMap.get (s.handleResponse m).service.pendingRequests k = some r := by
            rw [handleResponse_pending]
            simp only [hcase, if_false]
            exact hget
          rcases h.2 hmid with h' | h'
          · exact Or.inl h'
          · exact Or.inr (Or.inr h')

theorem handleResponses_promise (s : RPCService) (messages : List RPCMessage) (f : Nat)
    (hpending : s.promises[f]? = some none) :
    (s.handleResponses messages).1.promises[f]? = some none ∨
      ∃ o, (f, o) ∈ completions (s.handleResponses messages).2 := by
  induction messages generalizing s with
  | nil => exact Or.inl hpending
  | cons m rest ih =>
      simp only [RPCService.handleResponses, completions_append, List.mem_append]
      rcases handleResponse_promise s m f hpending with h | ⟨o, ho⟩
      · rcases ih (s.handleResponse m).service h with h' | ⟨o, ho⟩
        · exact Or.inl h'
        · exact Or.inr ⟨o, Or.inr ho⟩
      · exact Or.inr ⟨o, Or.inl ho⟩

theorem sendRequest_of_sent (s : RPCService) (methodName : String) (args : List Val)
    (hostName : String) (send : RPCMessage → Option Reentry)
    (hcfg : s.apiWrapper.sendRequest = some send)
    (hcall : send (requestFor s.nextMessageId hostName methodName args) = none) :
    s.sendRequest methodName args hostName =
      { service :=
          { s with
            nextMessageId := increment s.nextMessageId
            pendingRequests := JSMap.set s.pendingRequests s.nextMessageId
              { future := s.promises.length, id := s.nextMessageId,
                methodName := methodName, args := args }
            promises := s.promises ++ [none] }
        events :=
          [Event.pendingSet s.nextMessageId
             { future := s.promises.length, id := s.nextMessageId,
               methodName := methodName, args := args },
           Event.log "Sending request" (requestFor s.nextMessageId hostName methodName args),
           Event.sendRequest (requestFor s.nextMessageId hostName methodName args)]
        result := Except.ok s.promises.length } := by
  unfold RPCService.sendRequest
  simp only [requestFor] at hcall
  simp only [hcfg, hcall, requestFor]
  rfl

theorem sendRequest_of_reentry (s : RPCService) (methodName : String) (args : List Val)
    (hostName : String) (send : RPCMessage → Option Reentry) (during : Reentry)
    (hcfg : s.apiWrapper.sendRequest = some send)
    (hcall : send (requestFor s.nextMessageId hostName methodName args) = some during) :
    (s.sendRequest methodName args hostName).events =
        [Event.pendingSet s.nextMessageId
           { future := s.promises.length, id := s.nextMessageId,
             methodName := methodName, args := args },
         Event.log "Sending request" (requestFor s.nextMessageId hostName methodName args),
         Event.sendRequest (requestFor s.nextMessageId hostName methodName args)] ++
          ((s.atSend methodName args).handleResponses during.delivered).2 ∧
      (s.sendRequest methodName args hostName).result = Except.ok s.promises.length ∧
      (s.sendRequest methodName args hostName).service =
        { ((s.atSend methodName args).handleResponses during.delivered).1 with
          promises :=
            match during.thrown with
            | none => ((s.atSend methodName args).handleResponses during.delivered).1.promises
            | some e =>
                settle ((s.atSend methodName args).handleResponses during.delivered).1.promises
                  s.promises.length (Settled.rejected e) } := by
  unfold RPCService.sendRequest
  simp only [requestFor] at hcall
  simp only [hcfg, hcall, requestFor, RPCService.atSend]
  cases during.thrown with
  | none => exact ⟨rfl, rfl, rfl⟩
  | some e => exact ⟨rfl, rfl, rfl⟩

theorem sendRequest_of_unconfigured (s : RPCService) (methodName : String) (args : List Val)
    (hostName : String) (hcfg : s.apiWrapper.sendRequest = none) :
    s.sendRequest methodName args hostName =
      { service :=
          { s with
            nextMessageId := increment s.nextMessageId
            pendingRequests := JSMap.set s.pendingRequests s.nextMessageId
              { future := s.promises.length, id := s.nextMessageId,
                methodName := methodName, args := args }
            promises := settle (s.promises ++ [none]) s.promises.length
              (Settled.rejected (notAFunction "this.apiWrapper.sendRequest")) }
        events :=
          [Event.pendingSet s.nextMessageId
             { future := s.promises.length, id := s.nextMessageId,
               methodName := methodName, args := args },
           Event.log "Sending request" (requestFor s.nextMessageId hostName methodName args)]
        result := Except.ok s.promises.length } := by
  unfold RPCService.sendRequest
  simp only [hcfg, requestFor]

theorem sendRequest_shape (s : RPCService) (methodName : String) (args : List Val)
    (hostName : String) :
    ∃ (delivered : List RPCMessage) (sent : List Event) (promises : List (Option Settled)),
      (s.sendRequest methodName args hostName).service =
          { ((s.atSend methodName args).handleResponses delivered).1 with
            promises := promises } ∧
        promises.length = s.promises.length + 1 ∧
        (∀ f, f ≠ s.promises.length →
          promises[f]? = ((s.atSend methodName args).handleResponses delivered).1.promises[f]?) ∧
        (s.sendRequest methodName args hostName).events =
          [Event.pendingSet s.nextMessageId
             { future := s.promises.length, id := s.nextMessageId,
               methodName := methodName, args := args },
           Event.log "Sending request" (requestFor s.nextMessageId hostName methodName args)] ++
            sent ++ ((s.atSend methodName args).handleResponses delivered).2 ∧
        ((s.apiWrapper.sendRequest = none ∧ sent = [] ∧ delivered = []) ∨
          (s.apiWrapper.sendRequest.isSome = true ∧
            sent = [Event.sendRequest
              (requestFor s.nextMessageId hostName methodName args)])) ∧
        (s.sendRequest methodName args hostName).result = Except.ok s.promises.length := by
  cases hcfg : s.apiWrapper.sendRequest with
  | none =>
      refine ⟨[], [], settle (s.promises ++ [none]) s.promises.length
        (Settled.rejected (notAFunction "this.apiWrapper.sendRequest")), ?_⟩
      rw [sendRequest_of_unconfigured s methodName args hostName hcfg]
      refine ⟨rfl, by simp [settle_length], ?_, rfl, Or.inl ⟨rfl, rfl, rfl⟩, rfl⟩
      intro f hf
      exact settle_other _ _ _ _ (Ne.symm hf)
  | some send =>
      cases hcall : send (requestFor s.nextMessageId hostName methodName args) with
      | none =>
          refine ⟨[], [Event.sendRequest (requestFor s.nextMessageId hostName methodName args)],
            s.promises ++ [none], ?_⟩
          rw [sendRequest_of_sent s methodName args hostName send hcfg hcall]
          exact ⟨rfl, by simp, fun _ _ => rfl, rfl, Or.inr ⟨rfl, rfl⟩, rfl⟩
      | some during =>
          have h := sendRequest_of_reentry s methodName args hostName send during hcfg hcall
          have hlen := (handleResponses_frame (s.atSend methodName args) during.delivered).2.2.2
          have hat : (s.atSend methodName args).promises.length = s.promises.length + 1 := by
            simp [RPCService.atSend]
          refine ⟨during.delivered,
            [Event.sendRequest (requestFor s.nextMessageId hostName methodName args)], _,
            h.2.2, ?_, ?_, ?_, Or.inr ⟨rfl, rfl⟩, h.2.1⟩
          · cases during.thrown with
            | none => simp only []; rw [hlen, hat]
            | some e => simp only []; rw [settle_length, hlen, hat]
          · intro f hf
            cases during.thrown with
            | none => rfl
            | some e => exact settle_other _ _ _ _ (Ne.symm hf)
          · rw [h.1]
            simp

theorem sendRequest_result (s : RPCService) (methodName : String) (args : List Val)
    (hostName : String) :
    (s.sendRequest methodName args hostName).result = Except.ok s.promises.length := by
  obtain ⟨_, _, _, _, _, _, _, _, h⟩ := sendRequest_shape s methodName args hostName
  exact h

theorem sendRequest_frame (s : RPCService) (methodName : String) (args : List Val)
    (hostName : String) :
    (s.sendRequest methodName args hostName).service.nextMessageId =
        increment s.nextMessageId ∧
      (s.sendRequest methodName args hostName).service.hosts = s.hosts ∧
      (s.sendRequest methodName args hostName).service.apiWrapper = s.apiWrapper ∧
      (s.sendRequest methodName args hostName).service.promises.length =
        s.promises.length + 1 := by
  obtain ⟨delivered, sent, promises, hservice, hlen, _, _, _, _⟩ :=
    sendRequest_shape s methodName args hostName
  have h := handleResponses_frame (s.atSend methodName args) delivered
  rw [hservice]
  exact ⟨h.1, h.2.1, h.2.2.1, hlen⟩

theorem sendRequest_promises_length (s : RPCService) (methodName : String)
    (args : List Val) (hostName : String) :
    (s.sendRequest methodName args hostName).service.promises.length =
      s.promises.length + 1 :=
  (sendRequest_frame s methodName args hostName).2.2.2

theorem sendRequest_built (s : RPCService) (methodName : String) (args : List Val)
    (hostName : String) :
    requestsBuilt (s.sendRequest methodName args hostName).events =
        [requestFor s.nextMessageId hostName methodName args] ∧
      (s.sendRequest methodName args hostName).service.nextMessageId =
        increment s.nextMessageId := by
  refine ⟨?_, (sendRequest_frame s methodName args hostName).1⟩
  obtain ⟨delivered, sent, promises, _, _, _, hevents, hsent, _⟩ :=
    sendRequest_shape s methodName args hostName
  rw [hevents, requestsBuilt_append, requestsBuilt_append,
    (handleResponses_quiet (s.atSend methodName args) delivered).1]
  rcases hsent with ⟨_, hs, _⟩ | ⟨_, hs⟩ <;> rw [hs] <;> simp [requestsBuilt, requestFor]

theorem sendRequest_sent (s : RPCService) (methodName : String) (args : List Val)
    (hostName : String) :
    requestsSent (s.sendRequest methodName args hostName).events =
      (if s.apiWrapper.sendRequest.isSome then
        [requestFor s.nextMessageId hostName methodName args] else []) := by
  obtain ⟨delivered, sent, promises, _, _, _, hevents, hsent, _⟩ :=
    sendRequest_shape s methodName args hostName
  rw [hevents, requestsSent_append, requestsSent_append,
    (handleResponses_quiet (s.atSend methodName args) delivered).2.1]
  rcases hsent with ⟨hcfg, hs, _⟩ | ⟨hcfg, hs⟩ <;> rw [hs] <;> simp [requestsSent, hcfg]

theorem sendRequest_pending (s : RPCService) (methodName : String) (args : List Val)
    (hostName : String) (k : Nat) (r : PendingRequest) :
    (JSMap.get (s.sendRequest methodName args hostName).service.pendingRequests k = some r →
        (k = s.nextMessageId ∧
            r = { future := s.promises.length, id := s.nextMessageId,
                  methodName := methodName, args := args }) ∨
          (k ≠ s.nextMessageId ∧ JSMap.get s.pendingRequests k = some r)) ∧
      (k ≠ s.nextMessageId → JSMap.get s.pendingRequests k = some r →
        JSMap.get (s.sendRequest methodName args hostName).service.pendingRequests k = some r ∨
          (false, k) ∈ lifecycle (s.sendRequest methodName args hostName).events) := by
  obtain ⟨delivered, sent, promises, hservice, _, _, hevents, _, _⟩ :=
    sendRequest_shape s methodName args hostName
  have h := handleResponses_pending (s.atSend methodName args) delivered k r
  rw [hservice, hevents]
  simp only []
  constructor
  · intro hget
    have hat := h.1 hget
    simp only [RPCService.atSend] at hat
    by_cases hk : k = s.nextMessageId
    · left
      subst hk
      rw [JSMap.get_set_self] at hat
      cases hat
      exact ⟨rfl, rfl⟩
    · right
      rw [JSMap.get_set_ne _ _ _ _ hk] at hat
      exact ⟨hk, hat⟩
  · intro hk hget
    have hat : JSMap.get (s.atSend methodName args).pendingRequests k = some r := by
      simp only [RPCService.atSend]
      rw [JSMap.get_set_ne _ _ _ _ hk]
      exact hget
    rcases h.2 hat with h' | h'
    · exact Or.inl h'
    · right
      rw [lifecycle_append]
      exact List.mem_append_right _ h'

theorem sendRequest_lifecycle (s : RPCService) (methodName : String) (args : List Val)
    (hostName : String) (hcfg : s.apiWrapper.sendRequest.isSome = true) :
    ∃ delivered,
      (s.sendRequest methodName args hostName).service.pendingRequests =
          ((s.atSend methodName args).handleResponses delivered).1.pendingRequests ∧
        lifecycle (s.sendRequest methodName args hostName).events =
          (true, s.nextMessageId) ::
            lifecycle ((s.atSend methodName args).handleResponses delivered).2 := by
  obtain ⟨delivered, sent, promises, hservice, _, _, hevents, hsent, _⟩ :=
    sendRequest_shape s methodName args hostName
  refine ⟨delivered, by rw [hservice], ?_⟩
  rw [hevents, lifecycle_append, lifecycle_append]
  rcases hsent with ⟨hnone, _, _⟩ | ⟨_, hs⟩
  · rw [hnone] at hcfg
    cases hcfg
  · rw [hs]
    simp [lifecycle, requestFor]

theorem sendRequest_awaiting (s : RPCService) (methodName : String) (args : List Val)
    (hostName : String) (k : Nat) (hcfg : s.apiWrapper.sendRequest.isSome = true) :
    (JSMap.get (s.sendRequest methodName args hostName).service.pendingRequests k).isSome =
      (lifecycle (s.sendRequest methodName args hostName).events).foldl
        (fun waiting entry => if entry.2 = k then entry.1 else waiting)
        (JSMap.get s.pendingRequests k).isSome := by
  obtain ⟨delivered, hpending, hlife⟩ := sendRequest_lifecycle s methodName args hostName hcfg
  rw [hpending, hlife, handleResponses_awaiting]
  simp only [List.foldl_cons]
  congr 1
  simp only [RPCService.atSend]
  by_cases hk : k = s.nextMessageId
  · subst hk
    simp [JSMap.get_set_self]
  · have hk' : ¬ s.nextMessageId = k := fun h => hk h.symm
    simp [JSMap.get_set_ne _ _ _ _ hk, hk']

theorem sendRequest_promise (s : RPCService) (methodName : String) (args : List Val)
    (hostName : String) (f : Nat) (hpending : s.promises[f]? = some none) :
    (s.sendRequest methodName args hostName).service.promises[f]? = some none ∨
      ∃ o, (f, o) ∈ completions (s.sendRequest methodName args hostName).events := by
  obtain ⟨delivered, sent, promises, hservice, _, hother, hevents, _, _⟩ :=
    sendRequest_shape s methodName args hostName
  have hlt : f < s.promises.length := by
    by_contra hge
    rw [List.getElem?_eq_none (Nat.le_of_not_lt hge)] at hpending
    cases hpending
  have hat : (s.atSend methodName args).promises[f]? = some none := by
    simp only [RPCService.atSend]
    rw [List.getElem?_append_left hlt]
    exact hpending
  rw [hservice, hevents]
  simp only []
  rw [hother f (Nat.ne_of_lt hlt)]
  rcases handleResponses_promise (s.atSend methodName args) delivered f hat with h | ⟨o, ho⟩
  · exact Or.inl h
  · right
    exact ⟨o, by rw [completions_append]; exact List.mem_append_right _ ho⟩

theorem callSendResponse_events (s : RPCService) (m : RPCMessage) :
    (s.callSendResponse m).1 = [] ∨ (s.callSendResponse m).1 = [Event.sendResponse m] := by
  unfold RPCService.callSendResponse
  split
  · exact Or.inl rfl
  · exact Or.inr rfl

theorem completions_callSendResponse (s : RPCService) (m : RPCMessage) :
    completions (s.callSendResponse m).1 = [] ∧ requestsSent (s.callSendResponse m).1 = [] := by
  rcases callSendResponse_events s m with h | h <;> rw [h] <;>
    simp [completions, requestsSent]

theorem completions_onRejected (s : RPCService) (id : Nat) (err : Val) :
    completions (s.onRejected id err) = [] ∧ requestsSent (s.onRejected id err) = [] := by
  unfold RPCService.onRejected
  split
  · simp [completions, requestsSent]
  · exact completions_callSendResponse s _

theorem completions_onFulfilled (s : RPCService) (id : Nat) (v : Val) :
    completions (s.onFulfilled id v).1 = [] ∧ requestsSent (s.onFulfilled id v).1 = [] := by
  unfold RPCService.onFulfilled
  have h := completions_callSendResponse s
    { id := id, type := "response", request := none,
      response := some { returnValue := v, err := none } }
  simp only [completions, requestsSent, List.filterMap_cons] at h ⊢
  exact h

theorem completions_handleRequest (s : RPCService) (message : RPCMessage) :
    completions (s.handleRequest message).events = [] ∧
      requestsSent (s.handleRequest message).events = [] := by
  unfold RPCService.handleRequest
  split
  · split
    · simp [completions, requestsSent]
    · rename_i request _
      have hexec : completions
            (s.executeHostMethod request.hostName request.methodName request.args).events = [] ∧
          requestsSent
            (s.executeHostMethod request.hostName request.methodName request.args).events = [] := by
        rcases executeHostMethod_events s request.hostName request.methodName request.args
          with h | h <;> rw [h] <;> simp [completions, requestsSent]
      have hcons : ∀ (m : RPCMessage) (rest : List Event),
          completions (Event.log "Handling request" m :: rest) = completions rest ∧
            requestsSent (Event.log "Handling request" m :: rest) = requestsSent rest := by
        intro m rest
        simp [completions, requestsSent]
      simp only [(hcons _ _).1, (hcons _ _).2, completions_append, requestsSent_append, hexec.1,
        hexec.2, List.nil_append]
      split
      · simp [completions, requestsSent]
      · split
        · rename_i h
          have h1 := congrArg (fun p => completions p.1) h
          have h2 := congrArg (fun p => requestsSent p.1) h
          simp only [(completions_onFulfilled s _ _).1, (completions_onFulfilled s _ _).2]
            at h1 h2
          exact ⟨h1.symm, h2.symm⟩
        · rename_i h
          have h1 := congrArg (fun p => completions p.1) h
          have h2 := congrArg (fun p => requestsSent p.1) h
          simp only [(completions_onFulfilled s _ _).1, (completions_onFulfilled s _ _).2]
            at h1 h2
          simp only [completions_append, requestsSent_append, (completions_onRejected s _ _).1,
            (completions_onRejected s _ _).2, List.append_nil]
          exact ⟨h1.symm, h2.symm⟩
      · exact completions_onRejected s _ _
  · simp [completions, requestsSent]

theorem handleResponse_completion_source (s : RPCService) (message : RPCMessage) (f : Nat)
    (o : Settled) (hmem : (f, o) ∈ completions (s.handleResponse message).events) :
    message.type = "response" ∧
      ∃ record response, JSMap.get s.pendingRequests message.id = some record ∧
        record.future = f ∧ message.response = some response ∧ o = response.completion := by
  by_cases htype : message.type = "response"
  · refine ⟨htype, ?_⟩
    cases hget : JSMap.get s.pendingRequests message.id with
    | none =>
        rw [(handleResponse_of_no_record s message hget).2.1] at hmem
        cases hmem
    | some record =>
        cases hresp : message.response with
        | none =>
            have hevents : completions (s.handleResponse message).events = [] := by
              unfold RPCService.handleResponse
              simp only [htype, hget, hresp, if_true]
              simp [completions]
            rw [hevents] at hmem
            cases hmem
        | some response =>
            rw [(handleResponse_completes s message record response htype hget hresp).2] at hmem
            simp only [List.mem_singleton, Prod.mk.injEq] at hmem
            exact ⟨record, response, rfl, hmem.1.symm, rfl, hmem.2⟩
  · rw [(handleResponse_of_other_type s message htype).2] at hmem
    simp [completions] at hmem

theorem call_promise (s : RPCService) (member : ProxyMember) (args : List Val) (f : Nat)
    (hpending : s.promises[f]? = some none) :
    (s.call member args).service.promises[f]? = some none ∨
      ∃ o, (f, o) ∈ completions (s.call member args).events := by
  cases member with
  | remote methodName target => exact sendRequest_promise s methodName args target f hpending
  | undefined => exact Or.inl hpending
  | own v => exact Or.inl hpending
  | inherited name => exact Or.inl hpending

theorem step_promise (s : RPCService) (op : Op) (f : Nat)
    (hpending : s.promises[f]? = some none) :
    (s.step op).1.promises[f]? = some none ∨ ∃ o, (f, o) ∈ completions (s.step op).2 := by
  cases op with
  | registerHost hostName host => exact Or.inl hpending
  | sendRequest methodName args hostName =>
      exact sendRequest_promise s methodName args hostName f hpending
  | proxyCall hostName member args => exact call_promise s _ args f hpending
  | handleRequest message =>
      left
      simp only [RPCService.step, handleRequest_service]
      exact hpending
  | handleResponse message => exact handleResponse_promise s message f hpending

theorem step_apiWrapper (s : RPCService) (op : Op) :
    (s.step op).1.apiWrapper = s.apiWrapper := by
  cases op with
  | registerHost hostName host => rfl
  | sendRequest methodName args hostName =>
      exact (sendRequest_frame s methodName args hostName).2.2.1
  | proxyCall hostName member args =>
      simp only [RPCService.step]
      cases (createProxy hostName).get member with
      | remote methodName target => exact (sendRequest_frame s methodName args target).2.2.1
      | undefined => rfl
      | own v => rfl
      | inherited name => rfl
  | handleRequest message => simp only [RPCService.step, handleRequest_service]
  | handleResponse message => exact (handleResponse_frame s message).2.2.1

theorem run_apiWrapper (s : RPCService) (ops : List Op) :
    (s.run ops).1.apiWrapper = s.apiWrapper := by
  induction ops generalizing s with
  | nil => rfl
  | cons op rest ih =>
      simp only [RPCService.run]
      rw [ih, step_apiWrapper]

theorem call_request_ids (s : RPCService) (member : ProxyMember) (args : List Val) :
    (requestsBuilt (s.call member args).events).map RPCMessage.id =
        (if member.isRemote then [s.nextMessageId] else []) ∧
      (s.call member args).service.nextMessageId =
        (if member.isRemote then increment s.nextMessageId else s.nextMessageId) := by
  cases member with
  | remote methodName target =>
      have h := sendRequest_built s methodName args target
      simp [RPCService.call, ProxyMember.isRemote, h.1, h.2, requestFor]
  | undefined => simp [RPCService.call, ProxyMember.isRemote, requestsBuilt]
  | own v => simp [RPCService.call, ProxyMember.isRemote, requestsBuilt]
  | inherited name => simp [RPCService.call, ProxyMember.isRemote, requestsBuilt]

theorem step_request_ids (s : RPCService) (op : Op) :
    (requestsBuilt (s.step op).2).map RPCMessage.id =
        (if op.isSend then [s.nextMessageId] else []) ∧
      (s.step op).1.nextMessageId =
        (if op.isSend then increment s.nextMessageId else s.nextMessageId) := by
  cases op with
  | registerHost hostName host =>
      simp [RPCService.step, Op.isSend, requestsBuilt, RPCService.registerHost]
  | sendRequest methodName args hostName =>
      have h := sendRequest_built s methodName args hostName
      simp [RPCService.step, Op.isSend, h.1, h.2, requestFor]
  | proxyCall hostName member args =>
      simp only [RPCService.step, Op.isSend]
      exact call_request_ids s _ args
  | handleRequest message =>
      simp [RPCService.step, Op.isSend, requestsBuilt_handleRequest, handleRequest_service]
  | handleResponse message =>
      simp [RPCService.step, Op.isSend, requestsBuilt_handleResponse,
        handleResponse_nextMessageId]

theorem run_request_ids (s : RPCService) (ops : List Op) :
    (requestsBuilt (s.run ops).2).map RPCMessage.id =
      (List.range (ops.countP Op.isSend)).map (fun i => increment^[i] s.nextMessageId) := by
  induction ops generalizing s with
  | nil => simp [RPCService.run, requestsBuilt]
  | cons op rest ih =>
      have hstep := step_request_ids s op
      simp only [RPCService.run, requestsBuilt_append, List.map_append, hstep.1, ih]
      by_cases hsend : op.isSend = true
      · simp only [hsend, if_true] at hstep ⊢
        rw [hstep.2, List.countP_cons_of_pos _ _ hsend, List.range_succ_eq_map]
        simp [Function.iterate_succ_apply, List.map_map, Function.comp_def]
      · simp only [hsend] at hstep ⊢
        rw [hstep.2, List.countP_cons_of_neg _ _ hsend]
        simp

theorem increment_iterate_zero (i : Nat) : increment^[i] 0 = min i (2 ^ 53) := by
  induction i with
  | zero => simp
  | succ n ih =>
      rw [Function.iterate_succ_apply', ih]
      unfold increment
      split <;> omega

theorem fresh_run_request_ids (config : ApiWrapper) (ops : List Op) :
    (requestsBuilt ((RPCService.new config).run ops).2).map RPCMessage.id =
      (List.range (ops.countP Op.isSend)).map (fun i => min i (2 ^ 53)) := by
  rw [run_request_ids]
  simp [RPCService.new, increment_iterate_zero]

/-- C3, as amended.  On a fresh service, whatever other calls (responses handled,
hosts registered, requests handled) come in between, the ids of the envelopes
built by the first N `sendRequest` calls are exactly 0, 1, ..., N-1 in call
order, hence strictly increasing and pairwise distinct, as long as
N ≤ 2^53 + 1. -/
theorem request_ids_count_up (config : ApiWrapper) (ops : List Op)
    (hbound : ops.countP Op.isSend ≤ 2 ^ 53 + 1) :
    (requestsBuilt ((RPCService.new config).run ops).2).map RPCMessage.id =
        List.range (ops.countP Op.isSend) ∧
      ((requestsBuilt ((RPCService.new config).run ops).2).map RPCMessage.id).Pairwise
        (fun a b => a < b) ∧
      ((requestsBuilt ((RPCService.new config).run ops).2).map RPCMessage.id).Nodup := by
  have hids : (requestsBuilt ((RPCService.new config).run ops).2).map RPCMessage.id =
      List.range (ops.countP Op.isSend) := by
    rw [fresh_run_request_ids]
    conv_rhs => rw [← List.map_id (List.range (ops.countP Op.isSend))]
    apply List.map_congr_left
    intro i hi
    have hlt : i < ops.countP Op.isSend := List.mem_range.mp hi
    simp only [id]
    omega
  rw [hids]
  exact ⟨rfl, List.pairwise_lt_range _, List.nodup_range _⟩

/-- C3, witness: two direct requests and one through a proxy, with a handled
response and a registration in between, get the ids 0, 1, 2. -/
theorem request_ids_count_up_witness :
    [Op.sendRequest "processData" [] "DataService",
      Op.handleResponse (responseFor 0 (Val.num 14) none),
      Op.proxyCall "DataService" "processData" [],
      Op.registerHost "Sample" (Host.sample Val.null),
      Op.sendRequest "give" [] "Sample"].countP Op.isSend ≤ 2 ^ 53 + 1 ∧
    (requestsBuilt ((RPCService.new workerConfig).run
      [Op.sendRequest "processData" [] "DataService",
        Op.handleResponse (responseFor 0 (Val.num 14) none),
        Op.proxyCall "DataService" "processData" [],
        Op.registerHost "Sample" (Host.sample Val.null),
        Op.sendRequest "give" [] "Sample"]).2).map RPCMessage.id = [0, 1, 2] :=
  ⟨by decide,
   (request_ids_count_up workerConfig
      [Op.sendRequest "processData" [] "DataService",
        Op.handleResponse (responseFor 0 (Val.num 14) none),
        Op.proxyCall "DataService" "processData" [],
        Op.registerHost "Sample" (Host.sample Val.null),
        Op.sendRequest "give" [] "Sample"] (by decide)).1⟩

/-- C3 fails as stated for N = 2^53 + 2.  The counter is a double: it reaches
2^53 and stays there, so after 2^53 + 2 calls of `sendRequest` the ids are not
0, ..., 2^53 + 1; the last two envelopes both carry the id 2^53. -/
theorem request_ids_repeat_after_two_pow_53 :
    (requestsBuilt ((RPCService.new workerConfig).run
        (List.replicate (2 ^ 53 + 2) (Op.sendRequest "processData" [] "DataService"))).2).map
          RPCMessage.id ≠ List.range (2 ^ 53 + 2) ∧
      ((requestsBuilt ((RPCService.new workerConfig).run
        (List.replicate (2 ^ 53 + 2) (Op.sendRequest "processData" [] "DataService"))).2).map
          RPCMessage.id)[2 ^ 53]? = some (2 ^ 53) ∧
      ((requestsBuilt ((RPCService.new workerConfig).run
        (List.replicate (2 ^ 53 + 2) (Op.sendRequest "processData" [] "DataService"))).2).map
          RPCMessage.id)[2 ^ 53 + 1]? = some (2 ^ 53) := by
  have hcount : (List.replicate (2 ^ 53 + 2)
      (Op.sendRequest "processData" [] "DataService")).countP Op.isSend = 2 ^ 53 + 2 := by
    rw [List.countP_replicate]
    simp [Op.isSend]
  have hids := fresh_run_request_ids workerConfig
    (List.replicate (2 ^ 53 + 2) (Op.sendRequest "processData" [] "DataService"))
  rw [hcount] at hids
  have hlast : ((requestsBuilt ((RPCService.new workerConfig).run
      (List.replicate (2 ^ 53 + 2) (Op.sendRequest "processData" [] "DataService"))).2).map
        RPCMessage.id)[2 ^ 53 + 1]? = some (2 ^ 53) := by
    rw [hids, List.getElem?_map, List.getElem?_range (by omega)]
    simp
  refine ⟨?_, ?_, hlast⟩
  · intro heq
    rw [heq, List.getElem?_range (by omega)] at hlast
    simp at hlast
  · rw [hids, List.getElem?_map, List.getElem?_range (by omega)]
    simp

/-- C4, as amended.  `sendRequest(methodName, args, hostName)` returns a new
promise.  When it calls the transport, the record (that promise, the next id,
methodName, args) is in `pendingRequests` under the next id; on return the record
is still there unless a response with that id was handled during the transport
call.  With a transport primitive configured, the envelope
{id, "request", hostName, methodName, args} is handed to it exactly once, after
the insertion of the record and the log of the envelope, and what the transport
passes to the response handler during the call is handled in the state that
holds the record.  The promise is pending on return when the call returned
without doing anything else; in general it is, on return, pending, or completed by
a `handleResponse` that ran during the call, or rejected with the value the call
threw.  When no primitive is configured, nothing is sent and the promise is
already rejected.  A pending promise stays pending across any later call unless
that call runs the stored `resolve` or `reject` of the promise, which
`handleRequest` never does and `handleResponse` does only for the promise of the
record found under the id of the response. -/
theorem sendRequest_bookkeeping (s : RPCService) (methodName : String) (args : List Val)
    (hostName : String) :
    (s.sendRequest methodName args hostName).result = Except.ok s.promises.length ∧
      JSMap.get (s.atSend methodName args).pendingRequests s.nextMessageId =
        some { future := s.promises.length, id := s.nextMessageId,
               methodName := methodName, args := args } ∧
      (JSMap.get (s.sendRequest methodName args hostName).service.pendingRequests
            s.nextMessageId =
          some { future := s.promises.length, id := s.nextMessageId,
                 methodName := methodName, args := args } ∨
        (false, s.nextMessageId) ∈ lifecycle (s.sendRequest methodName args hostName).events) ∧
      (∀ send, s.apiWrapper.sendRequest = some send →
        requestsSent (s.sendRequest methodName args hostName).events =
            [requestFor s.nextMessageId hostName methodName args] ∧
          (send (requestFor s.nextMessageId hostName methodName args) = none →
            (s.sendRequest methodName args hostName).events =
                [Event.pendingSet s.nextMessageId
                   { future := s.promises.length, id := s.nextMessageId,
                     methodName := methodName, args := args },
                 Event.log "Sending request"
                   (requestFor s.nextMessageId hostName methodName args),
                 Event.sendRequest (requestFor s.nextMessageId hostName methodName args)] ∧
              (s.sendRequest methodName args hostName).service.promises[s.promises.length]? =
                some none ∧
              JSMap.get (s.sendRequest methodName args hostName).service.pendingRequests
                  s.nextMessageId =
                some { future := s.promises.length, id := s.nextMessageId,
                       methodName := methodName, args := args }) ∧
          (∀ during, send (requestFor s.nextMessageId hostName methodName args) = some during →
            (s.sendRequest methodName args hostName).events =
                [Event.pendingSet s.nextMessageId
                   { future := s.promises.length, id := s.nextMessageId,
                     methodName := methodName, args := args },
                 Event.log "Sending request"
                   (requestFor s.nextMessageId hostName methodName args),
                 Event.sendRequest (requestFor s.nextMessageId hostName methodName args)] ++
                  ((s.atSend methodName args).handleResponses during.delivered).2 ∧
              ((s.sendRequest methodName args hostName).service.promises[s.promises.length]? =
                  some none ∨
                (∃ o, (s.promises.length, o) ∈
                  completions (s.sendRequest methodName args hostName).events) ∨
                ∃ e, during.thrown = some e ∧
                  (s.sendRequest methodName args hostName).service.promises[s.promises.length]? =
                    some (some (Settled.rejected e))) ∧
              (during.delivered = [] → ∀ e, during.thrown = some e →
                (s.sendRequest methodName args hostName).service.promises[s.promises.length]? =
                  some (some (Settled.rejected e))))) ∧
      (s.apiWrapper.sendRequest = none →
        requestsSent (s.sendRequest methodName args hostName).events = [] ∧
          (s.sendRequest methodName args hostName).service.promises[s.promises.length]? =
            some (some (Settled.rejected (notAFunction "this.apiWrapper.sendRequest")))) ∧
      (∀ (t : RPCService) (op : Op) (f : Nat), t.promises[f]? = some none →
        (t.step op).1.promises[f]? = some none ∨ ∃ o, (f, o) ∈ completions (t.step op).2) ∧
      (∀ (t : RPCService) (message : RPCMessage),
        completions (t.handleRequest message).events = []) ∧
      (∀ (t : RPCService) (message : RPCMessage) (f : Nat) (o : Settled),
        (f, o) ∈ completions (t.handleResponse message).events →
          message.type = "response" ∧
            ∃ record, JSMap.get t.pendingRequests message.id = some record ∧
              record.future = f) := by
  have hat : JSMap.get (s.atSend methodName args).pendingRequests s.nextMessageId =
      some { future := s.promises.length, id := s.nextMessageId,
             methodName := methodName, args := args } := JSMap.get_set_self _ _ _
  have hatp : (s.atSend methodName args).promises[s.promises.length]? = some none :=
    getElem?_append_pending _
  refine ⟨sendRequest_result s methodName args hostName, hat, ?_, ?_, ?_,
    fun t op f h => step_promise t op f h,
    fun t message => (completions_handleRequest t message).1, ?_⟩
  · obtain ⟨delivered, sent, promises, hservice, _, _, hevents, _, _⟩ :=
      sendRequest_shape s methodName args hostName
    rw [hservice, hevents]
    rcases (handleResponses_pending (s.atSend methodName args) delivered _ _).2 hat with h | h
    · exact Or.inl h
    · right
      rw [lifecycle_append]
      exact List.mem_append_right _ h
  · intro send hcfg
    refine ⟨?_, ?_, ?_⟩
    · rw [sendRequest_sent, hcfg]
      rfl
    · intro hcall
      rw [sendRequest_of_sent s methodName args hostName send hcfg hcall]
      exact ⟨rfl, getElem?_append_pending _, JSMap.get_set_self _ _ _⟩
    · intro during hcall
      have h := sendRequest_of_reentry s methodName args hostName send during hcfg hcall
      refine ⟨h.1, ?_, ?_⟩
      · rw [h.2.2, h.1, completions_append]
        simp only []
        rcases handleResponses_promise (s.atSend methodName args) during.delivered _ hatp
          with hp | ⟨o, ho⟩
        · cases hthrown : during.thrown with
          | none => exact Or.inl hp
          | some e => exact Or.inr (Or.inr ⟨e, rfl, settle_pending _ _ _ hp⟩)
        · exact Or.inr (Or.inl ⟨o, List.mem_append_right _ ho⟩)
      · intro hnone e hthrown
        rw [h.2.2, hthrown, hnone]
        exact settle_pending _ _ _ hatp
  · intro hcfg
    rw [sendRequest_of_unconfigured s methodName args hostName hcfg]
    exact ⟨by simp [requestsSent], settle_pending _ _ _ (getElem?_append_pending _)⟩
  · intro t message f o hmem
    obtain ⟨htype, record, _, hget, hf, _, _⟩ :=
      handleResponse_completion_source t message f o hmem
    exact ⟨htype, record, hget, hf⟩

/-- C4, witness: the first request of the worker, whose transport is
`postMessage`, and the same request on a transport that answers 6 during the
call. -/
theorem sendRequest_bookkeeping_witness :
    (freshWorker.sendRequest "processData" [Val.num 1] "DataService").events =
        [Event.pendingSet 0
           { future := 0, id := 0, methodName := "processData", args := [Val.num 1] },
         Event.log "Sending request" (requestFor 0 "DataService" "processData" [Val.num 1]),
         Event.sendRequest (requestFor 0 "DataService" "processData" [Val.num 1])] ∧
      (freshWorker.sendRequest "processData" [Val.num 1] "DataService").service.promises[0]? =
        some none ∧
      JSMap.get (freshWorker.sendRequest "processData" [Val.num 1]
          "DataService").service.pendingRequests 0 =
        some { future := 0, id := 0, methodName := "processData", args := [Val.num 1] } ∧
      ((RPCService.new (answeringConfig (Val.num 6))).sendRequest "processData" [Val.num 1]
          "DataService").events =
        [Event.pendingSet 0
           { future := 0, id := 0, methodName := "processData", args := [Val.num 1] },
         Event.log "Sending request" (requestFor 0 "DataService" "processData" [Val.num 1]),
         Event.sendRequest (requestFor 0 "DataService" "processData" [Val.num 1])] ++
          (((RPCService.new (answeringConfig (Val.num 6))).atSend "processData"
            [Val.num 1]).handleResponses [responseFor 0 (Val.num 6) none]).2 :=
  ⟨((sendRequest_bookkeeping freshWorker "processData" [Val.num 1] "DataService").2.2.2.1
      postMessage rfl).2.1 rfl |>.1,
   ((sendRequest_bookkeeping freshWorker "processData" [Val.num 1] "DataService").2.2.2.1
      postMessage rfl).2.1 rfl |>.2.1,
   ((sendRequest_bookkeeping freshWorker "processData" [Val.num 1] "DataService").2.2.2.1
      postMessage rfl).2.1 rfl |>.2.2,
   ((sendRequest_bookkeeping (RPCService.new (answeringConfig (Val.num 6))) "processData"
      [Val.num 1] "DataService").2.2.2.1
      (fun m => some { delivered := [responseFor m.id (Val.num 6) none], thrown := none })
      rfl).2.2 { delivered := [responseFor 0 (Val.num 6) none], thrown := none } rfl |>.1⟩

/-- C4 fails as stated, in two ways.  When the transport primitive throws,
`sendRequest` calls it once and returns promise 0, which is then already
rejected with the thrown value, without any `handleResponse`.  When the transport
passes the response to the response handler before its call returns,
`sendRequest` returns promise 0 already fulfilled, and the record is no longer in
`pendingRequests`. -/
theorem sendRequest_rejected_on_return :
    ((RPCService.new (failingConfig (Val.error "Error" "port closed"))).sendRequest
        "processData" [Val.num 1] "DataService").result = Except.ok 0 ∧
      requestsSent ((RPCService.new (failingConfig (Val.error "Error" "port closed"))).sendRequest
        "processData" [Val.num 1] "DataService").events =
        [requestFor 0 "DataService" "processData" [Val.num 1]] ∧
      ((RPCService.new (failingConfig (Val.error "Error" "port closed"))).sendRequest
        "processData" [Val.num 1] "DataService").service.outcome 0 =
        some (Settled.rejected (Val.error "Error" "port closed")) ∧
      ((RPCService.new (answeringConfig (Val.num 6))).sendRequest
        "processData" [Val.num 1] "DataService").result = Except.ok 0 ∧
      requestsSent ((RPCService.new (answeringConfig (Val.num 6))).sendRequest
        "processData" [Val.num 1] "DataService").events =
        [requestFor 0 "DataService" "processData" [Val.num 1]] ∧
      ((RPCService.new (answeringConfig (Val.num 6))).sendRequest
        "processData" [Val.num 1] "DataService").service.outcome 0 =
        some (Settled.fulfilled (Val.num 6)) ∧
      JSMap.get ((RPCService.new (answeringConfig (Val.num 6))).sendRequest
        "processData" [Val.num 1] "DataService").service.pendingRequests 0 = none := by
  refine ⟨rfl, by decide, by decide, rfl, by decide, by decide, by decide⟩

/-- C5, evaluated where it fails.  The host method `give` returns `null`, which is
not future-like: `executeHostMethod` invokes it once, and the result is a failed
future carrying a `TypeError` (from reading `then` of `null`), not a completed
future carrying `null`.  With `undefined`, 0, `false` and "" the future is
completed with the value. -/
theorem executeHostMethod_null_return_rejected :
    (sampleMain Val.null).executeHostMethod "Sample" "give" [Val.num 1] =
        { promise := some (Settled.rejected (cannotRead "null" "then"))
          events := [Event.apply "Sample" "give" [Val.num 1]] } ∧
      ((sampleMain Val.undefined).executeHostMethod "Sample" "give" []).promise =
        some (Settled.fulfilled Val.undefined) ∧
      ((sampleMain (Val.num 0)).executeHostMethod "Sample" "give" []).promise =
        some (Settled.fulfilled (Val.num 0)) ∧
      ((sampleMain (Val.bool false)).executeHostMethod "Sample" "give" []).promise =
        some (Settled.fulfilled (Val.bool false)) ∧
      ((sampleMain (Val.str "")).executeHostMethod "Sample" "give" []).promise =
        some (Settled.fulfilled (Val.str "")) := by
  decide

theorem proxy_get_remote (h n : String) (hthen : n ≠ "then") (hcatch : n ≠ "catch")
    (hown : ¬ (n = "hostName" ∧ h ≠ "")) (hinherited : n ∉ objectPrototypeMembers) :
    (createProxy h).get n = ProxyMember.remote n h := by
  unfold ProxiedObject.get createHandler createProxy
  by_cases hn : n = "hostName"
  · have hh : h = "" := by
      by_contra hne
      exact hown ⟨hn, hne⟩
    subst hn
    subst hh
    decide
  · simp [hthen, hcatch, hn, hinherited]

/-- C6, as amended.  For every host name h, every member name n other than
"then", "catch", "hostName" (when h is not empty) and the twelve member names of
`Object.prototype`, and every argument list args: accessing n on
`createProxy(h)` yields the forwarding function, and calling it with args has
exactly the state change, effects and result of `sendRequest(n, args, h)`, which
builds one request envelope with hostName = h, methodName = n, args = args. -/
theorem proxy_member_forwards (s : RPCService) (h n : String) (args : List Val)
    (hthen : n ≠ "then") (hcatch : n ≠ "catch")
    (hown : ¬ (n = "hostName" ∧ h ≠ "")) (hinherited : n ∉ objectPrototypeMembers) :
    (createProxy h).get n = ProxyMember.remote n h ∧
      (s.call ((createProxy h).get n) args).service = (s.sendRequest n args h).service ∧
      (s.call ((createProxy h).get n) args).events = (s.sendRequest n args h).events ∧
      (s.call ((createProxy h).get n) args).result =
        (s.sendRequest n args h).result.map some ∧
      requestsBuilt (s.call ((createProxy h).get n) args).events =
        [requestFor s.nextMessageId h n args] := by
  have hget := proxy_get_remote h n hthen hcatch hown hinherited
  rw [hget]
  exact ⟨rfl, rfl, rfl, rfl, (sendRequest_built s n args h).1⟩

/-- C6, witness: `processData` on the proxy for "DataService". -/
theorem proxy_member_forwards_witness :
    (createProxy "DataService").get "processData" =
        ProxyMember.remote "processData" "DataService" ∧
      requestsBuilt (freshWorker.call ((createProxy "DataService").get "processData")
          [Val.arr [Val.num 1, Val.num 4, Val.num 9]]).events =
        [requestFor 0 "DataService" "processData" [Val.arr [Val.num 1, Val.num 4, Val.num 9]]] :=
  ⟨(proxy_member_forwards freshWorker "DataService" "processData"
      [Val.arr [Val.num 1, Val.num 4, Val.num 9]]
      (by decide) (by decide) (by decide) (by decide)).1,
   (proxy_member_forwards freshWorker "DataService" "processData"
      [Val.arr [Val.num 1, Val.num 4, Val.num 9]]
      (by decide) (by decide) (by decide) (by decide)).2.2.2.2⟩

theorem proxy_get_excepted (h n : String) :
    ((n = "then" ∨ n = "catch") → (createProxy h).get n = ProxyMember.undefined) ∧
      (n = "hostName" → h ≠ "" → (createProxy h).get n = ProxyMember.own (Val.str h)) ∧
      (n ∈ objectPrototypeMembers → (createProxy h).get n = ProxyMember.inherited n) := by
  refine ⟨?_, ?_, ?_⟩
  · intro hn
    unfold ProxiedObject.get createHandler createProxy
    simp [hn]
  · intro hn hh
    subst hn
    unfold ProxiedObject.get createHandler createProxy
    simp [Val.truthy, hh]
  · intro hn
    have h1 : n ≠ "then" := by
      intro heq
      subst heq
      revert hn
      decide
    have h2 : n ≠ "catch" := by
      intro heq
      subst heq
      revert hn
      decide
    have h3 : n ≠ "hostName" := by
      intro heq
      subst heq
      revert hn
      decide
    unfold ProxiedObject.get createHandler createProxy
    simp [h1, h2, h3, hn]

/-- C6 fails as stated for the member names "hostName" and "toString", which are
neither "then" nor "catch": on the proxy for "DataService" the first reads as the
string "DataService" (not a callable) and the second as the built-in inherited
from `Object.prototype`; calling either builds no request, while `sendRequest`
for that name would. -/
theorem proxy_existing_member_not_forwarded :
    (createProxy "DataService").get "hostName" = ProxyMember.own (Val.str "DataService") ∧
      (createProxy "DataService").get "toString" = ProxyMember.inherited "toString" ∧
      (freshWorker.call ((createProxy "DataService").get "hostName") []).events = [] ∧
      (freshWorker.call ((createProxy "DataService").get "toString") []).events = [] ∧
      requestsBuilt (freshWorker.sendRequest "hostName" [] "DataService").events =
        [requestFor 0 "DataService" "hostName" []] := by
  decide

theorem responsesSent_executeHostMethod (s : RPCService) (hostName methodName : String)
    (args : List Val) :
    responsesSent (s.executeHostMethod hostName methodName args).events = [] := by
  rcases executeHostMethod_events s hostName methodName args with h | h <;> rw [h] <;>
    simp [responsesSent]

theorem handleRequest_of_fulfilled (s : RPCService) (id : Nat) (hostName methodName : String)
    (args : List Val) (respond : RPCMessage → Option Val) (v : Val)
    (hcfg : s.apiWrapper.sendResponse = some respond)
    (hcall : respond (responseFor id v none) = none)
    (hexec : (s.executeHostMethod hostName methodName args).promise =
      some (Settled.fulfilled v)) :
    responsesSent (s.handleRequest (requestFor id hostName methodName args)).events =
      [responseFor id v none] := by
  unfold RPCService.handleRequest
  simp only [requestFor, hexec, RPCService.onFulfilled, RPCService.callSendResponse, hcfg]
  simp only [responseFor] at hcall
  simp only [hcall]
  have hx := responsesSent_executeHostMethod s hostName methodName args
  simp only [responsesSent, List.filterMap_append, List.filterMap_cons] at hx ⊢
  simp [hx, responseFor]

theorem handleRequest_of_rejected (s : RPCService) (id : Nat) (hostName methodName : String)
    (args : List Val) (respond : RPCMessage → Option Val) (e : Val) (text : String)
    (hcfg : s.apiWrapper.sendResponse = some respond)
    (hexec : (s.executeHostMethod hostName methodName args).promise =
      some (Settled.rejected e))
    (htext : e.toStr = some text) :
    responsesSent (s.handleRequest (requestFor id hostName methodName args)).events =
      [responseFor id Val.null (some text)] := by
  unfold RPCService.handleRequest
  simp only [requestFor, hexec, RPCService.onRejected, htext, RPCService.callSendResponse, hcfg]
  have hx := responsesSent_executeHostMethod s hostName methodName args
  simp only [responsesSent, List.filterMap_append, List.filterMap_cons] at hx ⊢
  simp [hx, responseFor]

theorem handleRequest_of_unprintable (s : RPCService) (id : Nat) (hostName methodName : String)
    (args : List Val) (e : Val)
    (hexec : (s.executeHostMethod hostName methodName args).promise =
      some (Settled.rejected e))
    (htext : e.toStr = none) :
    responsesSent (s.handleRequest (requestFor id hostName methodName args)).events = [] := by
  unfold RPCService.handleRequest
  simp only [requestFor, hexec, RPCService.onRejected, htext]
  have hx := responsesSent_executeHostMethod s hostName methodName args
  simp only [responsesSent, List.filterMap_append, List.filterMap_cons] at hx ⊢
  simp [hx]

theorem remoteCall_of_responses (caller host : RPCService) (methodName : String)
    (args : List Val) (hostName : String) (send : RPCMessage → Option Reentry)
    (hcfg : caller.apiWrapper.sendRequest = some send)
    (hcall : send (requestFor caller.nextMessageId hostName methodName args) = none) :
    remoteCall caller host methodName args hostName =
      (deliverResponses (caller.sendRequest methodName args hostName).service
          (responsesSent (host.handleRequest
            (requestFor caller.nextMessageId hostName methodName args)).events),
        caller.promises.length) := by
  unfold remoteCall relay
  rw [sendRequest_of_sent caller methodName args hostName send hcfg hcall]
  simp [requestsSent, deliverRequests]

theorem remoteCall_rejected (caller host : RPCService) (methodName : String)
    (args : List Val) (hostName : String) (send : RPCMessage → Option Reentry)
    (respond : RPCMessage → Option Val) (e : Val) (text : String)
    (hcfg : caller.apiWrapper.sendRequest = some send)
    (hcall : send (requestFor caller.nextMessageId hostName methodName args) = none)
    (hcfg' : host.apiWrapper.sendResponse = some respond)
    (hexec : (host.executeHostMethod hostName methodName args).promise =
      some (Settled.rejected e))
    (htext : e.toStr = some text) (hne : text ≠ "") :
    (remoteCall caller host methodName args hostName).1.outcome
        (remoteCall caller host methodName args hostName).2 =
      some (Settled.rejected (Val.str text)) := by
  rw [remoteCall_of_responses caller host methodName args hostName send hcfg hcall,
    handleRequest_of_rejected host _ hostName methodName args respond e text hcfg' hexec htext,
    sendRequest_of_sent caller methodName args hostName send hcfg hcall]
  simp only [deliverResponses, List.foldl_cons, List.foldl_nil]
  have h := handleResponse_rejects
    { caller with
      nextMessageId := increment caller.nextMessageId
      pendingRequests := JSMap.set caller.pendingRequests caller.nextMessageId
        { future := caller.promises.length, id := caller.nextMessageId,
          methodName := methodName, args := args }
      promises := caller.promises ++ [none] }
    (responseFor caller.nextMessageId Val.null (some text))
    { future := caller.promises.length, id := caller.nextMessageId,
      methodName := methodName, args := args }
    Val.null text rfl (JSMap.get_set_self _ _ _) rfl hne
  rw [h.1]
  simp only [RPCService.outcome]
  rw [settle_pending _ _ _ (getElem?_append_pending _)]
  rfl

theorem remoteCall_fulfilled (caller host : RPCService) (methodName : String)
    (args : List Val) (hostName : String) (send : RPCMessage → Option Reentry)
    (respond : RPCMessage → Option Val) (v : Val)
    (hcfg : caller.apiWrapper.sendRequest = some send)
    (hcall : send (requestFor caller.nextMessageId hostName methodName args) = none)
    (hcfg' : host.apiWrapper.sendResponse = some respond)
    (hcall' : respond (responseFor caller.nextMessageId v none) = none)
    (hexec : (host.executeHostMethod hostName methodName args).promise =
      some (Settled.fulfilled v)) :
    (remoteCall caller host methodName args hostName).1.outcome
        (remoteCall caller host methodName args hostName).2 =
      some (Settled.fulfilled v) := by
  rw [remoteCall_of_responses caller host methodName args hostName send hcfg hcall,
    handleRequest_of_fulfilled host _ hostName methodName args respond v hcfg' hcall' hexec,
    sendRequest_of_sent caller methodName args hostName send hcfg hcall]
  simp only [deliverResponses, List.foldl_cons, List.foldl_nil]
  have h := handleResponse_resolves
    { caller with
      nextMessageId := increment caller.nextMessageId
      pendingRequests := JSMap.set caller.pendingRequests caller.nextMessageId
        { future := caller.promises.length, id := caller.nextMessageId,
          methodName := methodName, args := args }
      promises := caller.promises ++ [none] }
    (responseFor caller.nextMessageId v none)
    { future := caller.promises.length, id := caller.nextMessageId,
      methodName := methodName, args := args }
    v none rfl (JSMap.get_set_self _ _ _) rfl (Or.inl rfl)
  rw [h.1]
  simp only [RPCService.outcome]
  rw [settle_pending _ _ _ (getElem?_append_pending _)]
  rfl

/-- C7, evaluated where it fails.  The host method throws the empty string
(`boom`) or returns a future failing with it (`fail`): execution on the host side
fails, and the caller's future is resolved with `null`.  When the failure value
is `undefined`, the caller's future is left pending. -/
theorem remoteCall_failure_not_rejected :
    ((sampleMain (Val.str "")).executeHostMethod "Sample" "boom" []).promise =
        some (Settled.rejected (Val.str "")) ∧
      (remoteCall freshWorker (sampleMain (Val.str "")) "boom" [] "Sample").1.outcome 0 =
        some (Settled.fulfilled Val.null) ∧
      (remoteCall freshWorker (sampleMain (Val.str "")) "fail" [] "Sample").1.outcome 0 =
        some (Settled.fulfilled Val.null) ∧
      ((sampleMain Val.undefined).executeHostMethod "Sample" "boom" []).promise =
        some (Settled.rejected Val.undefined) ∧
      (remoteCall freshWorker (sampleMain Val.undefined) "boom" [] "Sample").1.outcome 0 =
        none ∧
      (remoteCall freshWorker (sampleMain Val.undefined) "fail" [] "Sample").1.outcome 0 =
        none := by
  decide

/-- C8.  For every state and every message whose id has no record in
`pendingRequests`, `handleResponse` leaves the whole service (pendingRequests,
hosts, nextMessageId, every promise) unchanged and calls no `resolve` or
`reject`.  Consequently, when two response envelopes with the same id arrive and
the id has a record whose future is pending, the first completes that future with
some outcome and the second changes nothing: the future keeps that outcome. -/
theorem handleResponse_orphan_noop :
    (∀ (s : RPCService) (message : RPCMessage),
      JSMap.get s.pendingRequests message.id = none →
        (s.handleResponse message).service = s ∧
          completions (s.handleResponse message).events = []) ∧
    (∀ (s : RPCService) (first second : RPCMessage) (record : PendingRequest)
      (response : Response),
      first.type = "response" → second.id = first.id →
      JSMap.get s.pendingRequests first.id = some record →
      first.response = some response →
      s.promises[record.future]? = some none →
        ∃ o, completions (s.handleResponse first).events = [(record.future, o)] ∧
          (s.handleResponse first).service.outcome record.future = some o ∧
          ((s.handleResponse first).service.handleResponse second).service =
            (s.handleResponse first).service ∧
          completions ((s.handleResponse first).service.handleResponse second).events = [] ∧
          ((s.handleResponse first).service.handleResponse second).service.outcome
            record.future = some o) := by
  refine ⟨fun s message hget => ⟨(handleResponse_of_no_record s message hget).1,
    (handleResponse_of_no_record s message hget).2.1⟩, ?_⟩
  intro s first second record response htype hid hget hresp hpending
  obtain ⟨returnValue, err⟩ := response
  have hafter : ∀ (o : Settled) (events : List Event),
      (s.handleResponse first).service =
        { s with
          pendingRequests := JSMap.delete s.pendingRequests first.id
          promises := settle s.promises record.future o } →
      (s.handleResponse first).events = events →
      completions events = [(record.future, o)] →
      completions (s.handleResponse first).events = [(record.future, o)] ∧
        (s.handleResponse first).service.outcome record.future = some o ∧
        ((s.handleResponse first).service.handleResponse second).service =
          (s.handleResponse first).service ∧
        completions ((s.handleResponse first).service.handleResponse second).events = [] ∧
        ((s.handleResponse first).service.handleResponse second).service.outcome
          record.future = some o := by
    intro o events hservice hevents hcompl
    have hout : (s.handleResponse first).service.outcome record.future = some o := by
      rw [hservice]
      simp only [RPCService.outcome]
      rw [settle_pending _ _ _ hpending]
      rfl
    have hgone : JSMap.get (s.handleResponse first).service.pendingRequests second.id =
        none := by
      rw [hservice, hid]
      exact JSMap.get_delete_self _ _
    have hnoop := handleResponse_of_no_record (s.handleResponse first).service second hgone
    refine ⟨by rw [hevents]; exact hcompl, hout, hnoop.1, hnoop.2.1, ?_⟩
    rw [hnoop.1]
    exact hout
  by_cases herr : ∃ e, err = some e ∧ e ≠ ""
  · obtain ⟨e, he, hne⟩ := herr
    subst he
    have h := handleResponse_rejects s first record returnValue e htype hget hresp hne
    exact ⟨_, hafter _ _ h.1 h.2 (by simp [completions])⟩
  · have herr' : err = none ∨ err = some "" := by
      cases err with
      | none => exact Or.inl rfl
      | some e =>
          right
          by_contra hne
          exact herr ⟨e, rfl, fun h => hne (by rw [h])⟩
    have h := handleResponse_resolves s first record returnValue err htype hget hresp herr'
    exact ⟨_, hafter _ _ h.1 h.2 (by simp [completions])⟩

/-- C8, witness: a response for id 5, which the waiting worker never issued, and
two responses for its pending request 0. -/
theorem handleResponse_orphan_noop_witness :
    (JSMap.get waitingWorker.pendingRequests (responseFor 5 (Val.num 14) none).id = none ∧
      (waitingWorker.handleResponse (responseFor 5 (Val.num 14) none)).service =
        waitingWorker) ∧
    ∃ o, completions (waitingWorker.handleResponse (responseFor 0 (Val.num 14) none)).events =
        [(0, o)] ∧
      ((waitingWorker.handleResponse (responseFor 0 (Val.num 14) none)).service.handleResponse
        (responseFor 0 (Val.num 99) none)).service.outcome 0 = some o :=
  ⟨⟨by decide,
    (handleResponse_orphan_noop.1 waitingWorker (responseFor 5 (Val.num 14) none)
      (by decide)).1⟩,
   (handleResponse_orphan_noop.2 waitingWorker (responseFor 0 (Val.num 14) none)
      (responseFor 0 (Val.num 99) none)
      { future := 0, id := 0, methodName := "processData",
        args := [Val.arr [Val.num 1, Val.num 4, Val.num 9]] }
      { returnValue := Val.num 14, err := none }
      (by decide) (by decide) (by decide) (by decide) (by decide)).imp
     fun _ h => ⟨h.1, h.2.2.2.2⟩⟩

/-- C9, evaluated where it fails.  `executeHostMethod` fails with the empty
string: the response envelope sent by `handleRequest` has `returnValue` null and
`err` set to "", and the receiving side classifies that envelope as a success (it
calls `resolve`, not `reject`).  When it fails with `null`, no response envelope
is sent at all. -/
theorem handleRequest_failure_envelope_not_failure :
    ((sampleMain (Val.str "")).executeHostMethod "Sample" "boom" []).promise =
        some (Settled.rejected (Val.str "")) ∧
      responsesSent
          ((sampleMain (Val.str "")).handleRequest (requestFor 0 "Sample" "boom" [])).events =
        [responseFor 0 Val.null (some "")] ∧
      (waitingWorker.handleResponse (responseFor 0 Val.null (some ""))).events =
        [Event.log "Handling response" (responseFor 0 Val.null (some "")),
         Event.pendingDelete 0, Event.resolve 0 Val.null] ∧
      ((sampleMain Val.null).executeHostMethod "Sample" "boom" []).promise =
        some (Settled.rejected Val.null) ∧
      responsesSent
          ((sampleMain Val.null).handleRequest (requestFor 0 "Sample" "boom" [])).events =
        [] := by
  decide

theorem invalid_method_ne_invalid_host (h m : String) :
    "Invalid method name \"" ++ m ++ "\" on host \"" ++ h ++ "\"" ≠
      "Invalid host name \"" ++ h ++ "\"" := by
  intro heq
  have hdata := congrArg String.data heq
  simp [String.data_append] at hdata

theorem invalid_host_ne_empty (h : String) : "Invalid host name \"" ++ h ++ "\"" ≠ "" := by
  intro heq
  have hdata := congrArg String.data heq
  simp [String.data_append] at hdata

theorem executeHostMethod_of_unregistered (s : RPCService) (h m : String) (args : List Val)
    (hget : JSMap.get s.hosts h = none) :
    s.executeHostMethod h m args =
      { promise := some (Settled.rejected (Val.str ("Invalid host name \"" ++ h ++ "\"")))
        events := [] } := by
  unfold RPCService.executeHostMethod
  simp [hget]

theorem executeHostMethod_of_falsy (s : RPCService) (h m : String) (args : List Val)
    (host : Host) (hget : JSMap.get s.hosts h = some host) (hfalsy : host.truthy = false) :
    s.executeHostMethod h m args =
      { promise := some (Settled.rejected (Val.str ("Invalid host name \"" ++ h ++ "\"")))
        events := [] } := by
  unfold RPCService.executeHostMethod
  simp [hget, hfalsy]

theorem executeHostMethod_of_truthy (s : RPCService) (h m : String) (args : List Val)
    (host : Host) (hget : JSMap.get s.hosts h = some host) (htruthy : host.truthy = true) :
    (s.executeHostMethod h m args).events = [Event.apply h m args] ∨
      (s.executeHostMethod h m args).promise =
        some (Settled.rejected (Val.str
          ("Invalid method name \"" ++ m ++ "\" on host \"" ++ h ++ "\""))) := by
  unfold RPCService.executeHostMethod
  simp only [hget, htruthy, Bool.not_true, Bool.false_eq_true, if_false]
  cases host.get m with
  | value v => right; rfl
  | function method =>
      left
      simp only []
      split <;> rfl

/-- C10, as amended.  For every host name h that is not registered, every method
name and argument list, `executeHostMethod` returns a failed future carrying the
string 'Invalid host name "h"' and invokes no host method.  End to end over a
loss-free transport, calling a forwarded member of the proxy for unregistered
"Ghost" rejects the caller's future with 'Invalid host name "Ghost"'.
Conversely, when h is registered with a truthy value (any object), either the
host method is invoked, or the failure is 'Invalid method name ...', which is a
different string: no unknown-host failure is reported.  When h is registered with
a falsy value, `executeHostMethod` answers as for a name that is not registered:
a failed future carrying 'Invalid host name "h"', and no invocation. -/
theorem unknown_host_rejected :
    (∀ (s : RPCService) (h m : String) (args : List Val),
      JSMap.get s.hosts h = none →
        s.executeHostMethod h m args =
          { promise := some (Settled.rejected (Val.str ("Invalid host name \"" ++ h ++ "\"")))
            events := [] }) ∧
    (∀ (caller host : RPCService) (send : RPCMessage → Option Reentry)
      (respond : RPCMessage → Option Val) (n : String) (args : List Val),
      caller.apiWrapper.sendRequest = some send → (∀ m, send m = none) →
      host.apiWrapper.sendResponse = some respond →
      JSMap.get host.hosts "Ghost" = none →
      (createProxy "Ghost").get n = ProxyMember.remote n "Ghost" →
        (caller.call ((createProxy "Ghost").get n) args).result =
            Except.ok (some caller.promises.length) ∧
          (relay host (caller.call ((createProxy "Ghost").get n) args).service
              (caller.call ((createProxy "Ghost").get n) args).events).outcome
              caller.promises.length =
            some (Settled.rejected (Val.str "Invalid host name \"Ghost\""))) ∧
    (∀ (s : RPCService) (h m : String) (args : List Val) (host : Host),
      JSMap.get s.hosts h = some host → host.truthy = true →
        ((s.executeHostMethod h m args).events = [Event.apply h m args] ∨
          (s.executeHostMethod h m args).promise =
            some (Settled.rejected (Val.str
              ("Invalid method name \"" ++ m ++ "\" on host \"" ++ h ++ "\"")))) ∧
        "Invalid method name \"" ++ m ++ "\" on host \"" ++ h ++ "\"" ≠
          "Invalid host name \"" ++ h ++ "\"") ∧
    (∀ (s : RPCService) (h m : String) (args : List Val) (host : Host),
      JSMap.get s.hosts h = some host → host.truthy = false →
        s.executeHostMethod h m args =
          { promise := some (Settled.rejected (Val.str ("Invalid host name \"" ++ h ++ "\"")))
            events := [] }) := by
  refine ⟨executeHostMethod_of_unregistered, ?_, ?_, executeHostMethod_of_falsy⟩
  · intro caller host send respond n args hcfg hsend hcfg' hget hremote
    rw [hremote]
    refine ⟨?_, ?_⟩
    · simp only [RPCService.call]
      rw [sendRequest_result caller n args "Ghost"]
      rfl
    · have hexec := executeHostMethod_of_unregistered host "Ghost" n args hget
      have h := remoteCall_rejected caller host n args "Ghost" send respond
        (Val.str ("Invalid host name \"" ++ "Ghost" ++ "\""))
        ("Invalid host name \"" ++ "Ghost" ++ "\"") hcfg (hsend _) hcfg'
        (by rw [hexec]) rfl (invalid_host_ne_empty "Ghost")
      exact h
  · intro s h m args host hget htruthy
    exact ⟨executeHostMethod_of_truthy s h m args host hget htruthy,
      invalid_method_ne_invalid_host h m⟩

/-- C10, witness: the unregistered host "Ghost", called from the worker through
its proxy, the registered host "Sample", and the name "Nothing" registered with a
falsy value. -/
theorem unknown_host_rejected_witness :
    (freshWorker.executeHostMethod "Ghost" "processData" [] =
        { promise := some (Settled.rejected (Val.str "Invalid host name \"Ghost\""))
          events := [] }) ∧
      (relay (sampleMain Val.null)
          (freshWorker.call ((createProxy "Ghost").get "processData") []).service
          (freshWorker.call ((createProxy "Ghost").get "processData") []).events).outcome 0 =
        some (Settled.rejected (Val.str "Invalid host name \"Ghost\"")) ∧
      (((sampleMain Val.null).executeHostMethod "Sample" "boom" []).events =
          [Event.apply "Sample" "boom" []] ∨
        ((sampleMain Val.null).executeHostMethod "Sample" "boom" []).promise =
          some (Settled.rejected (Val.str
            ("Invalid method name \"" ++ "boom" ++ "\" on host \"" ++ "Sample" ++ "\"")))) ∧
      ((RPCService.new mainConfig).registerHost "Nothing" Host.falsy).executeHostMethod
          "Nothing" "processData" [Val.num 1] =
        { promise := some (Settled.rejected (Val.str
            ("Invalid host name \"" ++ "Nothing" ++ "\"")))
          events := [] } :=
  ⟨unknown_host_rejected.1 freshWorker "Ghost" "processData" [] rfl,
   (unknown_host_rejected.2.1 freshWorker (sampleMain Val.null) postMessage postMessage
      "processData" [] rfl (fun _ => rfl) rfl rfl (by decide)).2,
   (unknown_host_rejected.2.2.1 (sampleMain Val.null) "Sample" "boom" [] (Host.sample Val.null)
      rfl rfl).1,
   unknown_host_rejected.2.2.2 ((RPCService.new mainConfig).registerHost "Nothing" Host.falsy)
     "Nothing" "processData" [Val.num 1] Host.falsy rfl rfl⟩

/-- C10 fails as stated for a host name registered with a falsy value: "Zero" is
registered, and `executeHostMethod` reports 'Invalid host name "Zero"'. -/
theorem registered_falsy_host_reported_unknown :
    (JSMap.get zeroMain.hosts "Zero").isSome = true ∧
      zeroMain.executeHostMethod "Zero" "toFixed" [] =
        { promise := some (Settled.rejected (Val.str "Invalid host name \"Zero\""))
          events := [] } := by
  refine ⟨rfl, by decide⟩

theorem invalid_method_ne_empty (h m : String) :
    "Invalid method name \"" ++ m ++ "\" on host \"" ++ h ++ "\"" ≠ "" := by
  intro heq
  have hdata := congrArg String.data heq
  simp [String.data_append] at hdata

theorem executeHostMethod_of_no_method (s : RPCService) (h n : String) (args : List Val)
    (host : Host) (v : Val) (hget : JSMap.get s.hosts h = some host)
    (htruthy : host.truthy = true) (hmember : host.get n = Member.value v) :
    s.executeHostMethod h n args =
      { promise := some (Settled.rejected (Val.str
          ("Invalid method name \"" ++ n ++ "\" on host \"" ++ h ++ "\"")))
        events := [] } := by
  unfold RPCService.executeHostMethod
  simp only [hget, htruthy, Bool.not_true, Bool.false_eq_true, if_false, hmember]

theorem call_remote_result (s : RPCService) (n h : String) (args : List Val) :
    (s.call (ProxyMember.remote n h) args).result = Except.ok (some s.promises.length) ∧
      (s.call (ProxyMember.remote n h) args).service = (s.sendRequest n args h).service ∧
      (s.call (ProxyMember.remote n h) args).events = (s.sendRequest n args h).events := by
  refine ⟨?_, rfl, rfl⟩
  simp only [RPCService.call]
  rw [sendRequest_result s n args h]
  rfl

/-- C11.  For every registered host object (a truthy host value) and every method
name n under which the host has no function (the member is absent or is some
other value), `executeHostMethod` returns a failed future carrying the string
'Invalid method name "n" on host "h"' and invokes nothing on the host.  End to
end over a loss-free transport, calling such a member through the proxy for h
rejects the caller's future with that string. -/
theorem unknown_method_rejected :
    (∀ (s : RPCService) (h n : String) (args : List Val) (host : Host) (v : Val),
      JSMap.get s.hosts h = some host → host.truthy = true →
      host.get n = Member.value v →
        s.executeHostMethod h n args =
          { promise := some (Settled.rejected (Val.str
              ("Invalid method name \"" ++ n ++ "\" on host \"" ++ h ++ "\"")))
            events := [] }) ∧
    (∀ (caller hostSide : RPCService) (send : RPCMessage → Option Reentry)
      (respond : RPCMessage → Option Val)
      (h n : String) (args : List Val) (host : Host) (v : Val),
      caller.apiWrapper.sendRequest = some send → (∀ m, send m = none) →
      hostSide.apiWrapper.sendResponse = some respond →
      JSMap.get hostSide.hosts h = some host → host.truthy = true →
      host.get n = Member.value v →
      (createProxy h).get n = ProxyMember.remote n h →
        (caller.call ((createProxy h).get n) args).result =
            Except.ok (some caller.promises.length) ∧
          (relay hostSide (caller.call ((createProxy h).get n) args).service
              (caller.call ((createProxy h).get n) args).events).outcome
              caller.promises.length =
            some (Settled.rejected (Val.str
              ("Invalid method name \"" ++ n ++ "\" on host \"" ++ h ++ "\"")))) := by
  refine ⟨executeHostMethod_of_no_method, ?_⟩
  intro caller hostSide send respond h n args host v hcfg hsend hcfg' hget htruthy hmember
    hremote
  rw [hremote]
  refine ⟨(call_remote_result caller n h args).1, ?_⟩
  have hexec := executeHostMethod_of_no_method hostSide h n args host v hget htruthy hmember
  exact remoteCall_rejected caller hostSide n args h send respond
    (Val.str ("Invalid method name \"" ++ n ++ "\" on host \"" ++ h ++ "\""))
    ("Invalid method name \"" ++ n ++ "\" on host \"" ++ h ++ "\"") hcfg (hsend _) hcfg'
    (by rw [hexec]) rfl (invalid_method_ne_empty h n)

/-- C11, witness: the host `{}` registered as "Empty" and called as
`proxy.foo([])` from the worker. -/
theorem unknown_method_rejected_witness :
    emptyMain.executeHostMethod "Empty" "foo" [Val.arr []] =
        { promise := some (Settled.rejected (Val.str
            "Invalid method name \"foo\" on host \"Empty\""))
          events := [] } ∧
      (relay emptyMain (freshWorker.call ((createProxy "Empty").get "foo") [Val.arr []]).service
          (freshWorker.call ((createProxy "Empty").get "foo") [Val.arr []]).events).outcome 0 =
        some (Settled.rejected (Val.str "Invalid method name \"foo\" on host \"Empty\"")) :=
  ⟨unknown_method_rejected.1 emptyMain "Empty" "foo" [Val.arr []] (Host.ofMethods [])
      Val.undefined rfl rfl rfl,
   (unknown_method_rejected.2 freshWorker emptyMain postMessage postMessage "Empty" "foo"
      [Val.arr []] (Host.ofMethods []) Val.undefined rfl (fun _ => rfl) rfl rfl rfl rfl
      (by decide)).2⟩

theorem executeHostMethod_of_return (s : RPCService) (h m : String) (args : List Val)
    (host : Host) (f : List Val → Completion) (v : Val)
    (hget : JSMap.get s.hosts h = some host) (htruthy : host.truthy = true)
    (hmember : host.get m = Member.function f) (hret : f args = Completion.returns v)
    (hnull : v ≠ Val.null) :
    s.executeHostMethod h m args =
      { promise := some (Settled.fulfilled v), events := [Event.apply h m args] } := by
  unfold RPCService.executeHostMethod
  simp only [hget, htruthy, Bool.not_true, Bool.false_eq_true, if_false, hmember, hret]
  cases v with
  | null => exact absurd rfl hnull
  | _ => rfl

/-- C12, as amended.  With a caller and a host side connected by a loss-free
transport, for every host object registered under h with a method m whose name the
proxy forwards, and every argument list args on which m returns a value v that is
not future-like and not `null`: calling the proxy's m with args returns a future,
and the exchange resolves that future to exactly v. -/
theorem round_trip (caller hostSide : RPCService) (send : RPCMessage → Option Reentry)
    (respond : RPCMessage → Option Val)
    (h m : String) (args : List Val) (host : Host) (f : List Val → Completion) (v : Val)
    (hcfg : caller.apiWrapper.sendRequest = some send) (hsend : ∀ msg, send msg = none)
    (hcfg' : hostSide.apiWrapper.sendResponse = some respond)
    (hrespond : ∀ msg, respond msg = none)
    (hget : JSMap.get hostSide.hosts h = some host) (htruthy : host.truthy = true)
    (hmember : host.get m = Member.function f) (hret : f args = Completion.returns v)
    (hnull : v ≠ Val.null)
    (hremote : (createProxy h).get m = ProxyMember.remote m h) :
    (caller.call ((createProxy h).get m) args).result =
        Except.ok (some caller.promises.length) ∧
      (relay hostSide (caller.call ((createProxy h).get m) args).service
          (caller.call ((createProxy h).get m) args).events).outcome caller.promises.length =
        some (Settled.fulfilled v) := by
  rw [hremote]
  refine ⟨(call_remote_result caller m h args).1, ?_⟩
  have hexec := executeHostMethod_of_return hostSide h m args host f v hget htruthy hmember
    hret hnull
  exact remoteCall_fulfilled caller hostSide m args h send respond v hcfg (hsend _) hcfg'
    (hrespond _) (by rw [hexec])

/-- C12, witnesses: `proxy.processData([1, 4, 9])` on the proxy for "DataService"
resolves to 14 (worker.js and main.js), and `add` called with the arguments 2 and
3 on the proxy for "Calc" resolves to 5. -/
theorem round_trip_witness :
    (relay dataMain
        (freshWorker.call ((createProxy "DataService").get "processData")
          [Val.arr [Val.num 1, Val.num 4, Val.num 9]]).service
        (freshWorker.call ((createProxy "DataService").get "processData")
          [Val.arr [Val.num 1, Val.num 4, Val.num 9]]).events).outcome 0 =
        some (Settled.fulfilled (Val.num 14)) ∧
      (relay calcMain
        (freshWorker.call ((createProxy "Calc").get "add") [Val.num 2, Val.num 3]).service
        (freshWorker.call ((createProxy "Calc").get "add") [Val.num 2, Val.num 3]).events).outcome
          0 =
        some (Settled.fulfilled (Val.num 5)) :=
  ⟨(round_trip freshWorker dataMain postMessage postMessage "DataService" "processData"
      [Val.arr [Val.num 1, Val.num 4, Val.num 9]] dataService DataService.processData
      (Val.num 14) rfl (fun _ => rfl) rfl (fun _ => rfl) rfl rfl rfl rfl (by decide)
      (by decide)).2,
   (round_trip freshWorker calcMain postMessage postMessage "Calc" "add"
      [Val.num 2, Val.num 3] calculator
      (fun args =>
        Completion.returns (Val.plus (args.getD 0 Val.undefined) (args.getD 1 Val.undefined)))
      (Val.num 5) rfl (fun _ => rfl) rfl (fun _ => rfl) rfl rfl rfl rfl (by decide)
      (by decide)).2⟩

/-- C12 fails as stated.  The host registered as "Answers" has a method `toString`
that returns "data", but `toString` on the proxy is the built-in inherited from
`Object.prototype`: calling it sends nothing and creates no future.  And the
call `proxy.add([2, 3])`, whose single argument is the array, resolves to the
string "2,3undefined", not to 5. -/
theorem round_trip_fails_for_existing_member :
    (answersMain.executeHostMethod "Answers" "toString" []).promise =
        some (Settled.fulfilled (Val.str "data")) ∧
      (freshWorker.call ((createProxy "Answers").get "toString") []).result =
        Except.ok none ∧
      (freshWorker.call ((createProxy "Answers").get "toString") []).events = [] ∧
      (relay answersMain (freshWorker.call ((createProxy "Answers").get "toString") []).service
        (freshWorker.call ((createProxy "Answers").get "toString") []).events).promises = [] ∧
      (relay calcMain
        (freshWorker.call ((createProxy "Calc").get "add")
          [Val.arr [Val.num 2, Val.num 3]]).service
        (freshWorker.call ((createProxy "Calc").get "add")
          [Val.arr [Val.num 2, Val.num 3]]).events).outcome 0 =
        some (Settled.fulfilled (Val.str "2,3undefined")) := by
  refine ⟨by decide, rfl, by decide, by decide, by decide⟩

/-- C13, as amended.  For every call of `sendRequest` in which the transport
primitive throws `e`, the failure does not reach the caller of `sendRequest`: the
call returns a future instead of raising.  That future is already rejected with
`e`, unless a `handleResponse` that ran during the transport call, before the
throw, had completed it; when the transport passed nothing to the response
handler, it is rejected with `e`. -/
theorem sendRequest_transport_failure (s : RPCService) (methodName : String)
    (args : List Val) (hostName : String) (send : RPCMessage → Option Reentry)
    (during : Reentry) (e : Val)
    (hcfg : s.apiWrapper.sendRequest = some send)
    (hcall : send (requestFor s.nextMessageId hostName methodName args) = some during)
    (hthrow : during.thrown = some e) :
    (s.sendRequest methodName args hostName).result = Except.ok s.promises.length ∧
      ((s.sendRequest methodName args hostName).service.promises[s.promises.length]? =
          some (some (Settled.rejected e)) ∨
        ∃ o, (s.promises.length, o) ∈
          completions (s.sendRequest methodName args hostName).events) ∧
      (during.delivered = [] →
        (s.sendRequest methodName args hostName).service.promises[s.promises.length]? =
          some (some (Settled.rejected e))) := by
  have h := sendRequest_of_reentry s methodName args hostName send during hcfg hcall
  have hatp : (s.atSend methodName args).promises[s.promises.length]? = some none :=
    getElem?_append_pending _
  refine ⟨h.2.1, ?_, ?_⟩
  · rw [h.2.2, h.1, completions_append, hthrow]
    simp only []
    rcases handleResponses_promise (s.atSend methodName args) during.delivered _ hatp
      with hp | ⟨o, ho⟩
    · exact Or.inl (settle_pending _ _ _ hp)
    · exact Or.inr ⟨o, List.mem_append_right _ ho⟩
  · intro hnone
    rw [h.2.2, hthrow, hnone]
    exact settle_pending _ _ _ hatp

/-- C13, witness: a fresh caller whose transport throws a `DataCloneError`. -/
theorem sendRequest_transport_failure_witness :
    ((RPCService.new (failingConfig (Val.error "DataCloneError" "could not be cloned"))).sendRequest
        "processData" [] "DataService").result = Except.ok 0 ∧
      ((RPCService.new (failingConfig (Val.error "DataCloneError" "could not be cloned"))).sendRequest
        "processData" [] "DataService").service.promises[0]? =
        some (some (Settled.rejected (Val.error "DataCloneError" "could not be cloned"))) :=
  ⟨(sendRequest_transport_failure
      (RPCService.new (failingConfig (Val.error "DataCloneError" "could not be cloned")))
      "processData" [] "DataService"
      (fun _ => some
        { delivered := [], thrown := some (Val.error "DataCloneError" "could not be cloned") })
      { delivered := [], thrown := some (Val.error "DataCloneError" "could not be cloned") }
      (Val.error "DataCloneError" "could not be cloned") rfl rfl rfl).1,
   (sendRequest_transport_failure
      (RPCService.new (failingConfig (Val.error "DataCloneError" "could not be cloned")))
      "processData" [] "DataService"
      (fun _ => some
        { delivered := [], thrown := some (Val.error "DataCloneError" "could not be cloned") })
      { delivered := [], thrown := some (Val.error "DataCloneError" "could not be cloned") }
      (Val.error "DataCloneError" "could not be cloned") rfl rfl rfl).2.2 rfl⟩

/-- C13 fails as stated: with a transport primitive that throws, the call of
`sendRequest` does not raise the thrown value; it returns normally, with a
future. -/
theorem sendRequest_does_not_raise :
    (failingConfig (Val.error "DataCloneError" "could not be cloned")).sendRequest.map
        (fun send => (send (requestFor 0 "DataService" "processData" [])).map Reentry.thrown) =
        some (some (some (Val.error "DataCloneError" "could not be cloned"))) ∧
      ((RPCService.new (failingConfig (Val.error "DataCloneError" "could not be cloned"))).sendRequest
        "processData" [] "DataService").result ≠
        Except.error (Val.error "DataCloneError" "could not be cloned") ∧
      ∃ future,
        ((RPCService.new (failingConfig (Val.error "DataCloneError" "could not be cloned"))).sendRequest
          "processData" [] "DataService").result = Except.ok future := by
  refine ⟨rfl, ?_, 0, rfl⟩
  intro h
  cases h

theorem lifecycle_callSendResponse (s : RPCService) (m : RPCMessage) :
    lifecycle (s.callSendResponse m).1 = [] := by
  unfold RPCService.callSendResponse
  split <;> simp [lifecycle]

theorem lifecycle_onRejected (s : RPCService) (id : Nat) (err : Val) :
    lifecycle (s.onRejected id err) = [] := by
  unfold RPCService.onRejected
  split
  · simp [lifecycle]
  · exact lifecycle_callSendResponse s _

theorem lifecycle_onFulfilled (s : RPCService) (id : Nat) (v : Val) :
    lifecycle (s.onFulfilled id v).1 = [] := by
  unfold RPCService.onFulfilled
  have h := lifecycle_callSendResponse s
    { id := id, type := "response", request := none,
      response := some { returnValue := v, err := none } }
  simp only [lifecycle, List.filterMap_cons] at h ⊢
  simpa using h

theorem lifecycle_handleRequest (s : RPCService) (message : RPCMessage) :
    lifecycle (s.handleRequest message).events = [] := by
  unfold RPCService.handleRequest
  split
  · split
    · simp [lifecycle]
    · rename_i request _
      have hexec : lifecycle
          (s.executeHostMethod request.hostName request.methodName request.args).events = [] := by
        rcases executeHostMethod_events s request.hostName request.methodName request.args
          with h | h <;> rw [h] <;> simp [lifecycle]
      have hcons : ∀ (m : RPCMessage) (rest : List Event),
          lifecycle (Event.log "Handling request" m :: rest) = lifecycle rest := by
        intro m rest
        simp [lifecycle]
      simp only [hcons, lifecycle_append, hexec, List.nil_append]
      split
      · simp [lifecycle]
      · split
        · rename_i h
          have := congrArg (fun p => lifecycle p.1) h
          simp only [lifecycle_onFulfilled] at this
          exact this.symm
        · rename_i h
          have := congrArg (fun p => lifecycle p.1) h
          simp only [lifecycle_onFulfilled] at this
          simp only [lifecycle_append, lifecycle_onRejected, List.append_nil]
          exact this.symm
      · exact lifecycle_onRejected s _ _
  · simp [lifecycle]

theorem call_awaiting (s : RPCService) (member : ProxyMember) (args : List Val) (k : Nat)
    (hcfg : s.apiWrapper.sendRequest.isSome = true) :
    (JSMap.get (s.call member args).service.pendingRequests k).isSome =
      (lifecycle (s.call member args).events).foldl
        (fun waiting entry => if entry.2 = k then entry.1 else waiting)
        (JSMap.get s.pendingRequests k).isSome := by
  cases member with
  | remote methodName target => exact sendRequest_awaiting s methodName args target k hcfg
  | undefined => simp [RPCService.call, lifecycle]
  | own v => simp [RPCService.call, lifecycle]
  | inherited name => simp [RPCService.call, lifecycle]

theorem step_awaiting (s : RPCService) (op : Op) (k : Nat)
    (hcfg : s.apiWrapper.sendRequest.isSome = true) :
    (JSMap.get (s.step op).1.pendingRequests k).isSome =
      (lifecycle (s.step op).2).foldl
        (fun waiting entry => if entry.2 = k then entry.1 else waiting)
        (JSMap.get s.pendingRequests k).isSome := by
  cases op with
  | registerHost hostName host => simp [RPCService.step, RPCService.registerHost, lifecycle]
  | sendRequest methodName args hostName =>
      exact sendRequest_awaiting s methodName args hostName k hcfg
  | proxyCall hostName member args => exact call_awaiting s _ args k hcfg
  | handleRequest message =>
      simp [RPCService.step, handleRequest_service, lifecycle_handleRequest]
  | handleResponse message => exact handleResponse_awaiting s message k

theorem run_awaiting (s : RPCService) (ops : List Op) (k : Nat)
    (hcfg : s.apiWrapper.sendRequest.isSome = true) :
    (JSMap.get (s.run ops).1.pendingRequests k).isSome =
      (lifecycle (s.run ops).2).foldl
        (fun waiting entry => if entry.2 = k then entry.1 else waiting)
        (JSMap.get s.pendingRequests k).isSome := by
  induction ops generalizing s with
  | nil => simp [RPCService.run, lifecycle]
  | cons op rest ih =>
      simp only [RPCService.run, lifecycle_append, List.foldl_append]
      rw [ih (s.step op).1 (by rw [step_apiWrapper]; exact hcfg), step_awaiting s op k hcfg]

theorem call_record (s : RPCService) (member : ProxyMember) (args : List Val) (k : Nat)
    (r : PendingRequest) :
    (JSMap.get (s.call member args).service.pendingRequests k = some r →
        JSMap.get s.pendingRequests k = some r ∨
          (member.isRemote = true ∧ k = s.nextMessageId)) ∧
      (JSMap.get s.pendingRequests k = some r →
        (member.isRemote = true → k ≠ s.nextMessageId) →
        JSMap.get (s.call member args).service.pendingRequests k = some r ∨
          (false, k) ∈ lifecycle (s.call member args).events) := by
  cases member with
  | remote methodName target =>
      have h := sendRequest_pending s methodName args target k r
      constructor
      · intro hget
        rcases h.1 hget with h' | h'
        · exact Or.inr ⟨rfl, h'.1⟩
        · exact Or.inl h'.2
      · intro hget hk
        exact h.2 (hk rfl) hget
  | undefined => exact ⟨fun h => Or.inl h, fun h _ => Or.inl h⟩
  | own v => exact ⟨fun h => Or.inl h, fun h _ => Or.inl h⟩
  | inherited name => exact ⟨fun h => Or.inl h, fun h _ => Or.inl h⟩

theorem step_record (s : RPCService) (op : Op) (k : Nat) (r : PendingRequest) :
    (JSMap.get (s.step op).1.pendingRequests k = some r →
        JSMap.get s.pendingRequests k = some r ∨ (op.isSend = true ∧ k = s.nextMessageId)) ∧
      (JSMap.get s.pendingRequests k = some r → (op.isSend = true → k ≠ s.nextMessageId) →
        JSMap.get (s.step op).1.pendingRequests k = some r ∨
          (false, k) ∈ lifecycle (s.step op).2) := by
  cases op with
  | registerHost hostName host => exact ⟨fun h => Or.inl h, fun h _ => Or.inl h⟩
  | sendRequest methodName args hostName =>
      exact call_record s (ProxyMember.remote methodName hostName) args k r
  | proxyCall hostName member args => exact call_record s _ args k r
  | handleRequest message =>
      simp only [RPCService.step, handleRequest_service]
      exact ⟨fun h => Or.inl h, fun h _ => Or.inl h⟩
  | handleResponse message =>
      simp only [RPCService.step]
      rw [handleResponse_pending, handleResponse_lifecycle]
      by_cases hcase : message.type = "response" ∧ k = message.id
      · rw [if_pos hcase, if_pos hcase.1, hcase.2]
        exact ⟨fun h => (nomatch h), fun _ _ => Or.inr (List.mem_singleton.2 rfl)⟩
      · rw [if_neg hcase]
        exact ⟨fun h => Or.inl h, fun h _ => Or.inl h⟩

theorem run_nextMessageId (s : RPCService) (ops : List Op) :
    (s.run ops).1.nextMessageId = increment^[ops.countP Op.isSend] s.nextMessageId := by
  induction ops generalizing s with
  | nil => simp [RPCService.run]
  | cons op rest ih =>
      simp only [RPCService.run]
      rw [ih, (step_request_ids s op).2]
      by_cases hsend : op.isSend = true
      · rw [List.countP_cons_of_pos _ _ hsend, Function.iterate_succ_apply]
        simp [hsend]
      · rw [List.countP_cons_of_neg _ _ hsend]
        simp [hsend]

theorem call_promises_length (s : RPCService) (member : ProxyMember) (args : List Val) :
    (s.call member args).service.promises.length =
      s.promises.length + (if member.isRemote then 1 else 0) := by
  cases member with
  | remote methodName target => exact sendRequest_promises_length s methodName args target
  | undefined => rfl
  | own v => rfl
  | inherited name => rfl

theorem step_promises_length (s : RPCService) (op : Op) :
    (s.step op).1.promises.length = s.promises.length + (if op.isSend then 1 else 0) := by
  cases op with
  | registerHost hostName host => rfl
  | sendRequest methodName args hostName =>
      exact sendRequest_promises_length s methodName args hostName
  | proxyCall hostName member args => exact call_promises_length s _ args
  | handleRequest message =>
      simp only [RPCService.step, handleRequest_service]
      rfl
  | handleResponse message => exact handleResponse_promises_length s message

theorem run_promises_length (s : RPCService) (ops : List Op) :
    (s.run ops).1.promises.length = s.promises.length + ops.countP Op.isSend := by
  induction ops generalizing s with
  | nil => simp [RPCService.run]
  | cons op rest ih =>
      simp only [RPCService.run]
      rw [ih, step_promises_length]
      by_cases hsend : op.isSend = true
      · rw [List.countP_cons_of_pos _ _ hsend]
        simp only [hsend, if_true]
        omega
      · rw [List.countP_cons_of_neg _ _ hsend]
        simp [hsend]

theorem run_append (s : RPCService) (ops more : List Op) :
    (s.run (ops ++ more)).1 = ((s.run ops).1.run more).1 := by
  induction ops generalizing s with
  | nil => rfl
  | cons op rest ih =>
      simp only [List.cons_append, RPCService.run]
      exact ih _

theorem run_singleton (s : RPCService) (op : Op) : (s.run [op]).1 = (s.step op).1 :=
  rfl

theorem step_sendRequest (s : RPCService) (methodName : String) (args : List Val)
    (hostName : String) :
    (s.step (Op.sendRequest methodName args hostName)).1 =
      (s.sendRequest methodName args hostName).service :=
  rfl

theorem step_sendRequest_events (s : RPCService) (methodName : String) (args : List Val)
    (hostName : String) :
    (s.step (Op.sendRequest methodName args hostName)).2 =
      (s.sendRequest methodName args hostName).events :=
  rfl

theorem step_keys_below (s : RPCService) (op : Op)
    (hinv : ∀ k r, JSMap.get s.pendingRequests k = some r → k < s.nextMessageId ∧ r.id = k)
    (hroom : op.isSend = true → s.nextMessageId < 2 ^ 53) :
    ∀ k r, JSMap.get (s.step op).1.pendingRequests k = some r →
      k < (s.step op).1.nextMessageId ∧ r.id = k := by
  have hsend : ∀ (methodName : String) (args : List Val) (hostName : String),
      s.nextMessageId < 2 ^ 53 →
      ∀ k r, JSMap.get (s.sendRequest methodName args hostName).service.pendingRequests k =
          some r →
        k < (s.sendRequest methodName args hostName).service.nextMessageId ∧ r.id = k := by
    intro methodName args hostName hlt k r hget
    rw [(sendRequest_built s methodName args hostName).2]
    have hinc : increment s.nextMessageId = s.nextMessageId + 1 := by
      unfold increment
      rw [if_pos hlt]
    rw [hinc]
    rcases (sendRequest_pending s methodName args hostName k r).1 hget with h | h
    · rw [h.1, h.2]
      exact ⟨Nat.lt_succ_self _, rfl⟩
    · have := hinv k r h.2
      exact ⟨Nat.lt_succ_of_lt this.1, this.2⟩
  cases op with
  | registerHost hostName host => exact hinv
  | sendRequest methodName args hostName => exact hsend methodName args hostName (hroom rfl)
  | proxyCall hostName member args =>
      simp only [RPCService.step]
      simp only [Op.isSend] at hroom
      cases hmember : (createProxy hostName).get member with
      | remote methodName target =>
          rw [hmember] at hroom
          exact hsend methodName args target (hroom rfl)
      | undefined => exact hinv
      | own v => exact hinv
      | inherited name => exact hinv
  | handleRequest message =>
      simp only [RPCService.step, handleRequest_service]
      exact hinv
  | handleResponse message =>
      intro k r hget
      simp only [RPCService.step] at hget ⊢
      rw [handleResponse_nextMessageId]
      rw [handleResponse_pending] at hget
      split at hget
      · cases hget
      · exact hinv k r hget

theorem run_keys_below (s : RPCService) (ops : List Op)
    (hinv : ∀ k r, JSMap.get s.pendingRequests k = some r → k < s.nextMessageId ∧ r.id = k)
    (hroom : s.nextMessageId + ops.countP Op.isSend ≤ 2 ^ 53) :
    ∀ k r, JSMap.get (s.run ops).1.pendingRequests k = some r →
      k < (s.run ops).1.nextMessageId ∧ r.id = k := by
  induction ops generalizing s with
  | nil => exact hinv
  | cons op rest ih =>
      simp only [RPCService.run]
      by_cases hsend : op.isSend = true
      · rw [List.countP_cons_of_pos _ _ hsend] at hroom
        apply ih
        · exact step_keys_below s op hinv (fun _ => by omega)
        · rw [(step_request_ids s op).2]
          simp only [hsend, if_true]
          unfold increment
          split <;> omega
      · rw [List.countP_cons_of_neg _ _ hsend] at hroom
        apply ih
        · exact step_keys_below s op hinv (fun h => absurd h hsend)
        · rw [(step_request_ids s op).2]
          simp only [hsend]
          exact hroom

theorem fresh_keys_below (config : ApiWrapper) (ops : List Op)
    (hbound : ops.countP Op.isSend ≤ 2 ^ 53) :
    ∀ k r, JSMap.get ((RPCService.new config).run ops).1.pendingRequests k = some r →
      k < ((RPCService.new config).run ops).1.nextMessageId ∧ r.id = k := by
  apply run_keys_below
  · intro k r hget
    simp [RPCService.new, JSMap.get] at hget
  · simp only [RPCService.new]
    omega

theorem sendRequest_undelivered (s : RPCService) (methodName : String) (args : List Val)
    (hostName : String)
    (hquiet : ∀ send during, s.apiWrapper.sendRequest = some send →
      send (requestFor s.nextMessageId hostName methodName args) = some during →
        during.delivered = []) :
    (s.sendRequest methodName args hostName).service.pendingRequests =
        (s.atSend methodName args).pendingRequests ∧
      lifecycle (s.sendRequest methodName args hostName).events =
        (if s.apiWrapper.sendRequest.isSome then [(true, s.nextMessageId)] else []) := by
  cases hcfg : s.apiWrapper.sendRequest with
  | none =>
      rw [sendRequest_of_unconfigured s methodName args hostName hcfg]
      exact ⟨rfl, by simp [lifecycle]⟩
  | some send =>
      cases hcall : send (requestFor s.nextMessageId hostName methodName args) with
      | none =>
          rw [sendRequest_of_sent s methodName args hostName send hcfg hcall]
          exact ⟨rfl, by simp [lifecycle, requestFor]⟩
      | some during =>
          have h := sendRequest_of_reentry s methodName args hostName send during hcfg hcall
          rw [h.2.2, h.1, hquiet send during hcfg hcall]
          exact ⟨rfl, by simp [lifecycle, requestFor, RPCService.handleResponses]⟩

theorem sendRequest_again_at_limit (s : RPCService) (methodName : String) (args : List Val)
    (hostName : String) (send : RPCMessage → Option Reentry)
    (hcfg : s.apiWrapper.sendRequest = some send) (hquiet : ∀ message, send message = none)
    (hnext : s.nextMessageId = 2 ^ 53) :
    JSMap.get (s.sendRequest methodName args hostName).service.pendingRequests (2 ^ 53) =
        some { future := s.promises.length, id := 2 ^ 53,
               methodName := methodName, args := args } ∧
      JSMap.get ((s.sendRequest methodName args hostName).service.sendRequest methodName args
          hostName).service.pendingRequests (2 ^ 53) =
        some { future := s.promises.length + 1, id := 2 ^ 53,
               methodName := methodName, args := args } ∧
      lifecycle ((s.sendRequest methodName args hostName).service.sendRequest methodName args
          hostName).events = [(true, 2 ^ 53)] := by
  have hfirst := sendRequest_of_sent s methodName args hostName send hcfg (hquiet _)
  have hframe := sendRequest_frame s methodName args hostName
  have hnext' : (s.sendRequest methodName args hostName).service.nextMessageId = 2 ^ 53 := by
    rw [hframe.1, hnext]
    unfold increment
    rw [if_neg (Nat.lt_irrefl _)]
  have hcfg' : (s.sendRequest methodName args hostName).service.apiWrapper.sendRequest =
      some send := by
    rw [hframe.2.2.1]
    exact hcfg
  have hsecond := sendRequest_of_sent (s.sendRequest methodName args hostName).service
    methodName args hostName send hcfg' (hquiet _)
  refine ⟨?_, ?_, ?_⟩
  · rw [hfirst]
    simp only []
    rw [← hnext]
    exact JSMap.get_set_self _ _ _
  · rw [hsecond]
    simp only []
    rw [hnext', hframe.2.2.2]
    exact JSMap.get_set_self _ _ _
  · rw [hsecond]
    simp only [lifecycle, requestFor, List.filterMap_cons, List.filterMap_nil]
    rw [hnext']
    rfl

/-- C14, as amended.  In every state reached from a fresh service whose transport
has a `sendRequest` primitive, by any sequence of `registerHost`, `sendRequest`,
proxy calls, `handleRequest` and `handleResponse`, an id k has a record in
`pendingRequests` if and only if a request with id k was handed to the transport
and no response envelope with id k has been handled since.  In a state reached by
a sequence with at most 2^53 `sendRequest` calls (direct or through a proxy), a
record that is in the table is still there, unchanged, after the next call, unless
`handleResponse` ran on a response envelope with the id of the record during that
call.  A call that adds a record for k is a `sendRequest` (direct or through a
proxy) allocating the id k. -/
theorem pending_record_lifecycle :
    (∀ (config : ApiWrapper) (ops : List Op) (k : Nat),
      config.sendRequest.isSome = true →
        (JSMap.get ((RPCService.new config).run ops).1.pendingRequests k).isSome =
          awaiting k (lifecycle ((RPCService.new config).run ops).2)) ∧
    (∀ (config : ApiWrapper) (ops : List Op) (op : Op) (k : Nat) (r : PendingRequest),
      ops.countP Op.isSend ≤ 2 ^ 53 →
      JSMap.get ((RPCService.new config).run ops).1.pendingRequests k = some r →
        JSMap.get (((RPCService.new config).run ops).1.step op).1.pendingRequests k = some r ∨
          (false, k) ∈ lifecycle (((RPCService.new config).run ops).1.step op).2) ∧
    (∀ (s : RPCService) (op : Op) (k : Nat),
      JSMap.get s.pendingRequests k = none →
      (JSMap.get (s.step op).1.pendingRequests k).isSome = true →
        op.isSend = true ∧ k = s.nextMessageId) := by
  refine ⟨?_, ?_, ?_⟩
  · intro config ops k hcfg
    rw [run_awaiting _ _ _ hcfg]
    rfl
  · intro config ops op k r hbound hget
    have hlt := (fresh_keys_below config ops hbound k r hget).1
    exact (step_record _ op k r).2 hget (fun _ => Nat.ne_of_lt hlt)
  · intro s op k hbefore hafter
    cases hget : JSMap.get (s.step op).1.pendingRequests k with
    | none =>
        rw [hget] at hafter
        cases hafter
    | some r =>
        rcases (step_record s op k r).1 hget with h | h
        · rw [hbefore] at h
          cases h
        · exact h

/-- C14, witness: after two requests and the response to the first, id 1 has a
record and id 0 has none; the record of 1 is untouched by the response to id 0,
and the second request is what added it. -/
theorem pending_record_lifecycle_witness :
    ((JSMap.get (freshWorker.run
        [Op.sendRequest "processData" [] "DataService",
         Op.proxyCall "DataService" "processData" [],
         Op.handleResponse (responseFor 0 (Val.num 14) none)]).1.pendingRequests 1).isSome =
        true ∧
      (JSMap.get (freshWorker.run
        [Op.sendRequest "processData" [] "DataService",
         Op.proxyCall "DataService" "processData" [],
         Op.handleResponse (responseFor 0 (Val.num 14) none)]).1.pendingRequests 0).isSome =
        false) ∧
    (JSMap.get (((RPCService.new workerConfig).run
        [Op.sendRequest "processData" [] "DataService",
         Op.proxyCall "DataService" "processData" []]).1.step
          (Op.handleResponse (responseFor 0 (Val.num 14) none))).1.pendingRequests 1 =
        some { future := 1, id := 1, methodName := "processData", args := [] } ∨
      (false, 1) ∈ lifecycle (((RPCService.new workerConfig).run
        [Op.sendRequest "processData" [] "DataService",
         Op.proxyCall "DataService" "processData" []]).1.step
          (Op.handleResponse (responseFor 0 (Val.num 14) none))).2) ∧
    ((Op.proxyCall "DataService" "processData" []).isSend = true ∧
      1 = waitingWorker.nextMessageId) :=
  ⟨⟨(pending_record_lifecycle.1 workerConfig
        [Op.sendRequest "processData" [] "DataService",
         Op.proxyCall "DataService" "processData" [],
         Op.handleResponse (responseFor 0 (Val.num 14) none)] 1 rfl).trans (by decide),
    (pending_record_lifecycle.1 workerConfig
        [Op.sendRequest "processData" [] "DataService",
         Op.proxyCall "DataService" "processData" [],
         Op.handleResponse (responseFor 0 (Val.num 14) none)] 0 rfl).trans (by decide)⟩,
   pending_record_lifecycle.2.1 workerConfig
     [Op.sendRequest "processData" [] "DataService",
      Op.proxyCall "DataService" "processData" []]
     (Op.handleResponse (responseFor 0 (Val.num 14) none)) 1
     { future := 1, id := 1, methodName := "processData", args := [] } (by decide) (by decide),
   pending_record_lifecycle.2.2 waitingWorker (Op.proxyCall "DataService" "processData" []) 1
     (by decide) (by decide)⟩

/-- C14 fails as stated, in two ways.  On a service whose transport has no
`sendRequest` primitive (as in main.js), `sendRequest` leaves a record under id 0
although no request was handed to a transport.  After 2^53 + 1 unanswered
requests of the worker the counter has stopped at 2^53: the record under 2^53
holds promise 2^53, and the next `sendRequest`, during which no response is
handled, puts the record of promise 2^53 + 1 in its place. -/
theorem pending_record_without_send_or_replaced :
    (JSMap.get ((RPCService.new mainConfig).run
        [Op.sendRequest "processData" [] "DataService"]).1.pendingRequests 0).isSome = true ∧
      requestsSent ((RPCService.new mainConfig).run
        [Op.sendRequest "processData" [] "DataService"]).2 = [] ∧
      awaiting 0 (lifecycle ((RPCService.new mainConfig).run
        [Op.sendRequest "processData" [] "DataService"]).2) = false ∧
      JSMap.get (freshWorker.run (List.replicate (2 ^ 53 + 1)
          (Op.sendRequest "processData" [] "DataService"))).1.pendingRequests (2 ^ 53) =
        some { future := 2 ^ 53, id := 2 ^ 53, methodName := "processData", args := [] } ∧
      JSMap.get ((freshWorker.run (List.replicate (2 ^ 53 + 1)
          (Op.sendRequest "processData" [] "DataService"))).1.step
            (Op.sendRequest "processData" [] "DataService")).1.pendingRequests (2 ^ 53) =
        some { future := 2 ^ 53 + 1, id := 2 ^ 53, methodName := "processData", args := [] } ∧
      lifecycle ((freshWorker.run (List.replicate (2 ^ 53 + 1)
          (Op.sendRequest "processData" [] "DataService"))).1.step
            (Op.sendRequest "processData" [] "DataService")).2 = [(true, 2 ^ 53)] := by
  have hcount : (List.replicate (2 ^ 53)
      (Op.sendRequest "processData" [] "DataService")).countP Op.isSend = 2 ^ 53 := by
    rw [List.countP_replicate]
    simp [Op.isSend]
  have hnext : (freshWorker.run (List.replicate (2 ^ 53)
      (Op.sendRequest "processData" [] "DataService"))).1.nextMessageId = 2 ^ 53 := by
    rw [run_nextMessageId, hcount]
    simp only [freshWorker, RPCService.new]
    rw [increment_iterate_zero]
    simp
  have hlen : (freshWorker.run (List.replicate (2 ^ 53)
      (Op.sendRequest "processData" [] "DataService"))).1.promises.length = 2 ^ 53 := by
    rw [run_promises_length, hcount]
    simp [freshWorker, RPCService.new]
  have hcfg : (freshWorker.run (List.replicate (2 ^ 53)
      (Op.sendRequest "processData" [] "DataService"))).1.apiWrapper.sendRequest =
        some postMessage := by
    rw [run_apiWrapper]
    rfl
  have h := sendRequest_again_at_limit _ "processData" [] "DataService" postMessage hcfg
    (fun _ => rfl) hnext
  rw [hlen] at h
  refine ⟨by decide, by decide, by decide, ?_, ?_, ?_⟩
  · rw [List.replicate_succ', run_append, run_singleton, step_sendRequest]
    exact h.1
  · rw [List.replicate_succ', run_append, run_singleton, step_sendRequest, step_sendRequest]
    exact h.2.1
  · rw [List.replicate_succ', run_append, run_singleton, step_sendRequest,
      step_sendRequest_events]
    exact h.2.2

theorem handleResponse_then (s : RPCService) (first second : RPCMessage)
    (r₁ r₂ : PendingRequest) (resp₁ resp₂ : Response)
    (htype₁ : first.type = "response") (htype₂ : second.type = "response")
    (hid : first.id ≠ second.id)
    (hget₁ : JSMap.get s.pendingRequests first.id = some r₁)
    (hget₂ : JSMap.get s.pendingRequests second.id = some r₂)
    (hresp₁ : first.response = some resp₁) (hresp₂ : second.response = some resp₂)
    (hfut : r₁.future ≠ r₂.future)
    (hp₁ : s.promises[r₁.future]? = some none) (hp₂ : s.promises[r₂.future]? = some none) :
    ((s.handleResponse first).service.handleResponse second).service.outcome r₁.future =
        some resp₁.completion ∧
      ((s.handleResponse first).service.handleResponse second).service.outcome r₂.future =
        some resp₂.completion := by
  have h₁ := (handleResponse_completes s first r₁ resp₁ htype₁ hget₁ hresp₁).1
  have hget₂' : JSMap.get (s.handleResponse first).service.pendingRequests second.id =
      some r₂ := by
    rw [h₁]
    simp only []
    rw [JSMap.get_delete_ne _ _ _ (Ne.symm hid)]
    exact hget₂
  have h₂ := (handleResponse_completes (s.handleResponse first).service second r₂ resp₂ htype₂
    hget₂' hresp₂).1
  rw [h₂, h₁]
  simp only [RPCService.outcome]
  constructor
  · rw [settle_other _ _ _ _ (Ne.symm hfut), settle_pending _ _ _ hp₁]
    rfl
  · rw [settle_pending _ _ _ (by rw [settle_other _ _ _ _ hfut]; exact hp₂)]
    rfl

/-- C15.  For any two pending requests with distinct ids (two records, each with
its own pending future) and a response envelope for each: whichever response is
delivered first, the future of each request ends up completed as its own response
says.  Handling a response for j leaves the record of every other id unchanged. -/
theorem out_of_order_responses (s : RPCService) (mi mj : RPCMessage)
    (ri rj : PendingRequest) (respi respj : Response)
    (htypei : mi.type = "response") (htypej : mj.type = "response")
    (hid : mi.id ≠ mj.id)
    (hgeti : JSMap.get s.pendingRequests mi.id = some ri)
    (hgetj : JSMap.get s.pendingRequests mj.id = some rj)
    (hrespi : mi.response = some respi) (hrespj : mj.response = some respj)
    (hfut : ri.future ≠ rj.future)
    (hpi : s.promises[ri.future]? = some none) (hpj : s.promises[rj.future]? = some none) :
    (((s.handleResponse mj).service.handleResponse mi).service.outcome rj.future =
        some respj.completion ∧
      ((s.handleResponse mj).service.handleResponse mi).service.outcome ri.future =
        some respi.completion) ∧
    (((s.handleResponse mi).service.handleResponse mj).service.outcome rj.future =
        some respj.completion ∧
      ((s.handleResponse mi).service.handleResponse mj).service.outcome ri.future =
        some respi.completion) ∧
    (completions (s.handleResponse mj).events = [(rj.future, respj.completion)] ∧
      completions (s.handleResponse mi).events = [(ri.future, respi.completion)]) ∧
    (∀ k, k ≠ mj.id →
      JSMap.get (s.handleResponse mj).service.pendingRequests k =
        JSMap.get s.pendingRequests k) := by
  refine ⟨handleResponse_then s mj mi rj ri respj respi htypej htypei (Ne.symm hid) hgetj hgeti
      hrespj hrespi (Ne.symm hfut) hpj hpi,
    (handleResponse_then s mi mj ri rj respi respj htypei htypej hid hgeti hgetj
      hrespi hrespj hfut hpi hpj).symm,
    ⟨(handleResponse_completes s mj rj respj htypej hgetj hrespj).2,
      (handleResponse_completes s mi ri respi htypei hgeti hrespi).2⟩, ?_⟩
  intro k hk
  rw [handleResponse_pending]
  simp [hk]

/-- C15, witness: requests 1 and 2 of the worker are pending; the response for 2
(value 20) is delivered before the response for 1 (an error), and each future
gets its own outcome. -/
theorem out_of_order_responses_witness :
    ((busyWorker.handleResponse (responseFor 2 (Val.num 20) none)).service.handleResponse
        (responseFor 1 Val.null (some "Error: boom"))).service.outcome 2 =
        some (Settled.fulfilled (Val.num 20)) ∧
      ((busyWorker.handleResponse (responseFor 2 (Val.num 20) none)).service.handleResponse
        (responseFor 1 Val.null (some "Error: boom"))).service.outcome 1 =
        some (Settled.rejected (Val.str "Error: boom")) :=
  (out_of_order_responses busyWorker (responseFor 1 Val.null (some "Error: boom"))
    (responseFor 2 (Val.num 20) none)
    { future := 1, id := 1, methodName := "processData", args := [Val.arr [Val.num 2]] }
    { future := 2, id := 2, methodName := "processData", args := [Val.arr [Val.num 3]] }
    { returnValue := Val.null, err := some "Error: boom" }
    { returnValue := Val.num 20, err := none }
    (by decide) (by decide) (by decide) (by decide) (by decide) (by decide) (by decide)
    (by decide) (by decide) (by decide)).1

theorem executeHostMethod_of_throw (s : RPCService) (h m : String) (args : List Val)
    (host : Host) (f : List Val → Completion) (e : Val)
    (hget : JSMap.get s.hosts h = some host) (htruthy : host.truthy = true)
    (hmember : host.get m = Member.function f) (hthrow : f args = Completion.throws e) :
    s.executeHostMethod h m args =
      { promise := some (Settled.rejected e), events := [Event.apply h m args] } := by
  unfold RPCService.executeHostMethod
  simp only [hget, htruthy, Bool.not_true, Bool.false_eq_true, if_false, hmember, hthrow]

theorem executeHostMethod_of_future (s : RPCService) (h m : String) (args : List Val)
    (host : Host) (f : List Val → Completion) (p : Option Settled)
    (hget : JSMap.get s.hosts h = some host) (htruthy : host.truthy = true)
    (hmember : host.get m = Member.function f)
    (hret : f args = Completion.returnsFuture p) :
    s.executeHostMethod h m args = { promise := p, events := [Event.apply h m args] } := by
  unfold RPCService.executeHostMethod
  simp only [hget, htruthy, Bool.not_true, Bool.false_eq_true, if_false, hmember, hret]

/-- C16.  For every registered host object and function member m: when m throws
e, `executeHostMethod` returns a failed future carrying e (it returns; nothing is
raised); when m returns a future-like value, `executeHostMethod` returns that very
future.  Consequently, for a value v such as 42, a method returning v directly
and a method returning a future that resolves to v produce the same response
envelope, {id, "response", returnValue: v}, and over a loss-free transport the
same resolution of the caller's future to v. -/
theorem thrown_and_future_results :
    (∀ (s : RPCService) (h m : String) (args : List Val) (host : Host)
      (f : List Val → Completion) (e : Val),
      JSMap.get s.hosts h = some host → host.truthy = true →
      host.get m = Member.function f → f args = Completion.throws e →
        s.executeHostMethod h m args =
          { promise := some (Settled.rejected e), events := [Event.apply h m args] }) ∧
    (∀ (s : RPCService) (h m : String) (args : List Val) (host : Host)
      (f : List Val → Completion) (p : Option Settled),
      JSMap.get s.hosts h = some host → host.truthy = true →
      host.get m = Member.function f → f args = Completion.returnsFuture p →
        s.executeHostMethod h m args =
          { promise := p, events := [Event.apply h m args] }) ∧
    (∀ (caller hostSide : RPCService) (send : RPCMessage → Option Reentry)
      (respond : RPCMessage → Option Val)
      (h direct deferred : String) (args : List Val) (host : Host)
      (f g : List Val → Completion) (v : Val) (id : Nat),
      caller.apiWrapper.sendRequest = some send → (∀ msg, send msg = none) →
      hostSide.apiWrapper.sendResponse = some respond → (∀ msg, respond msg = none) →
      JSMap.get hostSide.hosts h = some host → host.truthy = true →
      host.get direct = Member.function f → f args = Completion.returns v →
      v ≠ Val.null →
      host.get deferred = Member.function g →
      g args = Completion.returnsFuture (some (Settled.fulfilled v)) →
        (responsesSent (hostSide.handleRequest (requestFor id h direct args)).events =
            [responseFor id v none] ∧
          responsesSent (hostSide.handleRequest (requestFor id h deferred args)).events =
            [responseFor id v none]) ∧
        ((remoteCall caller hostSide direct args h).1.outcome
            (remoteCall caller hostSide direct args h).2 = some (Settled.fulfilled v) ∧
          (remoteCall caller hostSide deferred args h).1.outcome
            (remoteCall caller hostSide deferred args h).2 = some (Settled.fulfilled v))) := by
  refine ⟨executeHostMethod_of_throw, executeHostMethod_of_future, ?_⟩
  intro caller hostSide send respond h direct deferred args host f g v id hcfg hsend hcfg'
    hrespond hget htruthy hf hfv hnull hg hgv
  have hdirect : (hostSide.executeHostMethod h direct args).promise =
      some (Settled.fulfilled v) := by
    rw [executeHostMethod_of_return hostSide h direct args host f v hget htruthy hf hfv hnull]
  have hdeferred : (hostSide.executeHostMethod h deferred args).promise =
      some (Settled.fulfilled v) := by
    rw [executeHostMethod_of_future hostSide h deferred args host g _ hget htruthy hg hgv]
  exact ⟨⟨handleRequest_of_fulfilled hostSide id h direct args respond v hcfg' (hrespond _)
        hdirect,
      handleRequest_of_fulfilled hostSide id h deferred args respond v hcfg' (hrespond _)
        hdeferred⟩,
    remoteCall_fulfilled caller hostSide direct args h send respond v hcfg (hsend _) hcfg'
      (hrespond _) hdirect,
    remoteCall_fulfilled caller hostSide deferred args h send respond v hcfg (hsend _) hcfg'
      (hrespond _) hdeferred⟩

/-- C16, witness: the host registered as "Sample" throws an `Error` from `boom`;
the host registered as "Answers" returns 42 from `direct` and a future resolving
to 42 from `deferred`. -/
theorem thrown_and_future_results_witness :
    (sampleMain (Val.error "Error" "boom")).executeHostMethod "Sample" "boom" [] =
        { promise := some (Settled.rejected (Val.error "Error" "boom"))
          events := [Event.apply "Sample" "boom" []] } ∧
      answersMain.executeHostMethod "Answers" "deferred" [] =
        { promise := some (Settled.fulfilled (Val.num 42))
          events := [Event.apply "Answers" "deferred" []] } ∧
      (remoteCall freshWorker answersMain "direct" [] "Answers").1.outcome 0 =
        some (Settled.fulfilled (Val.num 42)) ∧
      (remoteCall freshWorker answersMain "deferred" [] "Answers").1.outcome 0 =
        some (Settled.fulfilled (Val.num 42)) :=
  ⟨thrown_and_future_results.1 (sampleMain (Val.error "Error" "boom")) "Sample" "boom" []
      (Host.sample (Val.error "Error" "boom")) (fun _ => Completion.throws (Val.error "Error" "boom"))
      (Val.error "Error" "boom") rfl rfl rfl rfl,
   thrown_and_future_results.2.1 answersMain "Answers" "deferred" [] Host.answers
      (fun _ => Completion.returnsFuture (some (Settled.fulfilled (Val.num 42))))
      (some (Settled.fulfilled (Val.num 42))) rfl rfl rfl rfl,
   (thrown_and_future_results.2.2 freshWorker answersMain postMessage postMessage "Answers"
      "direct" "deferred" [] Host.answers (fun _ => Completion.returns (Val.num 42))
      (fun _ => Completion.returnsFuture (some (Settled.fulfilled (Val.num 42)))) (Val.num 42) 0
      rfl (fun _ => rfl) rfl (fun _ => rfl) rfl rfl rfl rfl (by decide) rfl rfl).2⟩

/-- C17.  For every host name h, the members "then" and "catch" of
`createProxy(h)` read as `undefined`, not as a callable.  Reading a member is a
function of the proxied object and the name only (it has no access to the
service); and a caller that goes on to call what it read gets a `TypeError`, with
no call of the transport, no other effect, and the service (nextMessageId and
pendingRequests included) unchanged. -/
theorem proxy_then_catch_absent (h : String) :
    (createProxy h).get "then" = ProxyMember.undefined ∧
      (createProxy h).get "catch" = ProxyMember.undefined ∧
      ∀ (s : RPCService) (args : List Val),
        s.step (Op.proxyCall h "then" args) = (s, []) ∧
          s.step (Op.proxyCall h "catch" args) = (s, []) ∧
          (s.call ((createProxy h).get "then") args).result =
            Except.error (notAFunction "proxy member") ∧
          (s.call ((createProxy h).get "catch") args).result =
            Except.error (notAFunction "proxy member") := by
  have hthen : (createProxy h).get "then" = ProxyMember.undefined :=
    (proxy_get_excepted h "then").1 (Or.inl rfl)
  have hcatch : (createProxy h).get "catch" = ProxyMember.undefined :=
    (proxy_get_excepted h "catch").1 (Or.inr rfl)
  refine ⟨hthen, hcatch, ?_⟩
  intro s args
  simp [RPCService.step, hthen, hcatch, RPCService.call]

theorem executeHostMethod_congr (s t : RPCService) (h m : String) (args : List Val)
    (hhosts : JSMap.get s.hosts h = JSMap.get t.hosts h) :
    s.executeHostMethod h m args = t.executeHostMethod h m args := by
  unfold RPCService.executeHostMethod
  rw [hhosts]

theorem step_hosts (s : RPCService) (op : Op) (h : String) :
    (∃ host, op = Op.registerHost h host ∧ JSMap.get (s.step op).1.hosts h = some host) ∨
      JSMap.get (s.step op).1.hosts h = JSMap.get s.hosts h := by
  cases op with
  | registerHost hostName host =>
      by_cases hname : hostName = h
      · subst hname
        left
        exact ⟨host, rfl, JSMap.get_set_self _ _ _⟩
      · right
        exact JSMap.get_set_ne _ _ _ _ (fun heq => hname heq.symm)
  | sendRequest methodName args hostName =>
      right
      simp only [RPCService.step]
      rw [(sendRequest_frame s methodName args hostName).2.1]
  | proxyCall hostName member args =>
      right
      simp only [RPCService.step]
      cases (createProxy hostName).get member with
      | remote methodName target =>
          simp only [RPCService.call]
          rw [(sendRequest_frame s methodName args target).2.1]
      | undefined => rfl
      | own v => rfl
      | inherited name => rfl
  | handleRequest message =>
      right
      simp [RPCService.step, handleRequest_service]
  | handleResponse message =>
      right
      simp only [RPCService.step]
      rw [(handleResponse_frame s message).2.1]

theorem run_hosts_bound (s : RPCService) (ops : List Op) (h : String)
    (hbound : (JSMap.get s.hosts h).isSome = true) :
    (JSMap.get (s.run ops).1.hosts h).isSome = true := by
  induction ops generalizing s with
  | nil => exact hbound
  | cons op rest ih =>
      simp only [RPCService.run]
      apply ih
      rcases step_hosts s op h with ⟨host, _, hget⟩ | hsame
      · rw [hget]
        rfl
      · rw [hsame]
        exact hbound

theorem applications_callSendResponse (s : RPCService) (m : RPCMessage) :
    applications (s.callSendResponse m).1 = [] := by
  rcases callSendResponse_events s m with h | h <;> rw [h] <;> simp [applications]

theorem applications_onRejected (s : RPCService) (id : Nat) (err : Val) :
    applications (s.onRejected id err) = [] := by
  unfold RPCService.onRejected
  split
  · simp [applications]
  · exact applications_callSendResponse s _

theorem applications_onFulfilled (s : RPCService) (id : Nat) (v : Val) :
    applications (s.onFulfilled id v).1 = [] := by
  unfold RPCService.onFulfilled
  have h := applications_callSendResponse s
    { id := id, type := "response", request := none,
      response := some { returnValue := v, err := none } }
  simp only [applications, List.filter_cons] at h ⊢
  simpa using h

theorem applications_handleRequest (s : RPCService) (id : Nat) (h m : String)
    (args : List Val) :
    applications (s.handleRequest (requestFor id h m args)).events =
      (s.executeHostMethod h m args).events := by
  have happend : ∀ xs ys : List Event,
      applications (xs ++ ys) = applications xs ++ applications ys := by
    intro xs ys
    simp [applications]
  have hexec : applications (s.executeHostMethod h m args).events =
      (s.executeHostMethod h m args).events := by
    rcases executeHostMethod_events s h m args with h' | h' <;> rw [h'] <;>
      simp [applications]
  have hcons : ∀ (message : RPCMessage) (rest : List Event),
      applications (Event.log "Handling request" message :: rest) = applications rest := by
    intro message rest
    simp [applications]
  unfold RPCService.handleRequest
  simp only [requestFor, if_true, hcons, happend]
  rw [hexec]
  have hcallbacks : ∀ callbacks : List Event, applications callbacks = [] →
      (s.executeHostMethod h m args).events ++ applications callbacks =
        (s.executeHostMethod h m args).events := by
    intro callbacks hnil
    rw [hnil, List.append_nil]
  apply hcallbacks
  split
  · simp [applications]
  · split
    · rename_i heq
      have := congrArg (fun p => applications p.1) heq
      simp only [applications_onFulfilled] at this
      exact this.symm
    · rename_i heq
      have := congrArg (fun p => applications p.1) heq
      simp only [applications_onFulfilled] at this
      rw [happend, applications_onRejected, List.append_nil]
      exact this.symm
  · exact applications_onRejected s _ _

/-- C18, as amended.  After `registerHost(h, a)` followed by `registerHost(h, b)` the
name h is bound to b, and a request naming h is executed exactly as if only b had
been registered; the host methods `handleRequest` invokes for it are those
`executeHostMethod` invokes.  When b is truthy (an object), the member of b named
by the request is invoked once with the arguments of the request and its outcome
is the outcome of the execution (a thrown value, or the future it returns, or the
value it returns when that is not `null`), and when that member is not a function
the execution fails with 'Invalid method name ...' and invokes nothing.  When b is
falsy the execution fails with 'Invalid host name "h"' and invokes nothing.  For
every name other than h the binding is unchanged by `registerHost(h, _)`, and
`registerHost` changes neither `pendingRequests` nor `nextMessageId`.  No call
removes a binding: after any call a bound name is still bound, and to the same
host unless the call is a `registerHost` of that name. -/
theorem registerHost_last_write_wins (s : RPCService) (h : String) (a b : Host) :
    JSMap.get ((s.registerHost h a).registerHost h b).hosts h = some b ∧
      (∀ (m : String) (args : List Val) (id : Nat),
        ((s.registerHost h a).registerHost h b).executeHostMethod h m args =
            (s.registerHost h b).executeHostMethod h m args ∧
          applications (((s.registerHost h a).registerHost h b).handleRequest
              (requestFor id h m args)).events =
            (((s.registerHost h a).registerHost h b).executeHostMethod h m args).events) ∧
      (b.truthy = true →
        (∀ (m : String) (args : List Val) (f : List Val → Completion),
          b.get m = Member.function f →
            (((s.registerHost h a).registerHost h b).executeHostMethod h m args).events =
                [Event.apply h m args] ∧
              (∀ e, f args = Completion.throws e →
                (((s.registerHost h a).registerHost h b).executeHostMethod h m args).promise =
                  some (Settled.rejected e)) ∧
              (∀ p, f args = Completion.returnsFuture p →
                (((s.registerHost h a).registerHost h b).executeHostMethod h m args).promise =
                  p) ∧
              (∀ v, f args = Completion.returns v → v ≠ Val.null →
                (((s.registerHost h a).registerHost h b).executeHostMethod h m args).promise =
                  some (Settled.fulfilled v))) ∧
          (∀ (m : String) (args : List Val) (v : Val), b.get m = Member.value v →
            ((s.registerHost h a).registerHost h b).executeHostMethod h m args =
              { promise := some (Settled.rejected (Val.str
                  ("Invalid method name \"" ++ m ++ "\" on host \"" ++ h ++ "\"")))
                events := [] })) ∧
      (b.truthy = false → ∀ (m : String) (args : List Val),
        ((s.registerHost h a).registerHost h b).executeHostMethod h m args =
          { promise := some (Settled.rejected (Val.str ("Invalid host name \"" ++ h ++ "\"")))
            events := [] }) ∧
      (∀ (other : String), other ≠ h →
        JSMap.get (s.registerHost h a).hosts other = JSMap.get s.hosts other) ∧
      (s.registerHost h a).pendingRequests = s.pendingRequests ∧
      (s.registerHost h a).nextMessageId = s.nextMessageId ∧
      (∀ (op : Op),
        (∃ host, op = Op.registerHost h host) ∨
          JSMap.get ((s.registerHost h a).step op).1.hosts h = some a) ∧
      (∀ (ops : List Op),
        (JSMap.get ((s.registerHost h a).run ops).1.hosts h).isSome = true) := by
  have hbound : JSMap.get (s.registerHost h a).hosts h = some a := JSMap.get_set_self _ _ _
  have hlast : JSMap.get ((s.registerHost h a).registerHost h b).hosts h = some b :=
    JSMap.get_set_self _ _ _
  refine ⟨hlast, ?_, ?_, ?_, ?_, rfl, rfl, ?_, ?_⟩
  · intro m args id
    refine ⟨?_, applications_handleRequest _ id h m args⟩
    apply executeHostMethod_congr
    rw [hlast]
    exact (JSMap.get_set_self s.hosts h b).symm
  · intro htruthy
    refine ⟨?_, ?_⟩
    · intro m args f hmember
      refine ⟨?_, ?_, ?_, ?_⟩
      · rcases hcase : f args with v | p | e
        · by_cases hnull : v = Val.null
          · subst hnull
            unfold RPCService.executeHostMethod
            simp only [hlast, htruthy, hmember, hcase, Bool.not_true, Bool.false_eq_true,
              if_false]
          · rw [executeHostMethod_of_return _ h m args b f v hlast htruthy hmember hcase hnull]
        · rw [executeHostMethod_of_future _ h m args b f p hlast htruthy hmember hcase]
        · rw [executeHostMethod_of_throw _ h m args b f e hlast htruthy hmember hcase]
      · intro e hcase
        rw [executeHostMethod_of_throw _ h m args b f e hlast htruthy hmember hcase]
      · intro p hcase
        rw [executeHostMethod_of_future _ h m args b f p hlast htruthy hmember hcase]
      · intro v hcase hnull
        rw [executeHostMethod_of_return _ h m args b f v hlast htruthy hmember hcase hnull]
    · intro m args v hmember
      exact executeHostMethod_of_no_method _ h m args b v hlast htruthy hmember
  · intro hfalsy m args
    exact executeHostMethod_of_falsy _ h m args b hlast hfalsy
  · intro other hne
    exact JSMap.get_set_ne _ _ _ _ hne
  · intro op
    rcases step_hosts (s.registerHost h a) op h with ⟨host, hop, _⟩ | hsame
    · exact Or.inl ⟨host, hop⟩
    · right
      rw [hsame]
      exact hbound
  · intro ops
    apply run_hosts_bound
    rw [hbound]
    rfl

/-- C18, witness: "Sample" registered twice on the host side of main.js, first
with a host whose `give` returns 1, then with one whose `give` returns 2; a request
for `give` invokes the method once and its outcome is 2. -/
theorem registerHost_last_write_wins_witness :
    (((sampleMain (Val.num 1)).registerHost "Sample"
        (Host.sample (Val.num 2))).executeHostMethod "Sample" "give" []).promise =
      some (Settled.fulfilled (Val.num 2)) ∧
    (((sampleMain (Val.num 1)).registerHost "Sample"
        (Host.sample (Val.num 2))).executeHostMethod "Sample" "give" []).events =
      [Event.apply "Sample" "give" []] ∧
    applications (((sampleMain (Val.num 1)).registerHost "Sample"
        (Host.sample (Val.num 2))).handleRequest (requestFor 7 "Sample" "give" [])).events =
      [Event.apply "Sample" "give" []] :=
  ⟨(((registerHost_last_write_wins (RPCService.new mainConfig) "Sample"
        (Host.sample (Val.num 1)) (Host.sample (Val.num 2))).2.2.1 rfl).1 "give" []
        (fun _ => Completion.returns (Val.num 2)) rfl).2.2.2 (Val.num 2) rfl (by decide),
   (((registerHost_last_write_wins (RPCService.new mainConfig) "Sample"
        (Host.sample (Val.num 1)) (Host.sample (Val.num 2))).2.2.1 rfl).1 "give" []
        (fun _ => Completion.returns (Val.num 2)) rfl).1,
   ((registerHost_last_write_wins (RPCService.new mainConfig) "Sample"
      (Host.sample (Val.num 1)) (Host.sample (Val.num 2))).2.1 "give" [] 7).2.trans
    (((registerHost_last_write_wins (RPCService.new mainConfig) "Sample"
        (Host.sample (Val.num 1)) (Host.sample (Val.num 2))).2.2.1 rfl).1 "give" []
        (fun _ => Completion.returns (Val.num 2)) rfl).1⟩

/-- C18 fails as stated when the second value is falsy: after
`registerHost("DataService", dataService)` followed by
`registerHost("DataService", null)`, a request naming "DataService" invokes no host
method at all and is answered with the failure 'Invalid host name "DataService"',
while before the second registration it invoked `processData`. -/
theorem falsy_rebinding_reaches_nobody :
    applications (dataMain.handleRequest
        (requestFor 0 "DataService" "processData" [Val.arr [Val.num 1, Val.num 2]])).events =
      [Event.apply "DataService" "processData" [Val.arr [Val.num 1, Val.num 2]]] ∧
    applications ((dataMain.registerHost "DataService" Host.falsy).handleRequest
        (requestFor 0 "DataService" "processData" [Val.arr [Val.num 1, Val.num 2]])).events =
      [] ∧
    responsesSent ((dataMain.registerHost "DataService" Host.falsy).handleRequest
        (requestFor 0 "DataService" "processData" [Val.arr [Val.num 1, Val.num 2]])).events =
      [responseFor 0 Val.null (some "Invalid host name \"DataService\"")] := by
  refine ⟨by decide, by decide, by decide⟩

/-- C20.  For every message whose type is not "request", `handleRequest` has no
effect at all (no host method invoked, no response sent) and leaves the service
unchanged; for every message whose type is not "response", `handleResponse` has
no effect at all (no future completed) and leaves the service unchanged, whatever
the message's id. -/
theorem router_classification :
    (∀ (s : RPCService) (message : RPCMessage), message.type ≠ "request" →
      (s.handleRequest message).service = s ∧ (s.handleRequest message).events = [] ∧
        (s.handleRequest message).result = Except.ok Val.undefined) ∧
    (∀ (s : RPCService) (message : RPCMessage), message.type ≠ "response" →
      (s.handleResponse message).service = s ∧ (s.handleResponse message).events = [] ∧
        (s.handleResponse message).result = Except.ok Val.undefined) := by
  constructor
  · intro s message htype
    unfold RPCService.handleRequest
    simp [htype]
  · intro s message htype
    unfold RPCService.handleResponse
    simp [htype]

/-- C20, witness: a response envelope fed to `handleRequest` on the host side of
main.js, and a request envelope with the id of the worker's pending request 0 fed
to the worker's `handleResponse`. -/
theorem router_classification_witness :
    ((sampleMain Val.null).handleRequest (responseFor 0 (Val.num 14) none)).events = [] ∧
      (JSMap.get waitingWorker.pendingRequests
          (requestFor 0 "Sample" "boom" []).id).isSome = true ∧
      (waitingWorker.handleResponse (requestFor 0 "Sample" "boom" [])).service =
        waitingWorker ∧
      (waitingWorker.handleResponse (requestFor 0 "Sample" "boom" [])).events = [] :=
  ⟨(router_classification.1 (sampleMain Val.null) (responseFor 0 (Val.num 14) none)
      (by decide)).2.1,
   by decide,
   (router_classification.2 waitingWorker (requestFor 0 "Sample" "boom" []) (by decide)).1,
   (router_classification.2 waitingWorker (requestFor 0 "Sample" "boom" []) (by decide)).2.1⟩

/-- C19, as amended.  In every state reached from a fresh service by a sequence of
calls of which at most 2^53 are `sendRequest` calls (direct or through a proxy),
every key of `pendingRequests` is strictly less than `nextMessageId` and each
record's `id` equals its key; therefore the id the next `sendRequest` allocates
is not a key of `pendingRequests`, and inserting the new record leaves every
record that was in the table in place: it is there when the transport is called,
and still there when `sendRequest` returns, unless a response with its id was
handled during the transport call (it is there whenever the transport passes
nothing to the response handler during the call). -/
theorem pending_keys_below_counter (config : ApiWrapper) (ops : List Op)
    (hbound : ops.countP Op.isSend ≤ 2 ^ 53) :
    (∀ k r, JSMap.get ((RPCService.new config).run ops).1.pendingRequests k = some r →
      k < ((RPCService.new config).run ops).1.nextMessageId ∧ r.id = k) ∧
    JSMap.get ((RPCService.new config).run ops).1.pendingRequests
      ((RPCService.new config).run ops).1.nextMessageId = none ∧
    (∀ (methodName : String) (args : List Val) (hostName : String) k r,
      JSMap.get ((RPCService.new config).run ops).1.pendingRequests k = some r →
        JSMap.get ((((RPCService.new config).run ops).1.atSend methodName
          args).pendingRequests) k = some r ∧
        (JSMap.get ((((RPCService.new config).run ops).1.sendRequest methodName args
            hostName).service.pendingRequests) k = some r ∨
          (false, k) ∈ lifecycle (((RPCService.new config).run ops).1.sendRequest methodName
            args hostName).events) ∧
        ((∀ send during,
            ((RPCService.new config).run ops).1.apiWrapper.sendRequest = some send →
            send (requestFor ((RPCService.new config).run ops).1.nextMessageId hostName
              methodName args) = some during →
            during.delivered = []) →
          JSMap.get ((((RPCService.new config).run ops).1.sendRequest methodName args
            hostName).service.pendingRequests) k = some r)) := by
  have hinv := fresh_keys_below config ops hbound
  refine ⟨hinv, ?_, ?_⟩
  · cases hget : JSMap.get ((RPCService.new config).run ops).1.pendingRequests
        ((RPCService.new config).run ops).1.nextMessageId with
    | none => rfl
    | some r => exact absurd (hinv _ r hget).1 (Nat.lt_irrefl _)
  · intro methodName args hostName k r hget
    have hk : k ≠ ((RPCService.new config).run ops).1.nextMessageId :=
      Nat.ne_of_lt (hinv k r hget).1
    have hat : JSMap.get ((((RPCService.new config).run ops).1.atSend methodName
        args).pendingRequests) k = some r := by
      simp only [RPCService.atSend]
      rw [JSMap.get_set_ne _ _ _ _ hk]
      exact hget
    refine ⟨hat, (sendRequest_pending _ methodName args hostName k r).2 hk hget, ?_⟩
    intro hquiet
    rw [(sendRequest_undelivered _ methodName args hostName hquiet).1]
    exact hat

/-- C19, witness: the state of the worker after three unanswered requests. -/
theorem pending_keys_below_counter_witness :
    [Op.sendRequest "processData" [Val.arr [Val.num 1]] "DataService",
      Op.sendRequest "processData" [Val.arr [Val.num 2]] "DataService",
      Op.sendRequest "processData" [Val.arr [Val.num 3]] "DataService"].countP Op.isSend ≤
        2 ^ 53 ∧
      JSMap.get busyWorker.pendingRequests busyWorker.nextMessageId = none :=
  ⟨by decide,
   (pending_keys_below_counter workerConfig
      [Op.sendRequest "processData" [Val.arr [Val.num 1]] "DataService",
        Op.sendRequest "processData" [Val.arr [Val.num 2]] "DataService",
        Op.sendRequest "processData" [Val.arr [Val.num 3]] "DataService"] (by decide)).2.1⟩

/-- C19 fails as stated after 2^53 + 1 unanswered requests: the counter has stopped
at 2^53, the key 2^53 is in `pendingRequests`, so it is not below `nextMessageId`,
and the id the next `sendRequest` allocates is already a key. -/
theorem pending_key_reaches_counter :
    (freshWorker.run (List.replicate (2 ^ 53 + 1)
        (Op.sendRequest "processData" [] "DataService"))).1.nextMessageId = 2 ^ 53 ∧
      (JSMap.get (freshWorker.run (List.replicate (2 ^ 53 + 1)
          (Op.sendRequest "processData" [] "DataService"))).1.pendingRequests
        (2 ^ 53)).isSome = true ∧
      (JSMap.get (freshWorker.run (List.replicate (2 ^ 53 + 1)
          (Op.sendRequest "processData" [] "DataService"))).1.pendingRequests
        (freshWorker.run (List.replicate (2 ^ 53 + 1)
          (Op.sendRequest "processData" [] "DataService"))).1.nextMessageId).isSome = true := by
  have hcount : ∀ n, (List.replicate n
      (Op.sendRequest "processData" [] "DataService")).countP Op.isSend = n := by
    intro n
    rw [List.countP_replicate]
    simp [Op.isSend]
  have hbefore : (freshWorker.run (List.replicate (2 ^ 53)
      (Op.sendRequest "processData" [] "DataService"))).1.nextMessageId = 2 ^ 53 := by
    rw [run_nextMessageId, hcount]
    simp only [freshWorker, RPCService.new]
    rw [increment_iterate_zero]
    simp
  have hnext : (freshWorker.run (List.replicate (2 ^ 53 + 1)
      (Op.sendRequest "processData" [] "DataService"))).1.nextMessageId = 2 ^ 53 := by
    rw [run_nextMessageId, hcount]
    simp only [freshWorker, RPCService.new]
    rw [increment_iterate_zero]
    simp
  have hkey : (JSMap.get (freshWorker.run (List.replicate (2 ^ 53 + 1)
      (Op.sendRequest "processData" [] "DataService"))).1.pendingRequests
        (2 ^ 53)).isSome = true := by
    have hcfg : (freshWorker.run (List.replicate (2 ^ 53)
        (Op.sendRequest "processData" [] "DataService"))).1.apiWrapper.sendRequest =
          some postMessage := by
      rw [run_apiWrapper]
      rfl
    rw [List.replicate_succ', run_append, run_singleton, step_sendRequest,
      (sendRequest_again_at_limit _ "processData" [] "DataService" postMessage hcfg
        (fun _ => rfl) hbefore).1]
    rfl
  refine ⟨hnext, hkey, ?_⟩
  rw [hnext]
  exact hkey

theorem step_futures_distinct (s : RPCService) (op : Op)
    (hrange : ∀ k r, JSMap.get s.pendingRequests k = some r → r.future < s.promises.length)
    (hdistinct : ∀ k k' r r', k ≠ k' → JSMap.get s.pendingRequests k = some r →
      JSMap.get s.pendingRequests k' = some r' → r.future ≠ r'.future) :
    (∀ k r, JSMap.get (s.step op).1.pendingRequests k = some r →
        r.future < (s.step op).1.promises.length) ∧
      (∀ k k' r r', k ≠ k' → JSMap.get (s.step op).1.pendingRequests k = some r →
        JSMap.get (s.step op).1.pendingRequests k' = some r' → r.future ≠ r'.future) := by
  have hsend : ∀ (methodName : String) (args : List Val) (hostName : String),
      (∀ k r, JSMap.get (s.sendRequest methodName args hostName).service.pendingRequests k =
          some r →
        r.future < (s.sendRequest methodName args hostName).service.promises.length) ∧
      (∀ k k' r r', k ≠ k' →
        JSMap.get (s.sendRequest methodName args hostName).service.pendingRequests k =
          some r →
        JSMap.get (s.sendRequest methodName args hostName).service.pendingRequests k' =
          some r' → r.future ≠ r'.future) := by
    intro methodName args hostName
    rw [sendRequest_promises_length]
    have hkey : ∀ k r,
        JSMap.get (s.sendRequest methodName args hostName).service.pendingRequests k = some r →
        (k = s.nextMessageId ∧ r.future = s.promises.length) ∨
          (k ≠ s.nextMessageId ∧ JSMap.get s.pendingRequests k = some r) := by
      intro k r hget
      rcases (sendRequest_pending s methodName args hostName k r).1 hget with h | h
      · exact Or.inl ⟨h.1, by rw [h.2]⟩
      · exact Or.inr h
    constructor
    · intro k r hget
      rcases hkey k r hget with h | h
      · omega
      · have := hrange k r h.2
        omega
    · intro k k' r r' hne hget hget'
      rcases hkey k r hget with h | h <;> rcases hkey k' r' hget' with h' | h'
      · exact absurd (h.1.trans h'.1.symm) hne
      · have := hrange k' r' h'.2
        omega
      · have := hrange k r h.2
        omega
      · exact hdistinct k k' r r' hne h.2 h'.2
  cases op with
  | registerHost hostName host => exact ⟨hrange, hdistinct⟩
  | sendRequest methodName args hostName => exact hsend methodName args hostName
  | proxyCall hostName member args =>
      simp only [RPCService.step]
      cases (createProxy hostName).get member with
      | remote methodName target => exact hsend methodName args target
      | undefined => exact ⟨hrange, hdistinct⟩
      | own v => exact ⟨hrange, hdistinct⟩
      | inherited name => exact ⟨hrange, hdistinct⟩
  | handleRequest message =>
      simp only [RPCService.step, handleRequest_service]
      exact ⟨hrange, hdistinct⟩
  | handleResponse message =>
      simp only [RPCService.step]
      have hsub : ∀ k r, JSMap.get (s.handleResponse message).service.pendingRequests k =
          some r → JSMap.get s.pendingRequests k = some r := by
        intro k r hget
        rw [handleResponse_pending] at hget
        split at hget
        · cases hget
        · exact hget
      constructor
      · intro k r hget
        rw [handleResponse_promises_length]
        exact hrange k r (hsub k r hget)
      · intro k k' r r' hne hget hget'
        exact hdistinct k k' r r' hne (hsub k r hget) (hsub k' r' hget')

theorem reachable_futures_distinct (config : ApiWrapper) (ops : List Op) :
    (∀ k r, JSMap.get ((RPCService.new config).run ops).1.pendingRequests k = some r →
        r.future < ((RPCService.new config).run ops).1.promises.length) ∧
      (∀ k k' r r', k ≠ k' →
        JSMap.get ((RPCService.new config).run ops).1.pendingRequests k = some r →
        JSMap.get ((RPCService.new config).run ops).1.pendingRequests k' = some r' →
        r.future ≠ r'.future) := by
  have hgen : ∀ (ops : List Op) (s : RPCService),
      ((∀ k r, JSMap.get s.pendingRequests k = some r → r.future < s.promises.length) ∧
        (∀ k k' r r', k ≠ k' → JSMap.get s.pendingRequests k = some r →
          JSMap.get s.pendingRequests k' = some r' → r.future ≠ r'.future)) →
      ((∀ k r, JSMap.get (s.run ops).1.pendingRequests k = some r →
          r.future < (s.run ops).1.promises.length) ∧
        (∀ k k' r r', k ≠ k' → JSMap.get (s.run ops).1.pendingRequests k = some r →
          JSMap.get (s.run ops).1.pendingRequests k' = some r' → r.future ≠ r'.future)) := by
    intro ops
    induction ops with
    | nil => intro s h; exact h
    | cons op rest ih =>
        intro s h
        simp only [RPCService.run]
        exact ih _ (step_futures_distinct s op h.1 h.2)
  apply hgen
  constructor
  · intro k r hget
    simp [RPCService.new, JSMap.get] at hget
  · intro k k' r r' _ hget
    simp [RPCService.new, JSMap.get] at hget

end RpcWebWorker
